import Mathlib

/-!
The result hydration engine of `hydrate`.

A shallow embedding of `modelloader.go` and `hydrate.go`.

* Go values met in scan cells and struct fields are `Value`; `fmtV` is what
  `fmt` prints for them under the verb `%v`.
* A `reflect.Type` is a `GoType`; `baseType` is the function of `hydrate.go`.
* The metadata gorm hands over (`gorm.ModelStruct`, `gorm.StructField`,
  `gorm.Relationship`) are plain records with the fields the code reads.
* A loaded struct is an `Entity`; a pointer to a loaded struct is a `Ref`
  (which loader, which position in its `items`).
* Mutable state is passed explicitly: `processScan` maps a loader to a loader,
  `finalize` and `fillOutput` map the list of loaders to the list of loaders.
* A call ends in a `Res`: a normal return, a returned `error`, or a panic (of
  a `reflect` call, or of `Value()` called on a nil pointer).
* The database is a function from a statement to its rows; `Run` reports the
  statements it executed.
-/

namespace Hydrate

/-! ## Values and their rendering -/

/-- Go values that a scan cell or a scanned struct field can hold. -/
inductive Value where
  /-- an unsigned integer (`uint`) -/
  | uint (n : Nat)
  /-- a signed integer (`int64`) -/
  | int (i : Int)
  /-- a `string` -/
  | str (s : String)
  /-- the struct `sql.NullInt64{Int64, Valid}`, a `driver.Valuer` -/
  | nullInt64 (i : Int) (valid : Bool)
  /-- a nil pointer of a type that is no `driver.Valuer` (`*uint`,
  `*string`), or the nil interface value a `Valuer` returns for NULL -/
  | nil
  /-- a nil pointer of a type `*T` whose struct `T` has the method `Value()`
  (`*sql.NullInt64`): by its type it is a `driver.Valuer`, and the call of
  `Value()` on it dereferences nil and panics -/
  | nilValuer
  /-- a non-nil pointer: its address and the value it points to -/
  | ptr (addr : Nat) (v : Value)
  /-- a value of a user-defined type implementing `driver.Valuer`: `shown` is
  its `%v` rendering, `value` is what its `Value()` method returns -/
  | valuer (shown : String) (value : Value)
  /-- a value of a user-defined type implementing `driver.Valuer` whose
  `Value()` method returns an error; `shown` is its `%v` rendering -/
  | badValuer (shown : String)
  deriving DecidableEq, Repr

/-- Decimal rendering of a signed integer, as `%v` prints an `int64`. -/
def fmtInt (i : Int) : String :=
  match i with
  | Int.ofNat n => Nat.repr n
  | Int.negSucc n => "-" ++ Nat.repr (n + 1)

/-- Rendering of a `bool` under `%v`. -/
def fmtBool (b : Bool) : String :=
  if b then "true" else "false"

/-- Lower-case hexadecimal address, as `%v` prints a pointer to a scalar. -/
def fmtAddr (addr : Nat) : String :=
  "0x" ++ String.mk (Nat.toDigits 16 addr)

/-- What `fmt.Sprintf("%v", v)` prints. A pointer to a struct prints as `&`
followed by the struct, any other pointer prints as its address. -/
def fmtV : Value → String
  | Value.uint n => Nat.repr n
  | Value.int i => fmtInt i
  | Value.str s => s
  | Value.nullInt64 i valid => "\x7b" ++ fmtInt i ++ " " ++ fmtBool valid ++ "\x7d"
  | Value.nil => "<nil>"
  | Value.nilValuer => "<nil>"
  | Value.ptr _ (Value.nullInt64 i valid) =>
      "&\x7b" ++ fmtInt i ++ " " ++ fmtBool valid ++ "\x7d"
  | Value.ptr addr _ => fmtAddr addr
  | Value.valuer shown _ => shown
  | Value.badValuer shown => shown

/-- The loop `for val.Kind() == reflect.Ptr { val = val.Elem() }` of
`processScan`: follow pointers down to the value they lead to. -/
def derefAll : Value → Value
  | Value.ptr _ v => derefAll v
  | v => v

/-! ## Types -/

/-- A `reflect.Type`, as far as `baseType` and the `Kind` tests look at it. -/
inductive GoType where
  /-- a named, non-composite type (a struct such as `Textbook`) -/
  | named (name : String)
  /-- `*t` -/
  | ptr (t : GoType)
  /-- `[]t` -/
  | slice (t : GoType)
  /-- `[n]t` -/
  | array (n : Nat) (t : GoType)
  deriving DecidableEq, Repr

/-- Function `baseType` of `hydrate.go`: the fully unwrapped type. -/
def baseType : GoType → GoType
  | GoType.array _ t => baseType t
  | GoType.ptr t => baseType t
  | GoType.slice t => baseType t
  | t => t

/-- Test `t.Kind() == reflect.Ptr`. -/
def GoType.isPtr : GoType → Bool
  | GoType.ptr _ => true
  | _ => false

/-- Test `t.Kind() == reflect.Slice`. -/
def GoType.isSlice : GoType → Bool
  | GoType.slice _ => true
  | _ => false

/-- Result of `t.Elem()` for a pointer, slice or array type. -/
def GoType.elem : GoType → GoType
  | GoType.ptr t => t
  | GoType.slice t => t
  | GoType.array _ t => t
  | t => t

/-- Name of a type as `%s` prints a `reflect.Type`. -/
def GoType.show : GoType → String
  | GoType.named n => n
  | GoType.ptr t => "*" ++ t.show
  | GoType.slice t => "[]" ++ t.show
  | GoType.array n t => "[" ++ Nat.repr n ++ "]" ++ t.show

/-! ## gorm metadata -/

/-- The fields of `gorm.Relationship` that `finalize` reads. -/
structure Relationship where
  ForeignFieldNames : List String
  AssociationForeignFieldNames : List String
  deriving DecidableEq, Repr

/-- The fields of `gorm.StructField` that the loader reads. `typ` is
`Struct.Type`; `zero` is the zero value of that type, what a freshly
allocated struct holds in the field. -/
structure StructField where
  Name : String
  DBName : String
  IsPrimaryKey : Bool
  IsNormal : Bool
  Relationship : Option Relationship
  typ : GoType
  zero : Value
  deriving DecidableEq, Repr

/-- The fields of `gorm.ModelStruct` that the loader reads; `TableName` is
the result of `ms.TableName(db)`. -/
structure ModelStruct where
  ModelType : GoType
  StructFields : List StructField
  TableName : String
  deriving DecidableEq, Repr

/-! ## Loaded structs -/

/-- A pointer to a loaded struct: the loader that owns it and its position
in that loader's `items`. -/
structure Ref where
  loader : Nat
  idx : Nat
  deriving DecidableEq, Repr

mutual
/-- A struct of a model type: its scanned fields by name and its
relationship fields by name. -/
inductive Entity where
  | mk (scalars : List (String × Value)) (rels : List (String × Slot))
/-- Content of a relationship field or of an output variable. -/
inductive Slot where
  /-- type `*T`: nil or a pointer to a loaded struct -/
  | ptr (r : Option Ref)
  /-- type `T`: the zero struct (`none`) or a copy of a loaded struct -/
  | val (e : Option Entity)
  /-- type `[]*T` -/
  | ptrs (rs : List Ref)
  /-- type `[]T` -/
  | vals (es : List Entity)
  /-- any other type, which no `reflect` assignment of the code fits -/
  | other
end

/-- Scanned fields of a struct, by field name. -/
def Entity.scalars : Entity → List (String × Value)
  | Entity.mk scalars _ => scalars

/-- Relationship fields of a struct, by field name. -/
def Entity.rels : Entity → List (String × Slot)
  | Entity.mk _ rels => rels

/-- Value bound to `name` in an association list (first binding). -/
def assocGet {α : Type} (name : String) : List (String × α) → Option α
  | [] => none
  | (k, v) :: rest => if k = name then some v else assocGet name rest

/-- Replace the value bound to `name` (first binding); a list without
`name` is returned unchanged. -/
def assocSet {α : Type} (name : String) (v : α) : List (String × α) → List (String × α)
  | [] => []
  | (k, w) :: rest => if k = name then (k, v) :: rest else (k, w) :: assocSet name v rest

/-- Read `FieldByName(name)` of a scanned field. -/
def Entity.field (e : Entity) (name : String) : Option Value :=
  assocGet name e.scalars

/-- Assignment `FieldByName(name).Set(v)` to a scanned field. -/
def Entity.setField (e : Entity) (name : String) (v : Value) : Entity :=
  Entity.mk (assocSet name v e.scalars) e.rels

/-- Read `FieldByName(name)` of a relationship field. -/
def Entity.rel (e : Entity) (name : String) : Option Slot :=
  assocGet name e.rels

/-- Assignment `FieldByName(name).Set(s)` to a relationship field. -/
def Entity.setRel (e : Entity) (name : String) (s : Slot) : Entity :=
  Entity.mk e.scalars (assocSet name s e.rels)

/-- Zero value of a relationship field of type `t`. -/
def zeroSlot : GoType → Slot
  | GoType.named _ => Slot.val none
  | GoType.ptr (GoType.named _) => Slot.ptr none
  | GoType.slice (GoType.named _) => Slot.vals []
  | GoType.slice (GoType.ptr (GoType.named _)) => Slot.ptrs []
  | _ => Slot.other

/-- The struct `reflect.New(m.ms.ModelType).Elem()`: every field at its zero
value. -/
def zeroEntity (ms : ModelStruct) : Entity :=
  Entity.mk
    ((ms.StructFields.filter (fun f => f.IsNormal)).map (fun f => (f.Name, f.zero)))
    ((ms.StructFields.filter (fun f => f.Relationship.isSome)).map
      (fun f => (f.Name, zeroSlot f.typ)))

/-! ## modelLoader -/

/-- A scan cell `**T` after `rows.Scan`: `none` is the nil `*T` left by a SQL
NULL, `some v` the scanned value of the field's type. -/
abbrev Cell := Option Value

/-- Struct `modelLoader`. `items` holds the loaded structs themselves, in the
order received (the Go slice holds the pointers to them); `storedKeys` is the
key set of the Go map; `fields` holds the scan cells (`scanValues` are the
same cells seen as `interface{}`). -/
structure modelLoader where
  itemType : GoType
  ms : ModelStruct
  selectFields : List StructField
  keyFields : List StructField
  relationships : List StructField
  items : List Entity
  storedKeys : List String
  fields : List Cell

/-- A value given to `AddModel`: its `reflect.TypeOf` and the model struct
that gorm derives from it (`Scope.GetModelStruct`). -/
structure Example where
  typ : GoType
  ms : ModelStruct
  deriving DecidableEq, Repr

/-- Function `newModelLoader`. -/
def newModelLoader (ex : Example) : modelLoader :=
  let ms := ex.ms
  let selectFields := ms.StructFields.filter (fun f => f.IsNormal)
  { itemType := ms.ModelType
    ms := ms
    selectFields := selectFields
    keyFields := ms.StructFields.filter (fun f => f.IsNormal && f.IsPrimaryKey)
    relationships := ms.StructFields.filter (fun f => f.Relationship.isSome)
    items := []
    storedKeys := []
    fields := selectFields.map (fun _ => none) }

/-- Method `getSelectStatement`; the table name stands for
`m.ms.TableName(db)`. -/
def modelLoader.getSelectStatement (m : modelLoader) (aliasName : String) : String :=
  let a := if aliasName = "" then m.ms.TableName else aliasName
  String.intercalate "," (m.selectFields.map (fun f => a ++ "." ++ f.DBName))

/-- First loop of `processScan`: the identity key of the scanned row, built
left to right in `sb`; `none` when a primary-key cell is nil (the early
`return`). The cells are walked along with the select fields, cell `i` for
field `i`; `rows.Scan` writes one cell per select field, and a cell missing
from a shorter list reads as nil. -/
def scanKey : List StructField → List Cell → String → Option String
  | [], _, sb => some sb
  | f :: fs, cells, sb =>
      if f.IsPrimaryKey then
        match cells.headD none with
        | none => none
        | some v =>
            scanKey fs cells.tail (sb ++ ("[" ++ f.Name ++ ":" ++ fmtV (derefAll v) ++ "]"))
      else scanKey fs cells.tail sb

/-- Second loop of `processScan`: copy every non-nil cell into the field of
the same name. -/
def fillItem : List StructField → List Cell → Entity → Entity
  | [], _, e => e
  | f :: fs, cells, e =>
      match cells.headD none with
      | none => fillItem fs cells.tail e
      | some v => fillItem fs cells.tail (e.setField f.Name v)

/-- Method `processScan`. -/
def modelLoader.processScan (m : modelLoader) : modelLoader :=
  match scanKey m.selectFields m.fields "" with
  | none => m
  | some key =>
      if key ∈ m.storedKeys then m
      else
        { m with
          items := m.items ++ [fillItem m.selectFields m.fields (zeroEntity m.ms)]
          storedKeys := key :: m.storedKeys }

/-- One row for one loader: `rows.Scan` writes the cells, then `processScan`
runs. -/
def modelLoader.scanRow (m : modelLoader) (cells : List Cell) : modelLoader :=
  modelLoader.processScan { m with fields := cells }

/-- A sequence of rows processed in order by one loader. -/
def modelLoader.scanRows (m : modelLoader) (rows : List (List Cell)) : modelLoader :=
  rows.foldl modelLoader.scanRow m

/-! ## Results of fallible code -/

/-- How a call ends: it returns normally, it returns a non-nil `error`, or
it does not return because a call panics (a `reflect` call, or `Value()` on
a nil pointer). -/
inductive Res (α : Type) where
  | ok (a : α)
  | err (msg : String)
  | crash
  deriving Repr

/-- Sequencing: the first error or crash ends the computation. -/
def Res.bind {α β : Type} (r : Res α) (k : α → Res β) : Res β :=
  match r with
  | Res.ok a => k a
  | Res.err msg => Res.err msg
  | Res.crash => Res.crash

instance : Monad Res where
  pure := Res.ok
  bind := Res.bind

/-! ## finalize -/

/-- The loaders of one run, in the order of the `loaders` slice. A `Ref`
points into this list. -/
abbrev Store := List modelLoader

/-- The struct a pointer leads to. -/
def getItem (store : Store) (r : Ref) : Option Entity :=
  match store[r.loader]? with
  | none => none
  | some m => m.items[r.idx]?

/-- Write through a pointer to a loaded struct. -/
def setItem (store : Store) (r : Ref) (e : Entity) : Store :=
  match store[r.loader]? with
  | none => store
  | some m => store.set r.loader { m with items := m.items.set r.idx e }

/-- Whether the value passes the type assertion `val.(driver.Valuer)` and
the call of `Value()` that follows panics: so it is for the nil pointer of a
type such as `*sql.NullInt64`, whose method `Value()` is that of the struct
it points to. -/
def valuerPanics : Value → Bool
  | Value.nilValuer => true
  | _ => false

/-- The type assertion `val.(driver.Valuer)` followed by `Value()`, for a
value on which the call returns (`targetKey` and `ownerKey` test
`valuerPanics` first): `none` when the value is no `Valuer`, `some none`
when `Value()` returns an error, `some (some w)` when it returns `w`. A
non-nil pointer to a `Valuer` struct is a `Valuer` too. -/
def asValuer : Value → Option (Option Value)
  | Value.nullInt64 i valid => some (some (if valid then Value.int i else Value.nil))
  | Value.valuer _ w => some (some w)
  | Value.badValuer _ => some none
  | Value.ptr _ (Value.nullInt64 i valid) =>
      some (some (if valid then Value.int i else Value.nil))
  | Value.ptr _ (Value.valuer _ w) => some (some w)
  | Value.ptr _ (Value.badValuer _) => some none
  | _ => none

/-- Key of a target struct in `finalize`: for each name of
`ForeignFieldNames` the field is read as it is, replaced by its `Value()`
when it is a `Valuer` (an error of `Value()` is returned, a panic of
`Value()` on a nil pointer ends the run), and written as `[i:value]`. A name
that is no field of the struct makes `Interface()` panic. -/
def targetKey (e : Entity) : List String → Nat → String → Res String
  | [], _, sb => Res.ok sb
  | name :: names, i, sb =>
      match e.field name with
      | none => Res.crash
      | some val =>
          if valuerPanics val then Res.crash
          else
            match asValuer val with
            | some none => Res.err "Value() failed"
            | some (some w) =>
                targetKey e names (i + 1) (sb ++ ("[" ++ Nat.repr i ++ ":" ++ fmtV w ++ "]"))
            | none =>
                targetKey e names (i + 1) (sb ++ ("[" ++ Nat.repr i ++ ":" ++ fmtV val ++ "]"))

/-- One level of pointer removed from a non-nil pointer, as the owner side
of `finalize` does. -/
def derefOnce : Value → Value
  | Value.ptr _ v => v
  | v => v

/-- Key of an owning struct in `finalize`: for each name of
`AssociationForeignFieldNames` the field is read, a non-nil pointer is
followed once, a `Valuer` is replaced by its `Value()` (its error is dropped
and the returned value is then nil; a panic of `Value()` on a nil pointer
ends the run), and `[i:value]` is written. -/
def ownerKey (e : Entity) : List String → Nat → String → Res String
  | [], _, sb => Res.ok sb
  | name :: names, i, sb =>
      match e.field name with
      | none => Res.crash
      | some val =>
          if valuerPanics (derefOnce val) then Res.crash
          else
            let keyValue :=
              match asValuer (derefOnce val) with
              | some none => Value.nil
              | some (some w) => w
              | none => derefOnce val
            ownerKey e names (i + 1) (sb ++ ("[" ++ Nat.repr i ++ ":" ++ fmtV keyValue ++ "]"))

/-- The map `lookup` of `finalize`: key string to the pointers of the target
structs that have this key, in the order met. -/
abbrev Lookup := List (String × List Ref)

/-- Statement `lookup[key] = append(lookup[key], r)`. -/
def lookupAdd (key : String) (r : Ref) : Lookup → Lookup
  | [] => [(key, [r])]
  | (k, rs) :: rest =>
      if k = key then (k, rs ++ [r]) :: rest else (k, rs) :: lookupAdd key r rest

/-- Expression `lookup[key]`: the empty slice for a missing key. -/
def lookupGet (key : String) (lookup : Lookup) : List Ref :=
  (assocGet key lookup).getD []

/-- First inner loop of `finalize`: enter every target struct (the items of
loader `tl`, from position `j` on) under its key. -/
def buildLookup (rel : Relationship) (tl : Nat) : List Entity → Nat → Lookup → Res Lookup
  | [], _, lookup => Res.ok lookup
  | e :: es, j, lookup =>
      match targetKey e rel.ForeignFieldNames 0 "" with
      | Res.ok key => buildLookup rel tl es (j + 1) (lookupAdd key ⟨tl, j⟩ lookup)
      | Res.err msg => Res.err msg
      | Res.crash => Res.crash

/-- One `relVal.Set(...)` of `finalize` for a relationship field of type `t`
holding `slot`: `r` is the pointer `newVal`, `target` the struct it points
to now. `none` when `reflect` rejects the assignment. -/
def linkOne (t : GoType) (slot : Slot) (r : Ref) (target : Entity) : Option Slot :=
  if t.isSlice then
    if !t.elem.isPtr then
      match slot with
      | Slot.vals es => some (Slot.vals (es ++ [target]))
      | _ => none
    else
      match slot with
      | Slot.ptrs rs => some (Slot.ptrs (rs ++ [r]))
      | _ => none
  else
    if !t.isPtr then
      match slot with
      | Slot.val _ => some (Slot.val (some target))
      | _ => none
    else
      match slot with
      | Slot.ptr _ => some (Slot.ptr (some r))
      | _ => none

/-- Loop `for _, newVal := range lookup[key]` of `finalize` for the owning
struct `owner` and relationship field `f`: a slice field takes every match,
any other field takes the first and the loop breaks. -/
def linkAll (f : StructField) (owner : Ref) : List Ref → Store → Res Store
  | [], store => Res.ok store
  | r :: rs, store =>
      match getItem store owner, getItem store r with
      | some item, some target =>
          match item.rel f.Name with
          | none => Res.crash
          | some slot =>
              match linkOne f.typ slot r target with
              | none => Res.crash
              | some slot2 =>
                  let store2 := setItem store owner (item.setRel f.Name slot2)
                  if f.typ.isSlice then linkAll f owner rs store2 else Res.ok store2
      | _, _ => Res.crash

/-- Second inner loop of `finalize`: for the items of loader `li` at the
positions `ks`, compute the owner key and link the matches. -/
def fillItems (f : StructField) (rel : Relationship) (li : Nat) (lookup : Lookup) :
    List Nat → Store → Res Store
  | [], store => Res.ok store
  | k :: ks, store =>
      match getItem store ⟨li, k⟩ with
      | none => Res.crash
      | some item =>
          match ownerKey item rel.AssociationForeignFieldNames 0 "" with
          | Res.ok key =>
              match linkAll f ⟨li, k⟩ (lookupGet key lookup) store with
              | Res.ok store2 => fillItems f rel li lookup ks store2
              | Res.err msg => Res.err msg
              | Res.crash => Res.crash
          | Res.err msg => Res.err msg
          | Res.crash => Res.crash

/-- The map `items` of `fillOutput`, type to items slice: since the slice
holds pointers, the entry is the position of the loader that owns them. -/
abbrev ItemMap := List (GoType × Nat)

/-- Expression `itemMap[t]` with its `ok` flag. -/
def itemMapGet (t : GoType) : ItemMap → Option Nat
  | [] => none
  | (k, v) :: rest => if k = t then some v else itemMapGet t rest

/-- Statement `itemMap[t] = v`. -/
def itemMapSet (t : GoType) (v : Nat) : ItemMap → ItemMap
  | [] => [(t, v)]
  | (k, w) :: rest => if k = t then (k, v) :: rest else (k, w) :: itemMapSet t v rest

/-- Body of the loop over `m.relationships` in `finalize`, for the loader at
position `li` and one relationship field `f`. -/
def finalizeRel (li : Nat) (itemMap : ItemMap) (f : StructField) (store : Store) : Res Store :=
  match itemMapGet (baseType f.typ) itemMap with
  | none => Res.ok store
  | some tl =>
      match f.Relationship, store[tl]?, store[li]? with
      | some rel, some target, some m =>
          match buildLookup rel tl target.items 0 [] with
          | Res.ok lookup => fillItems f rel li lookup (List.range m.items.length) store
          | Res.err msg => Res.err msg
          | Res.crash => Res.crash
      | _, _, _ => Res.crash

/-- Loop over `m.relationships` in `finalize`. -/
def finalizeRels (li : Nat) (itemMap : ItemMap) : List StructField → Store → Res Store
  | [], store => Res.ok store
  | f :: fs, store =>
      match finalizeRel li itemMap f store with
      | Res.ok store2 => finalizeRels li itemMap fs store2
      | Res.err msg => Res.err msg
      | Res.crash => Res.crash

/-- Method `finalize` of the loader at position `li`. -/
def finalize (li : Nat) (itemMap : ItemMap) (store : Store) : Res Store :=
  match store[li]? with
  | none => Res.crash
  | some m => finalizeRels li itemMap m.relationships store

/-! ## fillOutput -/

/-- One element of the `output ...interface{}` argument of `Run`. -/
inductive Output where
  /-- the untyped `nil` -/
  | untypedNil
  /-- a value whose type `t` is no pointer type (a struct, a slice) -/
  | nonPtr (t : GoType)
  /-- a nil pointer of type `*t` -/
  | nilPtr (t : GoType)
  /-- a non-nil pointer to a variable of type `t` that holds `cur` -/
  | ptr (t : GoType) (cur : Slot)

/-- First loop of `fillOutput`: `items[baseType(l.itemType)] = l.items` for
the loaders from position `i` on. -/
def buildItemMap : List modelLoader → Nat → ItemMap → ItemMap
  | [], _, itemMap => itemMap
  | l :: ls, i, itemMap => buildItemMap ls (i + 1) (itemMapSet (baseType l.itemType) i itemMap)

/-- Second loop of `fillOutput`: `finalize` on the loaders at the positions
`lis`, stopping at the first error. -/
def finalizeAll (itemMap : ItemMap) : List Nat → Store → Res Store
  | [], store => Res.ok store
  | li :: lis, store =>
      match finalize li itemMap store with
      | Res.ok store2 => finalizeAll itemMap lis store2
      | Res.err msg => Res.err msg
      | Res.crash => Res.crash

/-- Loop `for _, i := range items` of `fillOutput` over a slice variable:
`el.Set(reflect.Append(el, add))` where `add` is the pointer `r`, or the
struct it points to when `addStruct` holds. -/
def appendItems (addStruct : Bool) (store : Store) : List Ref → Slot → Res Slot
  | [], cur => Res.ok cur
  | r :: rs, cur =>
      if addStruct then
        match getItem store r, cur with
        | some e, Slot.vals es => appendItems addStruct store rs (Slot.vals (es ++ [e]))
        | _, _ => Res.crash
      else
        match cur with
        | Slot.ptrs ps => appendItems addStruct store rs (Slot.ptrs (ps ++ [r]))
        | _ => Res.crash

/-- Branch of `fillOutput` for a variable that is no slice: `el.Set(add)`
where `add` is the pointer `r` to the first item, or the struct it points to
when the variable is no pointer. -/
def setFirst (t : GoType) (store : Store) (r : Ref) (cur : Slot) : Res Slot :=
  if !t.isPtr then
    match getItem store r, cur with
    | some e, Slot.val _ => Res.ok (Slot.val (some e))
    | _, _ => Res.crash
  else
    match cur with
    | Slot.ptr _ => Res.ok (Slot.ptr (some r))
    | _ => Res.crash

/-- The error `fmt.Errorf("type %s can not be set", val.Type())`. -/
def canNotBeSet (t : GoType) : String :=
  "type " ++ t.show ++ " can not be set"

/-- Body of the loop over `output` in `fillOutput`. The check of the
destination fails with an error for a non-pointer and for a nil pointer;
for the untyped nil, building the error message calls `val.Type()` on the
zero `reflect.Value`, which panics. -/
def bindOutput (itemMap : ItemMap) (store : Store) : Output → Res Output
  | Output.untypedNil => Res.crash
  | Output.nonPtr t => Res.err (canNotBeSet t)
  | Output.nilPtr t => Res.err (canNotBeSet (GoType.ptr t))
  | Output.ptr t cur =>
      match itemMapGet (baseType (GoType.ptr t)) itemMap with
      | none => Res.ok (Output.ptr t cur)
      | some li =>
          match store[li]? with
          | none => Res.crash
          | some l =>
              let items := (List.range l.items.length).map (fun k => Ref.mk li k)
              if t.isSlice then
                match appendItems (!t.elem.isPtr) store items cur with
                | Res.ok cur2 => Res.ok (Output.ptr t cur2)
                | Res.err msg => Res.err msg
                | Res.crash => Res.crash
              else
                match items with
                | [] => Res.ok (Output.ptr t cur)
                | r :: _ =>
                    match setFirst t store r cur with
                    | Res.ok cur2 => Res.ok (Output.ptr t cur2)
                    | Res.err msg => Res.err msg
                    | Res.crash => Res.crash

/-- Loop over `output` in `fillOutput`: the destinations are bound in order;
at the first one that fails the loop ends, the destinations before it stay
bound and the ones after it stay as they were. -/
def bindOutputs (itemMap : ItemMap) (store : Store) : List Output → Res Unit × List Output
  | [] => (Res.ok (), [])
  | o :: os =>
      match bindOutput itemMap store o with
      | Res.ok o2 =>
          let rest := bindOutputs itemMap store os
          (rest.1, o2 :: rest.2)
      | Res.err msg => (Res.err msg, o :: os)
      | Res.crash => (Res.crash, o :: os)

/-- What a run leaves behind: how it ended, the output destinations, the
loaders with their structs (the structs that the pointers held by the
outputs lead to, when `fillOutput` got as far as the outputs), and the SQL
statements handed to the database in order. -/
structure RunResult where
  outcome : Res Unit
  outputs : List Output
  loaders : Store
  executed : List String

/-- Function `fillOutput`; `executed` is passed through. -/
def fillOutput (loaders : Store) (output : List Output) (executed : List String) : RunResult :=
  let itemMap := buildItemMap loaders 0 []
  match finalizeAll itemMap (List.range loaders.length) loaders with
  | Res.ok store =>
      let bound := bindOutputs itemMap store output
      { outcome := bound.1, outputs := bound.2, loaders := store, executed := executed }
  | Res.err msg =>
      { outcome := Res.err msg, outputs := output, loaders := loaders, executed := executed }
  | Res.crash =>
      { outcome := Res.crash, outputs := output, loaders := loaders, executed := executed }

/-! ## Query -/

/-- One row of a result set as `rows.Scan` meets it: the scan fails with an
error, or it delivers one cell per destination. -/
abbrev ScanRow := Except String (List Cell)

/-- The database behind `db.Raw(sql, args...).Rows()`: a statement and its
arguments give an error or the rows. -/
abbrev DB := String → List Value → Except String (List ScanRow)

/-- Struct `modelConfiguration`; `exampleVal` is its field `example`,
`aliasName` its field `alias`. -/
structure modelConfiguration where
  exampleVal : Example
  aliasName : String

/-- Struct `Query`. The field `getModelLoader` of the source is the pair of
arguments `store`, `loaders` of `runQuery`: the loaders to use are handed
over by the caller. -/
structure Query where
  db : DB
  query : String
  args : List Value
  models : List modelConfiguration

/-- Function `NewQuery`. -/
def NewQuery (db : DB) (query : String) (args : List Value) : Query :=
  { db := db, query := query, args := args, models := [] }

/-- Method `AddModel`. -/
def Query.AddModel (r : Query) (ex : Example) (aliasName : String) : Query :=
  { r with models := r.models ++ [{ exampleVal := ex, aliasName := aliasName }] }

/-- Function `newModelLoaders`: a new loader for every model, and the
aliases. -/
def newModelLoaders (models : List modelConfiguration) : Store × List String :=
  (models.map (fun m => newModelLoader m.exampleVal), models.map (fun m => m.aliasName))

/-- The select lists of the loaders at the positions `loaders`, each under
its alias. -/
def selectLists (store : Store) : List Nat → List String → List String
  | l :: ls, a :: as =>
      match store[l]? with
      | some m => m.getSelectStatement a :: selectLists store ls as
      | none => selectLists store ls as
  | _, _ => []

/-- The statement `fmt.Sprintf("%s %s %s", "SELECT", strings.Join(selects, ","), r.query)`. -/
def Query.statement (r : Query) (store : Store) (loaders : List Nat) (aliases : List String) :
    String :=
  "SELECT" ++ " " ++ String.intercalate "," (selectLists store loaders aliases) ++ " " ++ r.query

/-- Number of scan destinations: the cells of all loaders used. -/
def scanCount (store : Store) : List Nat → Nat
  | [] => 0
  | l :: ls =>
      match store[l]? with
      | some m => m.selectFields.length + scanCount store ls
      | none => scanCount store ls

/-- A successful `rows.Scan(scans...)`: the cells of the row are written
into the scan cells of the loaders, loader by loader. -/
def scanInto : List Nat → List Cell → Store → Store
  | [], _, store => store
  | l :: ls, cells, store =>
      match store[l]? with
      | some m =>
          let n := m.selectFields.length
          scanInto ls (cells.drop n) (store.set l { m with fields := cells.take n })
      | none => scanInto ls cells store

/-- Loop `for _, l := range loaders { l.processScan() }`. -/
def processAll : List Nat → Store → Store
  | [], store => store
  | l :: ls, store =>
      match store[l]? with
      | some m => processAll ls (store.set l m.processScan)
      | none => processAll ls store

/-- Loop `for rows.Next()` of `runQuery`: a row that does not scan ends the
run with the error. -/
def scanLoop (loaders : List Nat) : List ScanRow → Store → Res Store
  | [], store => Res.ok store
  | Except.error msg :: _, _ => Res.err msg
  | Except.ok cells :: rows, store =>
      if cells.length = scanCount store loaders then
        scanLoop loaders rows (processAll loaders (scanInto loaders cells store))
      else Res.err "sql: wrong number of destination arguments in Scan"

/-- Method `runQuery` on the loaders at the positions `loaders` of `store`:
the statement handed to the database, and the loaders after all rows, or
the error. -/
def Query.runQuery (r : Query) (store : Store) (loaders : List Nat) (aliases : List String) :
    String × Res Store :=
  let stmt := r.statement store loaders aliases
  match r.db stmt r.args with
  | Except.error msg => (stmt, Res.err msg)
  | Except.ok rows => (stmt, scanLoop loaders rows store)

/-- Method `Query.Run`. -/
def Query.Run (r : Query) (output : List Output) : RunResult :=
  let made := newModelLoaders r.models
  let ran := r.runQuery made.1 (List.range made.1.length) made.2
  match ran.2 with
  | Res.ok loaders => fillOutput loaders output [ran.1]
  | Res.err msg =>
      { outcome := Res.err msg, outputs := output, loaders := made.1, executed := [ran.1] }
  | Res.crash =>
      { outcome := Res.crash, outputs := output, loaders := made.1, executed := [ran.1] }

/-! ## MultiQuery -/

/-- Type `MultiQuery`. -/
abbrev MultiQuery := List Query

/-- Loop over `q.models` in `MultiQuery.Run`: a model whose base type has no
loader yet gets a new one, appended to `loaders` and entered in
`loaderMap`. -/
def registerModels : List modelConfiguration → Store × ItemMap → Store × ItemMap
  | [], st => st
  | model :: models, (loaders, loaderMap) =>
      let modelType := baseType model.exampleVal.typ
      match itemMapGet modelType loaderMap with
      | some _ => registerModels models (loaders, loaderMap)
      | none =>
          registerModels models
            (loaders ++ [newModelLoader model.exampleVal],
             itemMapSet modelType loaders.length loaderMap)

/-- The closure `getModelLoader` of `MultiQuery.Run`: the shared loader of
each model, by base type. A type without entry gives the nil loader, here a
position past the end of the list. -/
def sharedLoaders (loaders : Store) (loaderMap : ItemMap) :
    List modelConfiguration → List Nat × List String
  | [] => ([], [])
  | m :: ms =>
      let rest := sharedLoaders loaders loaderMap ms
      ((itemMapGet (baseType m.exampleVal.typ) loaderMap).getD loaders.length :: rest.1,
       m.aliasName :: rest.2)

/-- Loop over the queries of `MultiQuery.Run`: the shared loaders after the
last query, or the first error; with the statements executed so far. -/
def runQueries : List Query → Store × ItemMap → List String → List String × Res Store
  | [], (loaders, _), executed => (executed, Res.ok loaders)
  | q :: qs, st, executed =>
      let st2 := registerModels q.models st
      let got := sharedLoaders st2.1 st2.2 q.models
      let ran := q.runQuery st2.1 got.1 got.2
      match ran.2 with
      | Res.ok loaders => runQueries qs (loaders, st2.2) (executed ++ [ran.1])
      | Res.err msg => (executed ++ [ran.1], Res.err msg)
      | Res.crash => (executed ++ [ran.1], Res.crash)

/-- Method `MultiQuery.Run`. -/
def MultiQuery.Run (m : MultiQuery) (output : List Output) : RunResult :=
  let ran := runQueries m ([], []) []
  match ran.2 with
  | Res.ok loaders => fillOutput loaders output ran.1
  | Res.err msg => { outcome := Res.err msg, outputs := output, loaders := [], executed := ran.1 }
  | Res.crash => { outcome := Res.crash, outputs := output, loaders := [], executed := ran.1 }

/-! ## Statement-side definitions -/

/-- The composite primary key of a loaded struct: the values of the key
fields of its loader, in order. -/
def pkTuple (m : modelLoader) (e : Entity) : List (Option Value) :=
  m.keyFields.map (fun f => e.field f.Name)

/-- The composite primary key with every pointer followed to its value. -/
def pkTupleDeref (m : modelLoader) (e : Entity) : List (Option Value) :=
  (pkTuple m e).map (Option.map derefAll)

/-- The identity key written for the key fields `keys` holding `vals`. -/
def renderKey : List StructField → List (Option Value) → String → String
  | f :: fs, v :: vs, sb =>
      renderKey fs vs (sb ++ ("[" ++ f.Name ++ ":" ++ fmtV (v.getD Value.nil) ++ "]"))
  | _, _, sb => sb

/-- The identity key of a loaded struct, written from its own key fields. -/
def entityKey (m : modelLoader) (e : Entity) : String :=
  renderKey (m.selectFields.filter (fun f => f.IsPrimaryKey))
    ((m.selectFields.filter (fun f => f.IsPrimaryKey)).map
      (fun f => (e.field f.Name).map derefAll)) ""

/-- What holds of a loader made by `newModelLoader` at every moment: the
metadata fit together, every item has its key stored, and the keys of the
items are pairwise different. -/
structure LoaderInv (m : modelLoader) : Prop where
  names : (m.selectFields.map (fun f => f.Name)).Nodup
  zero : ∀ f ∈ m.selectFields, ((zeroEntity m.ms).field f.Name).isSome
  keys : m.keyFields = m.selectFields.filter (fun f => f.IsPrimaryKey)
  stored : ∀ e ∈ m.items, entityKey m e ∈ m.storedKeys
  nodup : (m.items.map (entityKey m)).Nodup

/-- The primary-key tuple that a scanned row carries for the fields `sel`
(pointers followed to their values); `none` when a key cell is null. -/
def rowKey : List StructField → List Cell → Option (List Value)
  | [], _ => some []
  | f :: fs, cells =>
      if f.IsPrimaryKey then
        match cells.headD none with
        | none => none
        | some v => (rowKey fs cells.tail).map (fun vs => derefAll v :: vs)
      else rowKey fs cells.tail

/-- Number of distinct primary-key tuples without null component among the
rows. -/
def distinctKeyCount (sel : List StructField) (rows : List (List Cell)) : Nat :=
  ((rows.filterMap (rowKey sel)).dedup).length

/-- In the words of the specification: the rows that are the first, in row
order, to carry their primary-key tuple; rows with a null key cell are left
out. `seen` holds the tuples met so far. -/
def firstRowPerKey (sel : List StructField) : List (List Cell) → List (List Value) → List (List Cell)
  | [], _ => []
  | r :: rs, seen =>
      match rowKey sel r with
      | none => firstRowPerKey sel rs seen
      | some k => if k ∈ seen then firstRowPerKey sel rs seen
                  else r :: firstRowPerKey sel rs (k :: seen)

/-- In the words of the specification: for each scanned field, the cell of
the row, or the zero value of the field when the cell is null or missing. -/
def specScalars : List StructField → List Cell → List (String × Value)
  | [], _ => []
  | f :: fs, cells => (f.Name, (cells.headD none).getD f.zero) :: specScalars fs cells.tail

/-- In the words of the specification: the struct built from one row alone,
relationship fields at their zero value. -/
def specEntity (m : modelLoader) (r : List Cell) : Entity :=
  Entity.mk (specScalars m.selectFields r) (zeroEntity m.ms).rels

/-- In the words of the specification: the item list a loader is to hold
after the rows. -/
def specItems (m : modelLoader) (rows : List (List Cell)) : List Entity :=
  (firstRowPerKey m.selectFields rows []).map (specEntity m)

/-- The type `val.Type()` of an output that is a non-pointer or a nil
pointer, the two kinds of output that `fillOutput` answers with its error. -/
def Output.badType : Output → Option GoType
  | Output.nonPtr t => some t
  | Output.nilPtr t => some (GoType.ptr t)
  | _ => none

/-! ## Example models -/

/-- A scanned field of a model. -/
def scalarField (name dbName : String) (isKey : Bool) (t : GoType) (zero : Value) : StructField :=
  { Name := name, DBName := dbName, IsPrimaryKey := isKey, IsNormal := true,
    Relationship := none, typ := t, zero := zero }

/-- A relationship field of a model. -/
def relField (name : String) (t : GoType) (foreignNames assocNames : List String) : StructField :=
  { Name := name, DBName := "", IsPrimaryKey := false, IsNormal := false,
    Relationship := some { ForeignFieldNames := foreignNames,
                           AssociationForeignFieldNames := assocNames },
    typ := t, zero := Value.nil }

/-- Model `Child(id, parent_id, name)`. -/
def childModel : Example :=
  { typ := GoType.named "Child"
    ms := { ModelType := GoType.named "Child"
            StructFields :=
              [scalarField "ID" "id" true (GoType.named "uint") (Value.uint 0),
               scalarField "ParentID" "parent_id" false (GoType.named "uint") (Value.uint 0),
               scalarField "Name" "name" false (GoType.named "string") (Value.str "")]
            TableName := "children" } }

/-- Model `Parent(id, name)` with the has-many relationship
`Children []Child`, keyed by `Child.ParentID = Parent.ID`. -/
def parentModel : Example :=
  { typ := GoType.named "Parent"
    ms := { ModelType := GoType.named "Parent"
            StructFields :=
              [scalarField "ID" "id" true (GoType.named "uint") (Value.uint 0),
               scalarField "Name" "name" false (GoType.named "string") (Value.str ""),
               relField "Children" (GoType.slice (GoType.named "Child")) ["ParentID"] ["ID"]]
            TableName := "parents" } }

/-- The rows of scenario A, one cell per selected column `p.id, p.name,
c.id, c.parent_id, c.name`; the scenario leaves `c.parent_id` unwritten, it
is the joined parent's id. -/
def scenarioARows : List ScanRow :=
  [Except.ok [some (Value.uint 1), some (Value.str "P1"),
              some (Value.uint 1), some (Value.uint 1), some (Value.str "C1")],
   Except.ok [some (Value.uint 1), some (Value.str "P1"),
              some (Value.uint 2), some (Value.uint 1), some (Value.str "C2")],
   Except.ok [some (Value.uint 1), some (Value.str "P1"), none, none, none]]

/-- A database that answers every statement with the rows of scenario A. -/
def scenarioADB : DB :=
  fun _ _ => Except.ok scenarioARows

/-- The query of scenario A: `Parent` under alias `p`, then `Child` under
alias `c`. -/
def scenarioAQuery : Query :=
  ((NewQuery scenarioADB
      "FROM parents p LEFT JOIN children c ON c.parent_id = p.id ORDER BY p.id, c.id"
      []).AddModel parentModel "p").AddModel childModel "c"

/-- Struct `Child{ID: 1, ParentID: 1, Name: "C1"}`. -/
def childC1 : Entity :=
  Entity.mk [("ID", Value.uint 1), ("ParentID", Value.uint 1), ("Name", Value.str "C1")] []

/-- Struct `Child{ID: 2, ParentID: 1, Name: "C2"}`. -/
def childC2 : Entity :=
  Entity.mk [("ID", Value.uint 2), ("ParentID", Value.uint 1), ("Name", Value.str "C2")] []

/-- Struct `Parent{ID: 1, Name: "P1", Children: [C1, C2]}`. -/
def parentP1 : Entity :=
  Entity.mk [("ID", Value.uint 1), ("Name", Value.str "P1")]
    [("Children", Slot.vals [childC1, childC2])]

/-- Output `&parents` with `var parents []Parent`. -/
def parentsOut : Output :=
  Output.ptr (GoType.slice (GoType.named "Parent")) (Slot.vals [])

/-- Output `&children` with `var children []Child`. -/
def childrenOut : Output :=
  Output.ptr (GoType.slice (GoType.named "Child")) (Slot.vals [])

/-- Model `Pair` with the composite primary key `(A, B)` of two strings. -/
def pairModel : Example :=
  { typ := GoType.named "Pair"
    ms := { ModelType := GoType.named "Pair"
            StructFields :=
              [scalarField "A" "a" true (GoType.named "string") (Value.str ""),
               scalarField "B" "b" true (GoType.named "string") (Value.str "")]
            TableName := "pairs" } }

/-- Two rows of `Pair` with the different keys `("1][B:2", "3")` and
`("1", "2][B:3")`. -/
def pairRows : List (List Cell) :=
  [[some (Value.str "1][B:2"), some (Value.str "3")],
   [some (Value.str "1"), some (Value.str "2][B:3")]]

/-- Model `Kid(id, parent_id)` whose foreign key is the nullable
`ParentID *uint`. -/
def kidModel : Example :=
  { typ := GoType.named "Kid"
    ms := { ModelType := GoType.named "Kid"
            StructFields :=
              [scalarField "ID" "id" true (GoType.named "uint") (Value.uint 0),
               scalarField "ParentID" "parent_id" false (GoType.ptr (GoType.named "uint"))
                 Value.nil]
            TableName := "kids" } }

/-- Model `Owner(id)` with the has-many relationship `Kids []Kid`, keyed by
`Kid.ParentID = Owner.ID`. -/
def ownerModel : Example :=
  { typ := GoType.named "Owner"
    ms := { ModelType := GoType.named "Owner"
            StructFields :=
              [scalarField "ID" "id" true (GoType.named "uint") (Value.uint 0),
               relField "Kids" (GoType.slice (GoType.named "Kid")) ["ParentID"] ["ID"]]
            TableName := "owners" } }

/-- The loaders after scanning `Owner{ID: 1}` and `Kid{ID: 5, ParentID: &1}`
(the pointer at address `0xc000`). -/
def kidStore : Store :=
  [(newModelLoader ownerModel).scanRows [[some (Value.uint 1)]],
   (newModelLoader kidModel).scanRows
     [[some (Value.uint 5), some (Value.ptr 49152 (Value.uint 1))]]]

/-- Model `Exercise(exercise_id, section_id)`. -/
def exerciseModel : Example :=
  { typ := GoType.named "Exercise"
    ms := { ModelType := GoType.named "Exercise"
            StructFields :=
              [scalarField "ExerciseID" "exercise_id" true (GoType.named "uint") (Value.uint 0),
               scalarField "SectionID" "section_id" false (GoType.named "uint") (Value.uint 0)]
            TableName := "exercises" } }

/-- Model `Section(section_id, textbook_id)` with `Exercises []Exercise`. -/
def sectionModel : Example :=
  { typ := GoType.named "Section"
    ms := { ModelType := GoType.named "Section"
            StructFields :=
              [scalarField "SectionID" "section_id" true (GoType.named "uint") (Value.uint 0),
               scalarField "TextbookID" "textbook_id" false (GoType.named "uint") (Value.uint 0),
               relField "Exercises" (GoType.slice (GoType.named "Exercise"))
                 ["SectionID"] ["SectionID"]]
            TableName := "sections" } }

/-- Model `Textbook(textbook_id)` with `Sections []Section`, a slice of
structs. -/
def textbookModel : Example :=
  { typ := GoType.named "Textbook"
    ms := { ModelType := GoType.named "Textbook"
            StructFields :=
              [scalarField "TextbookID" "textbook_id" true (GoType.named "uint") (Value.uint 0),
               relField "Sections" (GoType.slice (GoType.named "Section"))
                 ["TextbookID"] ["TextbookID"]]
            TableName := "textbooks" } }

/-- Textbook 7 with section 3 and exercise 9, the models added in the order
`Textbook`, `Section`, `Exercise`: one joined row
`t.textbook_id, s.section_id, s.textbook_id, e.exercise_id, e.section_id`. -/
def textbookFirst : Query :=
  (((NewQuery (fun _ _ => Except.ok [Except.ok
        [some (Value.uint 7), some (Value.uint 3), some (Value.uint 7),
         some (Value.uint 9), some (Value.uint 3)]])
      "FROM textbooks t JOIN sections s ON s.textbook_id = t.textbook_id JOIN exercises e ON e.section_id = s.section_id"
      []).AddModel textbookModel "t").AddModel sectionModel "s").AddModel exerciseModel "e"

/-- The same data, the models added in the order `Exercise`, `Section`,
`Textbook`: the row is
`e.exercise_id, e.section_id, s.section_id, s.textbook_id, t.textbook_id`. -/
def textbookLast : Query :=
  (((NewQuery (fun _ _ => Except.ok [Except.ok
        [some (Value.uint 9), some (Value.uint 3), some (Value.uint 3),
         some (Value.uint 7), some (Value.uint 7)]])
      "FROM textbooks t JOIN sections s ON s.textbook_id = t.textbook_id JOIN exercises e ON e.section_id = s.section_id"
      []).AddModel exerciseModel "e").AddModel sectionModel "s").AddModel textbookModel "t"

/-- Output `&textbooks` with `var textbooks []Textbook`. -/
def textbooksOut : Output :=
  Output.ptr (GoType.slice (GoType.named "Textbook")) (Slot.vals [])

/-- Struct `Exercise{ExerciseID: 9, SectionID: 3}`. -/
def exercise9 : Entity :=
  Entity.mk [("ExerciseID", Value.uint 9), ("SectionID", Value.uint 3)] []

/-- Struct `Section{SectionID: 3, TextbookID: 7}` holding `exercises`. -/
def section3 (exercises : List Entity) : Entity :=
  Entity.mk [("SectionID", Value.uint 3), ("TextbookID", Value.uint 7)]
    [("Exercises", Slot.vals exercises)]

/-- Struct `Textbook{TextbookID: 7}` holding `sections`. -/
def textbook7 (sections : List Entity) : Entity :=
  Entity.mk [("TextbookID", Value.uint 7)] [("Sections", Slot.vals sections)]


/-! ## Definitions for the statements on outputs and failures -/

/-- A query over `Parent` and `Child` whose statement the database rejects. -/
def rejectedQuery : Query :=
  ((NewQuery (fun _ _ => Except.error "Error 1054: Unknown column 'not_a_column'")
      "FROM parents p JOIN children c ON c.parent_id = p.id WHERE not_a_column in (?)"
      [Value.uint 1]).AddModel parentModel "p").AddModel childModel "c"

/-- A query over `Parent` and `Child` whose first row scans and whose second
row does not. -/
def badRowQuery : Query :=
  ((NewQuery (fun _ _ => Except.ok
        [Except.ok [some (Value.uint 1), some (Value.str "P1"),
                    some (Value.uint 1), some (Value.uint 1), some (Value.str "C1")],
         Except.error "sql: Scan error on column index 1: converting driver.Value type"])
      "FROM parents p LEFT JOIN children c ON c.parent_id = p.id" []).AddModel
    parentModel "p").AddModel childModel "c"

/-- Output `&parent` with `var parent Parent`, the zero struct. -/
def parentOut : Output :=
  Output.ptr (GoType.named "Parent") (Slot.val none)

/-- Output `&child` with `var child *Child`, nil. -/
def childPtrOut : Output :=
  Output.ptr (GoType.ptr (GoType.named "Child")) (Slot.ptr none)

/-- Output `&exercises` with `var exercises []*Exercise`, a type that no
loader of scenario A holds. -/
def exercisesOut : Output :=
  Output.ptr (GoType.slice (GoType.ptr (GoType.named "Exercise"))) (Slot.ptrs [])

/-- The loaders of scenario A after its three rows. -/
def scenarioAStore : Store :=
  [(newModelLoader parentModel).scanRows
     [[some (Value.uint 1), some (Value.str "P1")],
      [some (Value.uint 1), some (Value.str "P1")],
      [some (Value.uint 1), some (Value.str "P1")]],
   (newModelLoader childModel).scanRows
     [[some (Value.uint 1), some (Value.uint 1), some (Value.str "C1")],
      [some (Value.uint 2), some (Value.uint 1), some (Value.str "C2")],
      [none, none, none]]]

/-- The `Parent` loader of scenario A alone, after one row. -/
def parentOnlyStore : Store :=
  [(newModelLoader parentModel).scanRows [[some (Value.uint 1), some (Value.str "P1")]]]

/-! ## Definitions for the statements on finalize -/

/-- Two states of the loaders agree outside the relationship field `n`:
every pointer leads to a struct in the one exactly when it does in the
other, with the same scanned fields and the same content of every
relationship field other than `n`. -/
def SameOutside (n : String) (store store2 : Store) : Prop :=
  ∀ r : Ref,
    (getItem store2 r).map (fun e => e.scalars) = (getItem store r).map (fun e => e.scalars) ∧
    ∀ n2, n ≠ n2 →
      (getItem store2 r).map (fun e => e.rel n2) = (getItem store r).map (fun e => e.rel n2)

/-- A call returned normally. -/
def Res.isOk {α : Type} : Res α → Bool
  | Res.ok _ => true
  | _ => false

/-- Model `Drill(drill_id, unit_id)`. -/
def drillModel : Example :=
  { typ := GoType.named "Drill"
    ms := { ModelType := GoType.named "Drill"
            StructFields :=
              [scalarField "DrillID" "drill_id" true (GoType.named "uint") (Value.uint 0),
               scalarField "UnitID" "unit_id" false (GoType.named "uint") (Value.uint 0)]
            TableName := "drills" } }

/-- Model `Unit(unit_id)` with the relationship `First *Drill`, keyed by
`Drill.UnitID = Unit.UnitID`. -/
def unitModel : Example :=
  { typ := GoType.named "Unit"
    ms := { ModelType := GoType.named "Unit"
            StructFields :=
              [scalarField "UnitID" "unit_id" true (GoType.named "uint") (Value.uint 0),
               relField "First" (GoType.ptr (GoType.named "Drill")) ["UnitID"] ["UnitID"]]
            TableName := "units" } }

/-- The loaders after scanning units 3 and 4 and the drills 9 and 10, both
of unit 3. -/
def unitStore : Store :=
  [(newModelLoader unitModel).scanRows [[some (Value.uint 3)], [some (Value.uint 4)]],
   (newModelLoader drillModel).scanRows
     [[some (Value.uint 9), some (Value.uint 3)], [some (Value.uint 10), some (Value.uint 3)]]]

/-! ## Definitions for the statement on the select list -/

/-- In the words of the specification: the columns of a loader, one
`<qualifier>.<column>` per select field in order, the qualifier being the
alias, or the table name of the model when the alias is empty. -/
def selectColumns (m : modelLoader) (aliasName : String) : List String :=
  m.selectFields.map
    (fun f => (if aliasName = "" then m.ms.TableName else aliasName) ++ "." ++ f.DBName)

/-! ## Definitions for the statements on MultiQuery -/

/-- The cells of one row that end up in the scan cells of the loader at
position `li`, when `rows.Scan` writes the row into the cells of the loaders
at the positions `loaders`: the stretch of the row that belongs to the last
place where `li` stands in `loaders` (a later write replaces an earlier
one); `none` when `li` is not among them. -/
def lastSlice (store : Store) (li : Nat) : List Nat → List Cell → Option (List Cell)
  | [], _ => none
  | l :: ls, cells =>
      match store[l]? with
      | some m =>
          match lastSlice store li ls (cells.drop m.selectFields.length) with
          | some c => some c
          | none => if l = li then some (cells.take m.selectFields.length) else none
      | none => lastSlice store li ls cells

/-- The rows that one query delivers to the loader at position `li`: of
every row, the cells that belong to this loader. -/
def rowsFor (store : Store) (li : Nat) (loaders : List Nat) : List ScanRow → List (List Cell)
  | [] => []
  | Except.error _ :: _ => []
  | Except.ok cells :: rows =>
      match lastSlice store li loaders cells with
      | some c => c :: rowsFor store li loaders rows
      | none => rowsFor store li loaders rows

/-- The row lists `R1, ..., Rn` that the successive queries of a
`MultiQuery` deliver to the loader at position `li`, one list for each
query, in the run that starts from the loaders and the loader map `st`. -/
def deliveredLists (li : Nat) : List Query → Store × ItemMap → List (List (List Cell))
  | [], _ => []
  | q :: qs, st =>
      let st2 := registerModels q.models st
      let got := sharedLoaders st2.1 st2.2 q.models
      match q.db (q.statement st2.1 got.1 got.2) q.args with
      | Except.error _ => []
      | Except.ok rows =>
          match scanLoop got.1 rows st2.1 with
          | Res.ok loaders => rowsFor st2.1 li got.1 rows :: deliveredLists li qs (loaders, st2.2)
          | _ => []

/-- The loader that `newModelLoader` makes for the model of the loader `l`:
no item, no stored key. -/
def freshLoader (l : modelLoader) : modelLoader :=
  newModelLoader { typ := l.itemType, ms := l.ms }

/-- The loader `m` with the scan cells `c` written, if any. -/
def writeCells (c : Option (List Cell)) (m : modelLoader) : modelLoader :=
  match c with
  | some cells => { m with fields := cells }
  | none => m

/-- The loader `m` after the row `c`, if any. -/
def scanSlice (c : Option (List Cell)) (m : modelLoader) : modelLoader :=
  match c with
  | some cells => m.scanRow cells
  | none => m

/-- Two lists of loaders have, position by position, loaders with the same
number of select fields. -/
def SameWidths (s1 s2 : Store) : Prop :=
  ∀ j : Nat, (s1[j]?).map (fun m => m.selectFields.length) =
    (s2[j]?).map (fun m => m.selectFields.length)

/-- Every loader of `store` is what a fresh loader of its model becomes by
scanning the rows `acc li` collected for its position `li`; no row is
collected for a position without loader. -/
def Accumulated (store : Store) (acc : Nat → List (List Cell)) : Prop :=
  ∀ li : Nat,
    match store[li]? with
    | some l => l = (freshLoader l).scanRows (acc li)
    | none => acc li = []

/-- First query of a `MultiQuery` over `Parent` alone, under the alias `pa`:
it returns parent 1. -/
def parentsFirst : Query :=
  (NewQuery (fun _ _ => Except.ok [Except.ok [some (Value.uint 1), some (Value.str "P1")]])
    "FROM parents pa WHERE pa.id in (?)" [Value.uint 1]).AddModel parentModel "pa"

/-- Second query over `Parent` alone, under the alias `p`: it returns
parent 2 and parent 1 again. -/
def parentsSecond : Query :=
  (NewQuery (fun _ _ => Except.ok [Except.ok [some (Value.uint 2), some (Value.str "P2")],
                                    Except.ok [some (Value.uint 1), some (Value.str "P1")]])
    "FROM parents p WHERE p.id in (?, ?)" [Value.uint 2, Value.uint 1]).AddModel parentModel "p"

/-- Model `Pet(id, parent_id)`. -/
def petModel : Example :=
  { typ := GoType.named "Pet"
    ms := { ModelType := GoType.named "Pet"
            StructFields :=
              [scalarField "ID" "id" true (GoType.named "uint") (Value.uint 0),
               scalarField "ParentID" "parent_id" false (GoType.named "uint") (Value.uint 0)]
            TableName := "pets" } }

/-- Model `Keeper(id, name)` with the two relationships `Children []Child`
and `Pets []*Pet`, both keyed by `ParentID = Keeper.ID`. -/
def keeperModel : Example :=
  { typ := GoType.named "Keeper"
    ms := { ModelType := GoType.named "Keeper"
            StructFields :=
              [scalarField "ID" "id" true (GoType.named "uint") (Value.uint 0),
               scalarField "Name" "name" false (GoType.named "string") (Value.str ""),
               relField "Children" (GoType.slice (GoType.named "Child")) ["ParentID"] ["ID"],
               relField "Pets" (GoType.slice (GoType.ptr (GoType.named "Pet"))) ["ParentID"]
                 ["ID"]]
            TableName := "keepers" } }

/-- Step A of scenario B: keeper 1 joined with its children `C1`, `C2`. -/
def scenarioBStepA : Query :=
  ((NewQuery (fun _ _ => Except.ok
        [Except.ok [some (Value.uint 1), some (Value.str "K1"),
                    some (Value.uint 1), some (Value.uint 1), some (Value.str "C1")],
         Except.ok [some (Value.uint 1), some (Value.str "K1"),
                    some (Value.uint 2), some (Value.uint 1), some (Value.str "C2")]])
      "FROM keepers k JOIN children c ON c.parent_id = k.id ORDER BY c.id" []).AddModel
    keeperModel "k").AddModel childModel "c"

/-- Step B of scenario B: keeper 1 again, joined with its pet 7. -/
def scenarioBStepB : Query :=
  ((NewQuery (fun _ _ => Except.ok
        [Except.ok [some (Value.uint 1), some (Value.str "K1"),
                    some (Value.uint 7), some (Value.uint 1)]])
      "FROM keepers k JOIN pets t ON t.parent_id = k.id ORDER BY t.id" []).AddModel
    keeperModel "k").AddModel (petModel) "t"

/-- Output `&keepers` with `var keepers []Keeper`. -/
def keepersOut : Output :=
  Output.ptr (GoType.slice (GoType.named "Keeper")) (Slot.vals [])

/-- The shared loaders of scenario B after both steps, before `finalize`. -/
def scenarioBStore : Store :=
  [(newModelLoader keeperModel).scanRows
     [[some (Value.uint 1), some (Value.str "K1")],
      [some (Value.uint 1), some (Value.str "K1")],
      [some (Value.uint 1), some (Value.str "K1")]],
   (newModelLoader childModel).scanRows
     [[some (Value.uint 1), some (Value.uint 1), some (Value.str "C1")],
      [some (Value.uint 2), some (Value.uint 1), some (Value.str "C2")]],
   (newModelLoader petModel).scanRows [[some (Value.uint 7), some (Value.uint 1)]]]

/-! ## Definitions for the statements on models without key and on null keys -/

/-- Model `Note(text)`, without primary-key field. -/
def noteModel : Example :=
  { typ := GoType.named "Note"
    ms := { ModelType := GoType.named "Note"
            StructFields :=
              [scalarField "Text" "text" false (GoType.named "string") (Value.str "")]
            TableName := "notes" } }

/-- Model `Tag(id, code)` whose key of the relationship is the string
`Code`. -/
def tagModel : Example :=
  { typ := GoType.named "Tag"
    ms := { ModelType := GoType.named "Tag"
            StructFields :=
              [scalarField "ID" "id" true (GoType.named "uint") (Value.uint 0),
               scalarField "Code" "code" false (GoType.named "string") (Value.str "")]
            TableName := "tags" } }

/-- Model `Post(id, code)` with the nullable key `Code *string` and the
relationship `Tags []*Tag`, keyed by `Tag.Code = Post.Code`. -/
def postModel : Example :=
  { typ := GoType.named "Post"
    ms := { ModelType := GoType.named "Post"
            StructFields :=
              [scalarField "ID" "id" true (GoType.named "uint") (Value.uint 0),
               scalarField "Code" "code" false (GoType.ptr (GoType.named "string")) Value.nil,
               relField "Tags" (GoType.slice (GoType.ptr (GoType.named "Tag"))) ["Code"] ["Code"]]
            TableName := "posts" } }

/-- The loaders after scanning `Post{ID: 1, Code: nil}` (the column is NULL)
and the tags `Tag{1, "x"}`, `Tag{2, "<nil>"}`, both with a code that is not
null. -/
def postStore : Store :=
  [(newModelLoader postModel).scanRows [[some (Value.uint 1), none]],
   (newModelLoader tagModel).scanRows
     [[some (Value.uint 1), some (Value.str "x")],
      [some (Value.uint 2), some (Value.str "<nil>")]]]

/-- Model `Book(id, author_id)` with the nullable key
`AuthorID sql.NullInt64`. -/
def bookModel : Example :=
  { typ := GoType.named "Book"
    ms := { ModelType := GoType.named "Book"
            StructFields :=
              [scalarField "ID" "id" true (GoType.named "uint") (Value.uint 0),
               scalarField "AuthorID" "author_id" false (GoType.named "sql.NullInt64")
                 (Value.nullInt64 0 false)]
            TableName := "books" } }

/-- Model `Shelf(id, author_id)` with the nullable key
`AuthorID sql.NullInt64` and the relationship `Books []*Book`, keyed by
`Book.AuthorID = Shelf.AuthorID`. -/
def shelfModel : Example :=
  { typ := GoType.named "Shelf"
    ms := { ModelType := GoType.named "Shelf"
            StructFields :=
              [scalarField "ID" "id" true (GoType.named "uint") (Value.uint 0),
               scalarField "AuthorID" "author_id" false (GoType.named "sql.NullInt64")
                 (Value.nullInt64 0 false),
               relField "Books" (GoType.slice (GoType.ptr (GoType.named "Book")))
                 ["AuthorID"] ["AuthorID"]]
            TableName := "shelves" } }

/-- The loaders after scanning `Shelf{1, AuthorID: NULL}` and the books 1
(author NULL), 2 (author 5), 3 (author NULL). -/
def shelfStore : Store :=
  [(newModelLoader shelfModel).scanRows [[some (Value.uint 1), some (Value.nullInt64 0 false)]],
   (newModelLoader bookModel).scanRows
     [[some (Value.uint 1), some (Value.nullInt64 0 false)],
      [some (Value.uint 2), some (Value.nullInt64 5 true)],
      [some (Value.uint 3), some (Value.nullInt64 0 false)]]]

/-! ## Definitions for the statements on two loaders of one type -/

/-- The pointers to loaded structs that a relationship field or an output
variable holds. -/
def Slot.refs : Slot → List Ref
  | Slot.ptr (some r) => [r]
  | Slot.ptrs rs => rs
  | _ => []

/-- The pointers to loaded structs that the variable behind an output
holds. -/
def Output.refs : Output → List Ref
  | Output.ptr _ cur => cur.refs
  | _ => []

/-- No relationship field of a loaded struct holds a pointer to a struct of
the loader at position `i`. -/
def NoPointerInto (i : Nat) (store : Store) : Prop :=
  ∀ m ∈ store, ∀ e ∈ m.items, ∀ ns ∈ e.rels, ∀ x ∈ ns.2.refs, x.loader ≠ i

/-- Model `Employee(id, manager_id)` with the relationship
`Manager *Employee`, keyed by `Manager.ID = Employee.ManagerID`. -/
def employeeModel : Example :=
  { typ := GoType.named "Employee"
    ms := { ModelType := GoType.named "Employee"
            StructFields :=
              [scalarField "ID" "id" true (GoType.named "uint") (Value.uint 0),
               scalarField "ManagerID" "manager_id" false (GoType.named "uint") (Value.uint 0),
               relField "Manager" (GoType.ptr (GoType.named "Employee")) ["ID"] ["ManagerID"]]
            TableName := "employees" } }

/-- A self-join: `Employee` under the alias `e`, then `Employee` again under
the alias `m`. The rows are employee 2 with its manager 1, and employee 4
with its manager 2. -/
def selfJoinQuery : Query :=
  ((NewQuery
      (fun _ _ => Except.ok
        [Except.ok [some (Value.uint 2), some (Value.uint 1),
                    some (Value.uint 1), some (Value.uint 0)],
         Except.ok [some (Value.uint 4), some (Value.uint 2),
                    some (Value.uint 2), some (Value.uint 1)]])
      "FROM employees e JOIN employees m ON m.id = e.manager_id ORDER BY e.id"
      []).AddModel employeeModel "e").AddModel employeeModel "m"

/-- The loaders of the self-join after its rows: the first holds the
employees 2 and 4, the second the managers 1 and 2. -/
def selfJoinStore : Store :=
  [(newModelLoader employeeModel).scanRows
     [[some (Value.uint 2), some (Value.uint 1)], [some (Value.uint 4), some (Value.uint 2)]],
   (newModelLoader employeeModel).scanRows
     [[some (Value.uint 1), some (Value.uint 0)], [some (Value.uint 2), some (Value.uint 1)]]]

/-- Output `&employees` with `var employees []*Employee`. -/
def employeesOut : Output :=
  Output.ptr (GoType.slice (GoType.ptr (GoType.named "Employee"))) (Slot.ptrs [])

/-! ## Definitions for the statements on errors of finalize -/

/-- Model `Voucher(id, code)` whose field `Code` is of a type with the
method `Value()` (a `driver.Valuer`). -/
def voucherModel : Example :=
  { typ := GoType.named "Voucher"
    ms := { ModelType := GoType.named "Voucher"
            StructFields :=
              [scalarField "ID" "id" true (GoType.named "uint") (Value.uint 0),
               scalarField "Code" "code" false (GoType.named "Code") (Value.valuer "" (Value.str ""))]
            TableName := "vouchers" } }

/-- Model `Wallet(id, code)` with the relationship `Vouchers []*Voucher`,
keyed by `Voucher.Code = Wallet.Code`. -/
def walletModel : Example :=
  { typ := GoType.named "Wallet"
    ms := { ModelType := GoType.named "Wallet"
            StructFields :=
              [scalarField "ID" "id" true (GoType.named "uint") (Value.uint 0),
               scalarField "Code" "code" false (GoType.named "string") (Value.str ""),
               relField "Vouchers" (GoType.slice (GoType.ptr (GoType.named "Voucher")))
                 ["Code"] ["Code"]]
            TableName := "wallets" } }

/-- The loaders after scanning `Wallet{1, "a"}` and a voucher 1 whose `Code`
is a value on which `Value()` returns an error. -/
def walletStore : Store :=
  [(newModelLoader walletModel).scanRows [[some (Value.uint 1), some (Value.str "a")]],
   (newModelLoader voucherModel).scanRows
     [[some (Value.uint 1), some (Value.badValuer "Code(?)")]]]

/-- A query over `Wallet` and `Voucher` that returns the wallet 1 with the
voucher 1, whose `Code` is a value on which `Value()` returns an error. -/
def walletQuery : Query :=
  ((NewQuery
      (fun _ _ => Except.ok
        [Except.ok [some (Value.uint 1), some (Value.str "a"),
                    some (Value.uint 1), some (Value.badValuer "Code(?)")]])
      "FROM wallets w JOIN vouchers v ON v.code = w.code"
      []).AddModel walletModel "w").AddModel voucherModel "v"

/-- Output `&wallets` with `var wallets []*Wallet`. -/
def walletsOut : Output :=
  Output.ptr (GoType.slice (GoType.ptr (GoType.named "Wallet"))) (Slot.ptrs [])

/-! ## Definitions for the statements on the shared loaders of a MultiQuery -/

/-- The models of all queries of a `MultiQuery`, in the order in which
`Run` meets them. -/
def allModels (m : MultiQuery) : List modelConfiguration :=
  (m.map (fun q => q.models)).flatten

/-- In the words of the specification: of the models `cs`, those that are
the first to reference their base type, in order; `seen` holds the base
types referenced before. -/
def firstReferences : List modelConfiguration → List GoType → List modelConfiguration
  | [], _ => []
  | c :: cs, seen =>
      if baseType c.exampleVal.typ ∈ seen then firstReferences cs seen
      else c :: firstReferences cs (baseType c.exampleVal.typ :: seen)

/-- The positions of the loaders on which the second loop of `fillOutput`
calls `finalize`, in the order of the calls: the loop of `finalizeAll`,
which is left after the first call that does not return normally. -/
def finalizeCalls (itemMap : ItemMap) : List Nat → Store → List Nat
  | [], _ => []
  | li :: lis, store =>
      match finalize li itemMap store with
      | Res.ok store2 => li :: finalizeCalls itemMap lis store2
      | Res.err _ => [li]
      | Res.crash => [li]

/-! ## Definitions for the evaluations of relationships across queries and of single relationships -/

/-- First query of a `MultiQuery`: `Owner` alone, under the alias `o`; it
returns the owner 1. -/
def ownersQuery : Query :=
  (NewQuery (fun _ _ => Except.ok [Except.ok [some (Value.uint 1)]])
    "FROM owners o" []).AddModel ownerModel "o"

/-- Second query: `Kid` alone, under the alias `k`; it returns the kid 5,
whose `ParentID` points to 1 (the pointer at address `0xc000`). -/
def kidsQuery : Query :=
  (NewQuery
      (fun _ _ => Except.ok [Except.ok [some (Value.uint 5), some (Value.ptr 49152 (Value.uint 1))]])
    "FROM kids k" []).AddModel kidModel "k"

/-- Output `&owners` with `var owners []Owner`. -/
def ownersOut : Output :=
  Output.ptr (GoType.slice (GoType.named "Owner")) (Slot.vals [])

/-- Model `Drill(drill_id, unit_id)` whose foreign key is the nullable
`UnitID *uint`. -/
def drillPtrModel : Example :=
  { typ := GoType.named "Drill"
    ms := { ModelType := GoType.named "Drill"
            StructFields :=
              [scalarField "DrillID" "drill_id" true (GoType.named "uint") (Value.uint 0),
               scalarField "UnitID" "unit_id" false (GoType.ptr (GoType.named "uint")) Value.nil]
            TableName := "drills" } }

/-- The loaders after scanning units 3 and 4 and the drills 9 and 10, whose
`UnitID` both point to 3 (the pointers at the addresses `0xc010` and
`0xc018`). -/
def unitPtrStore : Store :=
  [(newModelLoader unitModel).scanRows [[some (Value.uint 3)], [some (Value.uint 4)]],
   (newModelLoader drillPtrModel).scanRows
     [[some (Value.uint 9), some (Value.ptr 49168 (Value.uint 3))],
      [some (Value.uint 10), some (Value.ptr 49176 (Value.uint 3))]]]

/-- Model `EmployeeDefault(id, manager_id)` with the belongs-to relationship
`Manager *EmployeeDefault` and no tag. For a belongs-to field gorm names, in
`ForeignFieldNames`, the key field of the owning struct (`ManagerID`) and,
in `AssociationForeignFieldNames`, the key field of the struct it belongs to
(`ID`). -/
def employeeDefaultModel : Example :=
  { typ := GoType.named "EmployeeDefault"
    ms := { ModelType := GoType.named "EmployeeDefault"
            StructFields :=
              [scalarField "ID" "id" true (GoType.named "uint") (Value.uint 0),
               scalarField "ManagerID" "manager_id" false (GoType.named "uint") (Value.uint 0),
               relField "Manager" (GoType.ptr (GoType.named "EmployeeDefault"))
                 ["ManagerID"] ["ID"]]
            TableName := "employee_defaults" } }

/-- The self-join of `EmployeeDefault` under the aliases `e` and `m`. The
rows are employee 2 with its manager 1, and employee 4 with its manager
2. -/
def defaultJoinQuery : Query :=
  ((NewQuery
      (fun _ _ => Except.ok
        [Except.ok [some (Value.uint 2), some (Value.uint 1),
                    some (Value.uint 1), some (Value.uint 0)],
         Except.ok [some (Value.uint 4), some (Value.uint 2),
                    some (Value.uint 2), some (Value.uint 1)]])
      "FROM employee_defaults e JOIN employee_defaults m ON m.id = e.manager_id ORDER BY e.id"
      []).AddModel employeeDefaultModel "e").AddModel employeeDefaultModel "m"

/-- Output `&employees` with `var employees []*EmployeeDefault`. -/
def employeeDefaultsOut : Output :=
  Output.ptr (GoType.slice (GoType.ptr (GoType.named "EmployeeDefault"))) (Slot.ptrs [])

/-! # Theorems -/

/-! ## Association lists -/

theorem assocGet_assocSet_same {α : Type} (n : String) (v : α) :
    ∀ l : List (String × α), (assocGet n l).isSome → assocGet n (assocSet n v l) = some v := by
  intro l
  induction l with
  | nil => intro h; simp [assocGet] at h
  | cons p rest ih =>
      obtain ⟨k, w⟩ := p
      intro h
      by_cases hk : k = n
      · simp [assocSet, assocGet, hk]
      · simp [assocSet, assocGet, hk] at h ⊢
        exact ih h

theorem assocGet_assocSet_ne {α : Type} (n n2 : String) (v : α) (hne : n ≠ n2) :
    ∀ l : List (String × α), assocGet n2 (assocSet n v l) = assocGet n2 l := by
  intro l
  induction l with
  | nil => simp [assocSet]
  | cons p rest ih =>
      obtain ⟨k, w⟩ := p
      by_cases hk : k = n
      · subst hk
        simp [assocSet, assocGet, hne]
      · by_cases hk2 : k = n2
        · subst hk2
          simp [assocSet, assocGet, hk]
        · simp [assocSet, assocGet, hk, hk2, ih]

theorem field_setField_same (e : Entity) (n : String) (v : Value)
    (h : (e.field n).isSome) : (e.setField n v).field n = some v := by
  cases e with
  | mk scalars rels =>
      simpa [Entity.field, Entity.setField, Entity.scalars] using
        assocGet_assocSet_same n v scalars h

theorem field_setField_ne (e : Entity) (n n2 : String) (v : Value) (hne : n ≠ n2) :
    (e.setField n v).field n2 = e.field n2 := by
  cases e with
  | mk scalars rels =>
      simpa [Entity.field, Entity.setField, Entity.scalars] using
        assocGet_assocSet_ne n n2 v hne scalars

theorem field_setField_isSome (e : Entity) (n n2 : String) (v : Value)
    (h : (e.field n2).isSome) : ((e.setField n v).field n2).isSome := by
  by_cases hne : n = n2
  · subst hne
    simp [field_setField_same e n v h]
  · simpa [field_setField_ne e n n2 v hne] using h

/-! ## processScan -/

theorem field_fillItem_of_not_mem (n : String) :
    ∀ (fs : List StructField) (cells : List Cell) (e : Entity),
      n ∉ fs.map (fun f => f.Name) → (fillItem fs cells e).field n = e.field n := by
  intro fs
  induction fs with
  | nil => intro cells e _; simp [fillItem]
  | cons f fs ih =>
      intro cells e hn
      simp only [List.map_cons, List.mem_cons, not_or] at hn
      rcases cells with _ | ⟨c, cs⟩
      · simp [fillItem, ih _ _ hn.2]
      · cases c with
        | none => simp [fillItem, ih _ _ hn.2]
        | some v =>
            simp only [fillItem, List.headD_cons, List.tail_cons]
            rw [ih _ _ hn.2]
            exact field_setField_ne e f.Name n v (fun h => hn.1 h.symm)

theorem renderKey_fillItem :
    ∀ (sel : List StructField) (cells : List Cell) (e : Entity) (sb key : String),
      (sel.map (fun f => f.Name)).Nodup →
      (∀ f ∈ sel, (e.field f.Name).isSome) →
      scanKey sel cells sb = some key →
      renderKey (sel.filter (fun f => f.IsPrimaryKey))
        ((sel.filter (fun f => f.IsPrimaryKey)).map
          (fun f => ((fillItem sel cells e).field f.Name).map derefAll)) sb = key := by
  intro sel
  induction sel with
  | nil =>
      intro cells e sb key _ _ h
      simpa [scanKey, renderKey] using h
  | cons f fs ih =>
      intro cells e sb key hnd hsome h
      simp only [List.map_cons, List.nodup_cons] at hnd
      have hf : (e.field f.Name).isSome := hsome f (List.mem_cons_self _ _)
      have hfs : ∀ g ∈ fs, (e.field g.Name).isSome :=
        fun g hg => hsome g (List.mem_cons_of_mem _ hg)
      have hstep : ∀ (e2 : Entity) (tl : List Cell) (sb2 : String),
          (∀ g ∈ fs, (e2.field g.Name).isSome) → scanKey fs tl sb2 = some key →
          renderKey (fs.filter (fun f => f.IsPrimaryKey))
            ((fs.filter (fun f => f.IsPrimaryKey)).map
              (fun g => ((fillItem fs tl e2).field g.Name).map derefAll)) sb2 = key :=
        fun e2 tl sb2 h2 h3 => ih tl e2 sb2 key hnd.2 h2 h3
      have hfs2 : ∀ v, ∀ g ∈ fs, ((e.setField f.Name v).field g.Name).isSome :=
        fun v g hg => field_setField_isSome e f.Name g.Name v (hfs g hg)
      rcases cells with _ | ⟨c, cs⟩
      · by_cases hpk : f.IsPrimaryKey = true
        · simp [scanKey, hpk] at h
        · simp only [scanKey, hpk] at h
          simp only [List.filter_cons, hpk, fillItem, List.headD_nil, List.tail_nil]
          exact hstep e [] sb hfs (by simpa using h)
      · cases c with
        | none =>
            by_cases hpk : f.IsPrimaryKey = true
            · simp [scanKey, hpk] at h
            · simp only [scanKey, hpk] at h
              simp only [List.filter_cons, hpk, fillItem, List.headD_cons, List.tail_cons]
              exact hstep e cs sb hfs (by simpa using h)
        | some v =>
            by_cases hpk : f.IsPrimaryKey = true
            · simp only [scanKey, hpk, if_true, List.headD_cons, List.tail_cons] at h
              have hhead : (fillItem fs cs (e.setField f.Name v)).field f.Name = some v := by
                rw [field_fillItem_of_not_mem f.Name fs cs _ hnd.1]
                exact field_setField_same e f.Name v hf
              simp only [List.filter_cons, hpk, if_true, List.map_cons, fillItem,
                List.headD_cons, List.tail_cons, hhead, Option.map_some', renderKey,
                Option.getD_some]
              exact hstep (e.setField f.Name v) cs _ (hfs2 v) h
            · simp only [scanKey, hpk] at h
              simp only [List.filter_cons, hpk, fillItem, List.headD_cons, List.tail_cons]
              exact hstep (e.setField f.Name v) cs sb (hfs2 v) (by simpa using h)

theorem assocGet_map_isSome (f : StructField) :
    ∀ l : List StructField, f ∈ l →
      (assocGet f.Name (l.map (fun g => (g.Name, g.zero)))).isSome := by
  intro l
  induction l with
  | nil => intro h; simp at h
  | cons g rest ih =>
      intro h
      by_cases hg : g.Name = f.Name
      · simp [assocGet, hg]
      · have hne : f ≠ g := fun hfg => hg (by rw [hfg])
        have hmem : f ∈ rest := by
          rcases List.mem_cons.mp h with h1 | h1
          · exact absurd h1 hne
          · exact h1
        simpa [assocGet, hg] using ih hmem

theorem newModelLoader_inv (ex : Example)
    (hnames : ((ex.ms.StructFields.filter (fun f => f.IsNormal)).map (fun f => f.Name)).Nodup) :
    LoaderInv (newModelLoader ex) where
  names := hnames
  zero := by
    intro f hf
    exact assocGet_map_isSome f _ hf
  keys := by
    simp [newModelLoader, List.filter_filter, Bool.and_comm]
  stored := by
    intro e he
    simp [newModelLoader] at he
  nodup := by
    simp [newModelLoader]

theorem scanRow_inv (m : modelLoader) (cells : List Cell) (h : LoaderInv m) :
    LoaderInv (m.scanRow cells) := by
  unfold modelLoader.scanRow modelLoader.processScan
  cases hk : scanKey m.selectFields cells "" with
  | none =>
      simp only [hk]
      exact ⟨h.names, h.zero, h.keys, h.stored, h.nodup⟩
  | some key =>
      simp only [hk]
      by_cases hmem : key ∈ m.storedKeys
      · simp only [hmem, if_true]
        exact ⟨h.names, h.zero, h.keys, h.stored, h.nodup⟩
      · simp only [hmem, if_false]
        have hnew : entityKey m (fillItem m.selectFields cells (zeroEntity m.ms)) = key :=
          renderKey_fillItem m.selectFields cells (zeroEntity m.ms) "" key h.names h.zero hk
        refine ⟨h.names, h.zero, h.keys, ?_, ?_⟩
        · intro e he
          rcases List.mem_append.mp he with he1 | he1
          · exact List.mem_cons_of_mem _ (h.stored e he1)
          · rw [List.mem_singleton] at he1
            subst he1
            exact List.mem_cons.mpr (Or.inl hnew)
        · show ((m.items ++ [fillItem m.selectFields cells (zeroEntity m.ms)]).map
            (entityKey m)).Nodup
          rw [List.map_append, List.nodup_append]
          refine ⟨h.nodup, by simp, ?_⟩
          intro k hk1 hk2
          simp only [List.map_cons, List.map_nil, List.mem_singleton] at hk2
          rw [hk2, hnew] at hk1
          obtain ⟨e, he, hek⟩ := List.mem_map.mp hk1
          exact hmem (hek ▸ h.stored e he)

theorem scanRows_inv (rows : List (List Cell)) :
    ∀ m : modelLoader, LoaderInv m → LoaderInv (m.scanRows rows) := by
  induction rows with
  | nil => intro m h; exact h
  | cons r rs ih =>
      intro m h
      exact ih (m.scanRow r) (scanRow_inv m r h)

theorem entityKey_eq_renderKey (m : modelLoader) (h : LoaderInv m) (e : Entity) :
    entityKey m e = renderKey m.keyFields (pkTupleDeref m e) "" := by
  simp [entityKey, pkTupleDeref, pkTuple, h.keys, List.map_map, Function.comp_def]

theorem pkTupleDeref_nodup (m : modelLoader) (h : LoaderInv m) :
    (m.items.map (pkTupleDeref m)).Nodup := by
  have h1 : m.items.map (entityKey m) =
      (m.items.map (pkTupleDeref m)).map (fun t => renderKey m.keyFields t "") := by
    rw [List.map_map]
    exact List.map_congr_left (fun e _ => entityKey_eq_renderKey m h e)
  have h2 := h.nodup
  rw [h1] at h2
  exact List.Nodup.of_map _ h2

theorem scanRow_selectFields (m : modelLoader) (cells : List Cell) :
    (m.scanRow cells).selectFields = m.selectFields := by
  unfold modelLoader.scanRow modelLoader.processScan
  dsimp only
  split
  · rfl
  · split <;> rfl

theorem scanRow_storedKeys_subset (m : modelLoader) (cells : List Cell) :
    m.storedKeys ⊆ (m.scanRow cells).storedKeys := by
  unfold modelLoader.scanRow modelLoader.processScan
  dsimp only
  split
  · exact fun _ h => h
  · split
    · exact fun _ h => h
    · exact fun _ h => List.mem_cons_of_mem _ h

/-- A row is settled in a loader when `processScan` has nothing to add for
it: a key cell is nil, or its identity key is stored. -/
theorem scanRow_settles (m : modelLoader) (cells : List Cell) :
    scanKey m.selectFields cells "" = none ∨
      ∃ key, scanKey m.selectFields cells "" = some key ∧ key ∈ (m.scanRow cells).storedKeys := by
  cases hk : scanKey m.selectFields cells "" with
  | none => exact Or.inl rfl
  | some key =>
      refine Or.inr ⟨key, rfl, ?_⟩
      unfold modelLoader.scanRow modelLoader.processScan
      simp only [hk]
      by_cases hmem : key ∈ m.storedKeys
      · simp [hmem]
      · simp [hmem]

theorem scanRow_of_settled (m : modelLoader) (cells : List Cell)
    (h : scanKey m.selectFields cells "" = none ∨
      ∃ key, scanKey m.selectFields cells "" = some key ∧ key ∈ m.storedKeys) :
    (m.scanRow cells).items = m.items := by
  unfold modelLoader.scanRow modelLoader.processScan
  rcases h with h | ⟨key, hk, hmem⟩
  · simp only [h]
  · simp only [hk, hmem, if_true]

theorem scanRows_settles (rows : List (List Cell)) :
    ∀ (m : modelLoader), ∀ r ∈ rows,
      scanKey m.selectFields r "" = none ∨
        ∃ key, scanKey m.selectFields r "" = some key ∧ key ∈ (m.scanRows rows).storedKeys := by
  induction rows with
  | nil => intro m r hr; simp at hr
  | cons c cs ih =>
      intro m r hr
      have hmono : ∀ (l : List (List Cell)) (n : modelLoader),
          n.storedKeys ⊆ (n.scanRows l).storedKeys := by
        intro l
        induction l with
        | nil => intro n k hk; exact hk
        | cons x xs ihx =>
            intro n k hk
            exact ihx (n.scanRow x) (scanRow_storedKeys_subset n x hk)
      rcases List.mem_cons.mp hr with h1 | h1
      · subst h1
        rcases scanRow_settles m r with h2 | ⟨key, hk, hmem⟩
        · exact Or.inl h2
        · exact Or.inr ⟨key, hk, hmono cs (m.scanRow r) hmem⟩
      · have h3 := ih (m.scanRow c) r h1
        rw [scanRow_selectFields] at h3
        exact h3

theorem scanRows_selectFields (rows : List (List Cell)) :
    ∀ m : modelLoader, (m.scanRows rows).selectFields = m.selectFields := by
  induction rows with
  | nil => intro m; rfl
  | cons c cs ih =>
      intro m
      exact (ih (m.scanRow c)).trans (scanRow_selectFields m c)

/-- Claim C1: starting from the empty loader of a model whose scanned fields
have pairwise different names, after any sequence of scanned rows no two
structs of the item list have the same composite primary key, whether the
key fields are compared as they are or with their pointers followed; and
each of the rows, scanned once more, adds nothing to the item list. -/
theorem processScan_items_have_distinct_keys (ex : Example) (rows : List (List Cell))
    (hnames : ((ex.ms.StructFields.filter (fun f => f.IsNormal)).map (fun f => f.Name)).Nodup) :
    (((newModelLoader ex).scanRows rows).items.map
        (pkTuple ((newModelLoader ex).scanRows rows))).Nodup ∧
    (((newModelLoader ex).scanRows rows).items.map
        (pkTupleDeref ((newModelLoader ex).scanRows rows))).Nodup ∧
    rows.map (fun r => (((newModelLoader ex).scanRows rows).scanRow r).items) =
      rows.map (fun _ => ((newModelLoader ex).scanRows rows).items) := by
  have hinv := scanRows_inv rows _ (newModelLoader_inv ex hnames)
  have h2 := pkTupleDeref_nodup _ hinv
  refine ⟨?_, h2, ?_⟩
  · have h3 : ((newModelLoader ex).scanRows rows).items.map
        (pkTupleDeref ((newModelLoader ex).scanRows rows)) =
        (((newModelLoader ex).scanRows rows).items.map
          (pkTuple ((newModelLoader ex).scanRows rows))).map
          (fun t => t.map (Option.map derefAll)) := by
      rw [List.map_map]
      rfl
    rw [h3] at h2
    exact List.Nodup.of_map _ h2
  · apply List.map_congr_left
    intro r hr
    apply scanRow_of_settled
    rw [scanRows_selectFields]
    exact scanRows_settles rows (newModelLoader ex) r hr

/-- Witness of claim C1 on the model `Pair` and its two rows. -/
theorem processScan_items_have_distinct_keys_witness :
    ((pairModel.ms.StructFields.filter (fun f => f.IsNormal)).map (fun f => f.Name)).Nodup ∧
    ((((newModelLoader pairModel).scanRows pairRows).items.map
        (pkTuple ((newModelLoader pairModel).scanRows pairRows))).Nodup ∧
     (((newModelLoader pairModel).scanRows pairRows).items.map
        (pkTupleDeref ((newModelLoader pairModel).scanRows pairRows))).Nodup ∧
     pairRows.map (fun r => (((newModelLoader pairModel).scanRows pairRows).scanRow r).items) =
       pairRows.map (fun _ => ((newModelLoader pairModel).scanRows pairRows).items)) :=
  ⟨by decide, processScan_items_have_distinct_keys pairModel pairRows (by decide)⟩

theorem scanKey_none_of_null :
    ∀ (sel : List StructField) (cells : List Cell) (sb : String) (i : Nat) (f : StructField),
      sel[i]? = some f → f.IsPrimaryKey = true → cells[i]? = some none →
      scanKey sel cells sb = none := by
  intro sel
  induction sel with
  | nil => intro cells sb i f h; simp at h
  | cons g fs ih =>
      intro cells sb i f hf hpk hnull
      rcases cells with _ | ⟨c, cs⟩
      · simp at hnull
      · cases i with
        | zero =>
            simp only [List.getElem?_cons_zero, Option.some.injEq] at hf hnull
            subst hf
            subst hnull
            simp [scanKey, hpk]
        | succ j =>
            simp only [List.getElem?_cons_succ] at hf hnull
            have hrec : ∀ sb2, scanKey fs cs sb2 = none :=
              fun sb2 => ih cs sb2 j f hf hpk hnull
            by_cases hg : g.IsPrimaryKey = true
            · cases c with
              | none => simp [scanKey, hg]
              | some v => simp [scanKey, hg, hrec]
            · simp [scanKey, hg, hrec]

/-- Claim C6: in every loader state, when the scan cell of some primary-key
field is nil (whatever the other cells hold, so also when only one component
of a composite key is null), `processScan` changes nothing: the loader, with
its item list and its stored keys, is the same afterwards. -/
theorem processScan_null_key_changes_nothing (m : modelLoader) (i : Nat) (f : StructField)
    (hf : m.selectFields[i]? = some f) (hpk : f.IsPrimaryKey = true)
    (hnull : m.fields[i]? = some none) :
    m.processScan = m ∧ m.processScan.items = m.items ∧
      m.processScan.storedKeys = m.storedKeys := by
  have h : m.processScan = m := by
    unfold modelLoader.processScan
    rw [scanKey_none_of_null m.selectFields m.fields "" i f hf hpk hnull]
  rw [h]
  exact ⟨rfl, rfl, rfl⟩

/-- A loader of `Pair` that holds one struct and whose cells carry a row
with the composite key `("x", NULL)`. -/
theorem processScan_null_key_changes_nothing_witness :
    (((newModelLoader pairModel).scanRows pairRows).selectFields[1]? =
        some (scalarField "B" "b" true (GoType.named "string") (Value.str "")) ∧
      (scalarField "B" "b" true (GoType.named "string") (Value.str "")).IsPrimaryKey = true ∧
      ({ (newModelLoader pairModel).scanRows pairRows with
          fields := [some (Value.str "x"), none] } : modelLoader).fields[1]? = some none) ∧
    (modelLoader.processScan { (newModelLoader pairModel).scanRows pairRows with
          fields := [some (Value.str "x"), none] }).items =
      ((newModelLoader pairModel).scanRows pairRows).items :=
  ⟨⟨rfl, rfl, rfl⟩,
   (processScan_null_key_changes_nothing
      { (newModelLoader pairModel).scanRows pairRows with
          fields := [some (Value.str "x"), none] }
      1 (scalarField "B" "b" true (GoType.named "string") (Value.str "")) rfl rfl rfl).2.1⟩

/-- Claim C2, evaluated: for the model `Pair` with the string key `(A, B)`,
the rows `("1][B:2", "3")` and `("1", "2][B:3")` carry two different key
tuples without null, both are written as the identity key
`[A:1][B:2][B:3]`, and `processScan` keeps one struct for the two. -/
theorem processScan_merges_colliding_string_keys :
    distinctKeyCount (newModelLoader pairModel).selectFields pairRows = 2 ∧
    pairRows.map (fun r => scanKey (newModelLoader pairModel).selectFields r "") =
      [some "[A:1][B:2][B:3]", some "[A:1][B:2][B:3]"] ∧
    ((newModelLoader pairModel).scanRows pairRows).items.length = 1 := by
  decide

/-- Claim C5, evaluated: for the model `Pair` and the rows
`("1][B:2", "3")`, `("1", "2][B:3")`, the first row of each distinct key
tuple gives two structs, the loader holds only the struct of the first row:
the item list is not the list the claim describes. -/
theorem processScan_items_differ_from_first_rows :
    (specItems (newModelLoader pairModel) pairRows).length = 2 ∧
    ((newModelLoader pairModel).scanRows pairRows).items =
      [Entity.mk [("A", Value.str "1][B:2"), ("B", Value.str "3")] []] ∧
    ((newModelLoader pairModel).scanRows pairRows).items ≠
      specItems (newModelLoader pairModel) pairRows := by
  refine ⟨by decide, rfl, ?_⟩
  intro h
  have h2 := congrArg List.length h
  revert h2
  decide

/-- Claim C3, evaluated: `Owner{ID: 1}` has the slice relationship `Kids`
keyed by `Kid.ParentID = Owner.ID`, and the loaded `Kid{ID: 5}` has
`ParentID` pointing to 1, equal to the owner's key once the pointer is
followed. `finalize` writes the target key from the pointer itself
(`[0:0xc000]`) and the owner key from the value (`[0:1]`), links nothing and
leaves `Kids` empty. -/
theorem finalize_misses_target_with_pointer_key :
    ((getItem kidStore ⟨1, 0⟩).bind (fun e => e.field "ParentID")).map derefAll =
      (getItem kidStore ⟨0, 0⟩).bind (fun e => e.field "ID") ∧
    (getItem kidStore ⟨1, 0⟩).map (fun e => targetKey e ["ParentID"] 0 "") =
      some (Res.ok "[0:0xc000]") ∧
    (getItem kidStore ⟨0, 0⟩).map (fun e => ownerKey e ["ID"] 0 "") = some (Res.ok "[0:1]") ∧
    finalize 0 (buildItemMap kidStore 0 []) kidStore = Res.ok kidStore ∧
    (getItem kidStore ⟨0, 0⟩).bind (fun e => e.rel "Kids") = some (Slot.vals []) :=
  ⟨rfl, rfl, rfl, rfl, rfl⟩

/-- Claim C4, evaluated: textbook 7 has section 3, which has exercise 9, and
`Textbook.Sections` is a slice of structs. With the models added in the
order `Textbook`, `Section`, `Exercise`, the section copied into the
textbook of the output has no exercise, although the loaded section itself
got exercise 9; with the models added in the opposite order the copy holds
exercise 9. -/
theorem Run_nested_value_relationship_depends_on_model_order :
    (textbookFirst.Run [textbooksOut]).outcome = Res.ok () ∧
    (textbookFirst.Run [textbooksOut]).outputs =
      [Output.ptr (GoType.slice (GoType.named "Textbook"))
        (Slot.vals [textbook7 [section3 []]])] ∧
    getItem (textbookFirst.Run [textbooksOut]).loaders ⟨1, 0⟩ = some (section3 [exercise9]) ∧
    (textbookLast.Run [textbooksOut]).outputs =
      [Output.ptr (GoType.slice (GoType.named "Textbook"))
        (Slot.vals [textbook7 [section3 [exercise9]]])] :=
  ⟨rfl, rfl, rfl, rfl⟩

/-- Claim C7: scenario A. The query over `Parent` and `Child` with the
three rows of the scenario succeeds; the loaders hold one `Parent` and two
`Child` structs; the output `[]Parent` receives exactly `Parent{1, "P1"}`
with `Children = [C1, C2]` in this order, and the output `[]Child` receives
`[C1, C2]`, nothing from the null row. -/
theorem Run_scenario_A :
    (scenarioAQuery.Run [parentsOut, childrenOut]).outcome = Res.ok () ∧
    (scenarioAQuery.Run [parentsOut, childrenOut]).loaders.map (fun l => l.items.length) =
      [1, 2] ∧
    (scenarioAQuery.Run [parentsOut, childrenOut]).outputs =
      [Output.ptr (GoType.slice (GoType.named "Parent")) (Slot.vals [parentP1]),
       Output.ptr (GoType.slice (GoType.named "Child")) (Slot.vals [childC1, childC2])] :=
  ⟨rfl, rfl, rfl⟩

/-- Claim C8, evaluated: `Run` given the untyped nil as its only output does
not return an error: the call panics. A non-pointer and a nil pointer at the
same place get the error. -/
theorem Run_untyped_nil_output_crashes :
    (scenarioAQuery.Run [Output.untypedNil]).outcome = Res.crash ∧
    (scenarioAQuery.Run [Output.nonPtr (GoType.named "Parent")]).outcome =
      Res.err "type Parent can not be set" ∧
    (scenarioAQuery.Run [Output.nilPtr (GoType.named "Parent")]).outcome =
      Res.err "type *Parent can not be set" :=
  ⟨rfl, rfl, rfl⟩

/-! ## The item list without key collisions -/

theorem scanKey_eq_rowKey :
    ∀ (sel : List StructField) (cells : List Cell) (sb : String),
      scanKey sel cells sb =
        (rowKey sel cells).map
          (fun k => renderKey (sel.filter (fun f => f.IsPrimaryKey)) (k.map some) sb) := by
  intro sel
  induction sel with
  | nil => intro cells sb; simp [scanKey, rowKey, renderKey]
  | cons f fs ih =>
      intro cells sb
      by_cases hpk : f.IsPrimaryKey = true
      · rcases cells with _ | ⟨c, cs⟩
        · simp [scanKey, rowKey, hpk]
        · cases c with
          | none => simp [scanKey, rowKey, hpk]
          | some v =>
              simp only [scanKey, rowKey, hpk, if_true, List.headD_cons, List.tail_cons, ih,
                List.filter_cons, Option.map_map]
              congr 1
      · simp only [scanKey, rowKey, hpk, List.filter_cons, ih]
        rfl

theorem assocSet_append_head {α : Type} (n : String) (v w : α) (rest : List (String × α)) :
    ∀ pre : List (String × α), n ∉ pre.map (fun p => p.1) →
      assocSet n v (pre ++ (n, w) :: rest) = pre ++ (n, v) :: rest := by
  intro pre
  induction pre with
  | nil => intro _; simp [assocSet]
  | cons p ps ih =>
      obtain ⟨k, x⟩ := p
      intro h
      simp only [List.map_cons, List.mem_cons, not_or] at h
      have hk : ¬ k = n := fun hkn => h.1 hkn.symm
      simp [assocSet, hk, ih h.2]

theorem fillItem_eq_specScalars (rels : List (String × Slot)) :
    ∀ (fs : List StructField) (cells : List Cell) (pre : List (String × Value)),
      (pre.map (fun p => p.1) ++ fs.map (fun f => f.Name)).Nodup →
      fillItem fs cells (Entity.mk (pre ++ fs.map (fun f => (f.Name, f.zero))) rels) =
        Entity.mk (pre ++ specScalars fs cells) rels := by
  intro fs
  induction fs with
  | nil => intro cells pre _; simp [fillItem, specScalars]
  | cons f fs ih =>
      intro cells pre hnd
      have hpre : f.Name ∉ pre.map (fun p => p.1) := by
        intro hmem
        have := (List.nodup_append.mp hnd).2.2
        exact this hmem (by simp)
      have hnd2 : ∀ x : Value,
          ((pre ++ [(f.Name, x)]).map (fun p => p.1) ++ fs.map (fun f => f.Name)).Nodup := by
        intro x
        simpa [List.append_assoc] using hnd
      have hstep : ∀ (x : Value) (tl : List Cell),
          fillItem fs tl (Entity.mk (pre ++ (f.Name, x) :: fs.map (fun f => (f.Name, f.zero))) rels)
            = Entity.mk (pre ++ (f.Name, x) :: specScalars fs tl) rels := by
        intro x tl
        have := ih tl (pre ++ [(f.Name, x)]) (hnd2 x)
        simpa [List.append_assoc] using this
      rcases cells with _ | ⟨c, cs⟩
      · simpa [fillItem, specScalars] using hstep f.zero []
      · cases c with
        | none => simpa [fillItem, specScalars] using hstep f.zero cs
        | some v =>
            simp only [fillItem, List.headD_cons, List.tail_cons, List.map_cons, specScalars,
              Option.getD_some, Entity.setField, Entity.scalars, Entity.rels]
            rw [assocSet_append_head f.Name v f.zero _ pre hpre]
            exact hstep v cs

theorem fillItem_zeroEntity (ms : ModelStruct) (cells : List Cell)
    (hnames : ((ms.StructFields.filter (fun f => f.IsNormal)).map (fun f => f.Name)).Nodup) :
    fillItem (ms.StructFields.filter (fun f => f.IsNormal)) cells (zeroEntity ms) =
      Entity.mk (specScalars (ms.StructFields.filter (fun f => f.IsNormal)) cells)
        (zeroEntity ms).rels := by
  have := fillItem_eq_specScalars (zeroEntity ms).rels
    (ms.StructFields.filter (fun f => f.IsNormal)) cells [] (by simpa using hnames)
  simpa [zeroEntity, Entity.rels] using this

/-- The item list of a loader over the metadata `ms` after `rows`, when the
stored keys are the renderings of the tuples `seen` and no two different
tuples of `seen` and of the rows are written as the same identity key. -/
theorem scanRows_items_of_no_collision (ms : ModelStruct)
    (hnames : ((ms.StructFields.filter (fun f => f.IsNormal)).map (fun f => f.Name)).Nodup) :
    ∀ (rows : List (List Cell)) (m : modelLoader) (seen : List (List Value)),
      m.ms = ms → m.selectFields = ms.StructFields.filter (fun f => f.IsNormal) →
      (∀ key, key ∈ m.storedKeys ↔
        ∃ k ∈ seen, renderKey (m.selectFields.filter (fun f => f.IsPrimaryKey))
          (k.map some) "" = key) →
      (∀ k1 ∈ seen ++ rows.filterMap (rowKey m.selectFields),
        ∀ k2 ∈ seen ++ rows.filterMap (rowKey m.selectFields),
          renderKey (m.selectFields.filter (fun f => f.IsPrimaryKey)) (k1.map some) "" =
            renderKey (m.selectFields.filter (fun f => f.IsPrimaryKey)) (k2.map some) "" →
          k1 = k2) →
      (m.scanRows rows).items =
        m.items ++ (firstRowPerKey m.selectFields rows seen).map (specEntity m) := by
  intro rows
  induction rows with
  | nil => intro m seen _ _ _ _; simp [modelLoader.scanRows, firstRowPerKey]
  | cons r rs ih =>
      intro m seen hms hsel hstored hinj
      have hkey := scanKey_eq_rowKey m.selectFields r ""
      show ((m.scanRow r).scanRows rs).items = _
      cases hrk : rowKey m.selectFields r with
      | none =>
          rw [hrk] at hkey
          have hm : m.scanRow r = { m with fields := r } := by
            unfold modelLoader.scanRow modelLoader.processScan
            simp only [Option.map_none'] at hkey
            simp only [hkey]
          rw [hm]
          have := ih { m with fields := r } seen hms hsel hstored
            (by
              intro k1 h1 k2 h2
              apply hinj k1 _ k2 _
              · simpa [List.filterMap_cons, hrk] using h1
              · simpa [List.filterMap_cons, hrk] using h2)
          simpa [firstRowPerKey, hrk, specEntity] using this
      | some k =>
          rw [hrk] at hkey
          simp only [Option.map_some'] at hkey
          by_cases hseen : k ∈ seen
          · have hmem : renderKey (m.selectFields.filter (fun f => f.IsPrimaryKey))
                (k.map some) "" ∈ m.storedKeys := (hstored _).mpr ⟨k, hseen, rfl⟩
            have hm : m.scanRow r = { m with fields := r } := by
              unfold modelLoader.scanRow modelLoader.processScan
              simp only [hkey, hmem, if_true]
            rw [hm]
            have := ih { m with fields := r } seen hms hsel hstored
              (by
                intro k1 h1 k2 h2
                apply hinj k1 _ k2 _
                · rcases List.mem_append.mp h1 with h | h
                  · exact List.mem_append_left _ h
                  · exact List.mem_append_right _
                      (by simp only [List.filterMap_cons, hrk]; exact List.mem_cons_of_mem _ h)
                · rcases List.mem_append.mp h2 with h | h
                  · exact List.mem_append_left _ h
                  · exact List.mem_append_right _
                      (by simp only [List.filterMap_cons, hrk]; exact List.mem_cons_of_mem _ h))
            simpa [firstRowPerKey, hrk, hseen, specEntity] using this
          · have hk_rows : k ∈ seen ++ (r :: rs).filterMap (rowKey m.selectFields) :=
              List.mem_append_right _ (by simp [List.filterMap_cons, hrk])
            have hnot : renderKey (m.selectFields.filter (fun f => f.IsPrimaryKey))
                (k.map some) "" ∉ m.storedKeys := by
              intro hmem
              obtain ⟨k2, hk2, heq⟩ := (hstored _).mp hmem
              have := hinj k2 (List.mem_append_left _ hk2) k hk_rows heq
              exact hseen (this ▸ hk2)
            have hm : m.scanRow r =
                { m with
                  fields := r
                  items := m.items ++ [fillItem m.selectFields r (zeroEntity m.ms)]
                  storedKeys := renderKey (m.selectFields.filter (fun f => f.IsPrimaryKey))
                    (k.map some) "" :: m.storedKeys } := by
              unfold modelLoader.scanRow modelLoader.processScan
              simp only [hkey, hnot, if_false]
            rw [hm]
            have hnew : fillItem m.selectFields r (zeroEntity m.ms) = specEntity m r := by
              rw [hsel, hms]
              simpa [specEntity, hsel, hms] using fillItem_zeroEntity ms r hnames
            have := ih
              { m with
                fields := r
                items := m.items ++ [fillItem m.selectFields r (zeroEntity m.ms)]
                storedKeys := renderKey (m.selectFields.filter (fun f => f.IsPrimaryKey))
                  (k.map some) "" :: m.storedKeys }
              (k :: seen) hms hsel
              (by
                intro key
                constructor
                · intro h
                  rcases List.mem_cons.mp h with h | h
                  · exact ⟨k, List.mem_cons_self _ _, h.symm⟩
                  · obtain ⟨k2, hk2, heq⟩ := (hstored key).mp h
                    exact ⟨k2, List.mem_cons_of_mem _ hk2, heq⟩
                · rintro ⟨k2, hk2, heq⟩
                  rcases List.mem_cons.mp hk2 with h | h
                  · subst h
                    exact List.mem_cons.mpr (Or.inl heq.symm)
                  · exact List.mem_cons_of_mem _ ((hstored key).mpr ⟨k2, h, heq⟩))
              (by
                have hsub : ∀ x, x ∈ (k :: seen) ++ rs.filterMap (rowKey m.selectFields) →
                    x ∈ seen ++ (r :: rs).filterMap (rowKey m.selectFields) := by
                  intro x hx
                  simp only [List.filterMap_cons, hrk, List.mem_append, List.mem_cons] at hx ⊢
                  tauto
                intro k1 h1 k2 h2
                exact hinj k1 (hsub k1 h1) k2 (hsub k2 h2))
            simp only [firstRowPerKey, hrk, hseen, if_false, List.map_cons]
            rw [this, hnew]
            simp [specEntity, List.append_assoc]

/-- For a model whose scanned fields have distinct names and rows among
which no two different key tuples are written as the same identity key, the
item list is the list of the specification: one struct per distinct key
tuple, built from the first row that carries it. -/
theorem scanRows_items_eq_specItems (ex : Example) (rows : List (List Cell))
    (hnames : ((ex.ms.StructFields.filter (fun f => f.IsNormal)).map (fun f => f.Name)).Nodup)
    (hinj : ∀ k1 ∈ rows.filterMap (rowKey (newModelLoader ex).selectFields),
      ∀ k2 ∈ rows.filterMap (rowKey (newModelLoader ex).selectFields),
        renderKey ((newModelLoader ex).selectFields.filter (fun f => f.IsPrimaryKey))
            (k1.map some) "" =
          renderKey ((newModelLoader ex).selectFields.filter (fun f => f.IsPrimaryKey))
            (k2.map some) "" →
        k1 = k2) :
    ((newModelLoader ex).scanRows rows).items = specItems (newModelLoader ex) rows := by
  have := scanRows_items_of_no_collision ex.ms hnames rows (newModelLoader ex) [] rfl rfl
    (by intro key; simp [newModelLoader])
    (by simpa using hinj)
  simpa [specItems, newModelLoader] using this

/-! ## Run and the outputs -/

theorem fillOutput_executed (loaders : Store) (output : List Output) (executed : List String) :
    (fillOutput loaders output executed).executed = executed := by
  unfold fillOutput
  dsimp only
  split <;> rfl

theorem runQuery_statement (r : Query) (store : Store) (loaders : List Nat)
    (aliases : List String) :
    (r.runQuery store loaders aliases).1 = r.statement store loaders aliases := by
  unfold Query.runQuery
  dsimp only
  split <;> rfl

theorem Query_Run_executed (r : Query) (output : List Output) :
    (r.Run output).executed =
      [r.statement (newModelLoaders r.models).1
        (List.range (newModelLoaders r.models).1.length) (newModelLoaders r.models).2] := by
  unfold Query.Run
  dsimp only
  split
  · rw [fillOutput_executed, runQuery_statement]
  · simp only [runQuery_statement]
  · simp only [runQuery_statement]

theorem MultiQuery_Run_executed (m : MultiQuery) (output : List Output) :
    (m.Run output).executed = (runQueries m ([], []) []).1 := by
  unfold MultiQuery.Run
  dsimp only
  split
  · rw [fillOutput_executed]
  · rfl
  · rfl

/-- Claim C9, as stated, fails: `Run` of the scenario query with the struct
`Parent` passed by value returns the binding error, and the statement has
been handed to the database. -/
theorem Run_binding_error_after_sql :
    (scenarioAQuery.Run [Output.nonPtr (GoType.named "Parent")]).outcome =
      Res.err (canNotBeSet (GoType.named "Parent")) ∧
    (scenarioAQuery.Run [Output.nonPtr (GoType.named "Parent")]).executed =
      ["SELECT p.id,p.name,c.id,c.parent_id,c.name FROM parents p LEFT JOIN children c ON c.parent_id = p.id ORDER BY p.id, c.id"] :=
  ⟨rfl, rfl⟩

/-- Claim C9, amended: the statements `Run` hands to the database do not
depend on the outputs. A `Query` executes its one statement, a `MultiQuery`
executes the statements of its queries in order up to the first failure,
and only then are the outputs looked at: the run with any outputs executes
what the run without outputs executes. -/
theorem Run_executes_whatever_the_outputs (r : Query) (m : MultiQuery) (output : List Output) :
    (r.Run output).executed =
      [r.statement (newModelLoaders r.models).1
        (List.range (newModelLoaders r.models).1.length) (newModelLoaders r.models).2] ∧
    (r.Run output).executed = (r.Run []).executed ∧
    (m.Run output).executed = (m.Run []).executed := by
  refine ⟨Query_Run_executed r output, ?_, ?_⟩
  · rw [Query_Run_executed, Query_Run_executed]
  · rw [MultiQuery_Run_executed, MultiQuery_Run_executed]

theorem bindOutput_badType (itemMap : ItemMap) (store : Store) (bad : Output) (t : GoType)
    (hbad : bad.badType = some t) : bindOutput itemMap store bad = Res.err (canNotBeSet t) := by
  cases bad with
  | untypedNil => simp [Output.badType] at hbad
  | nonPtr u =>
      simp only [Output.badType, Option.some.injEq] at hbad
      subst hbad
      rfl
  | nilPtr u =>
      simp only [Output.badType, Option.some.injEq] at hbad
      subst hbad
      rfl
  | ptr u cur => simp [Output.badType] at hbad

theorem bindOutputs_stops_at_bad (itemMap : ItemMap) (store : Store) (bad : Output) (t : GoType)
    (post : List Output) (hbad : bad.badType = some t) :
    ∀ pre : List Output, (bindOutputs itemMap store pre).1 = Res.ok () →
      bindOutputs itemMap store (pre ++ bad :: post) =
        (Res.err (canNotBeSet t), (bindOutputs itemMap store pre).2 ++ bad :: post) := by
  intro pre
  induction pre with
  | nil =>
      intro _
      simp [bindOutputs, bindOutput_badType itemMap store bad t hbad]
  | cons o os ih =>
      intro hpre
      cases ho : bindOutput itemMap store o with
      | ok o2 =>
          simp only [bindOutputs, ho] at hpre
          simp [bindOutputs, ho, ih hpre]
      | err msg => simp [bindOutputs, ho] at hpre
      | crash => simp [bindOutputs, ho] at hpre

theorem fillOutput_stops_at_bad (loaders : Store) (executed : List String) (bad : Output)
    (t : GoType) (pre post : List Output) (hbad : bad.badType = some t)
    (hpre : (fillOutput loaders pre executed).outcome = Res.ok ()) :
    (fillOutput loaders (pre ++ bad :: post) executed).outcome = Res.err (canNotBeSet t) ∧
    (fillOutput loaders (pre ++ bad :: post) executed).outputs =
      (fillOutput loaders pre executed).outputs ++ bad :: post := by
  unfold fillOutput at hpre ⊢
  dsimp only at hpre ⊢
  cases hfin : finalizeAll (buildItemMap loaders 0 []) (List.range loaders.length) loaders with
  | ok store =>
      simp only [hfin] at hpre ⊢
      simp [bindOutputs_stops_at_bad _ store bad t post hbad pre hpre]
  | err msg => simp [hfin] at hpre
  | crash => simp [hfin] at hpre

/-- Claim C10, as stated, fails: `Run` of the scenario query with the
outputs `&parents` and a `Parent` passed by value returns the binding
error, and `parents`, empty before, now holds the loaded parent. -/
theorem Run_binding_error_after_earlier_output_bound :
    (scenarioAQuery.Run [parentsOut, Output.nonPtr (GoType.named "Parent")]).outcome =
      Res.err (canNotBeSet (GoType.named "Parent")) ∧
    (scenarioAQuery.Run [parentsOut, Output.nonPtr (GoType.named "Parent")]).outputs =
      [Output.ptr (GoType.slice (GoType.named "Parent")) (Slot.vals [parentP1]),
       Output.nonPtr (GoType.named "Parent")] ∧
    (scenarioAQuery.Run [parentsOut, Output.nonPtr (GoType.named "Parent")]).outputs ≠
      [parentsOut, Output.nonPtr (GoType.named "Parent")] := by
  refine ⟨rfl, rfl, ?_⟩
  intro h
  have h2 : (scenarioAQuery.Run [parentsOut, Output.nonPtr (GoType.named "Parent")]).outputs =
      [Output.ptr (GoType.slice (GoType.named "Parent")) (Slot.vals [parentP1]),
       Output.nonPtr (GoType.named "Parent")] := rfl
  rw [h2] at h
  simp [parentsOut] at h

/-- Claim C10, amended: when the outputs `pre` alone are bound without
error and the next output `bad` is a non-pointer or a nil pointer, `Run`
returns the binding error for `bad`, the outputs before it hold what the
run on `pre` alone gives them, and `bad` and the outputs after it are as
they were. This holds of `Query.Run` and of `MultiQuery.Run`. -/
theorem Run_binding_error_leaves_later_outputs (r : Query) (m : MultiQuery)
    (pre post : List Output) (bad : Output) (t : GoType) (hbad : bad.badType = some t)
    (hq : (r.Run pre).outcome = Res.ok ()) (hm : (m.Run pre).outcome = Res.ok ()) :
    ((r.Run (pre ++ bad :: post)).outcome = Res.err (canNotBeSet t) ∧
      (r.Run (pre ++ bad :: post)).outputs = (r.Run pre).outputs ++ bad :: post) ∧
    ((m.Run (pre ++ bad :: post)).outcome = Res.err (canNotBeSet t) ∧
      (m.Run (pre ++ bad :: post)).outputs = (m.Run pre).outputs ++ bad :: post) := by
  constructor
  · unfold Query.Run at hq ⊢
    dsimp only at hq ⊢
    cases hran : (r.runQuery (newModelLoaders r.models).1
        (List.range (newModelLoaders r.models).1.length) (newModelLoaders r.models).2).2 with
    | ok loaders =>
        simp only [hran] at hq ⊢
        exact fillOutput_stops_at_bad loaders _ bad t pre post hbad hq
    | err msg => simp [hran] at hq
    | crash => simp [hran] at hq
  · unfold MultiQuery.Run at hm ⊢
    dsimp only at hm ⊢
    cases hran : (runQueries m ([], []) []).2 with
    | ok loaders =>
        simp only [hran] at hm ⊢
        exact fillOutput_stops_at_bad loaders _ bad t pre post hbad hm
    | err msg => simp [hran] at hm
    | crash => simp [hran] at hm

/-- Witness of the amended claim C10: the scenario query, alone and as the
only query of a `MultiQuery`, with the outputs `&parents`, a `Parent` passed
by value, `&children`. -/
theorem Run_binding_error_leaves_later_outputs_witness :
    ((Output.nonPtr (GoType.named "Parent")).badType = some (GoType.named "Parent") ∧
      (scenarioAQuery.Run [parentsOut]).outcome = Res.ok () ∧
      (MultiQuery.Run [scenarioAQuery] [parentsOut]).outcome = Res.ok ()) ∧
    (((scenarioAQuery.Run
          ([parentsOut] ++ Output.nonPtr (GoType.named "Parent") :: [childrenOut])).outcome =
        Res.err (canNotBeSet (GoType.named "Parent")) ∧
      (scenarioAQuery.Run
          ([parentsOut] ++ Output.nonPtr (GoType.named "Parent") :: [childrenOut])).outputs =
        (scenarioAQuery.Run [parentsOut]).outputs ++
          Output.nonPtr (GoType.named "Parent") :: [childrenOut]) ∧
     ((MultiQuery.Run [scenarioAQuery]
          ([parentsOut] ++ Output.nonPtr (GoType.named "Parent") :: [childrenOut])).outcome =
        Res.err (canNotBeSet (GoType.named "Parent")) ∧
      (MultiQuery.Run [scenarioAQuery]
          ([parentsOut] ++ Output.nonPtr (GoType.named "Parent") :: [childrenOut])).outputs =
        (MultiQuery.Run [scenarioAQuery] [parentsOut]).outputs ++
          Output.nonPtr (GoType.named "Parent") :: [childrenOut])) :=
  ⟨⟨rfl, rfl, rfl⟩,
   Run_binding_error_leaves_later_outputs scenarioAQuery [scenarioAQuery] [parentsOut]
     [childrenOut] (Output.nonPtr (GoType.named "Parent")) (GoType.named "Parent") rfl rfl rfl⟩

/-! ## Binding one output -/

theorem itemMapGet_itemMapSet (t k : GoType) (v : Nat) :
    ∀ im : ItemMap, itemMapGet t (itemMapSet k v im) =
      if k = t then some v else itemMapGet t im := by
  intro im
  induction im with
  | nil => simp [itemMapSet, itemMapGet]
  | cons p rest ih =>
      obtain ⟨a, b⟩ := p
      by_cases hak : a = k
      · subst hak
        by_cases hat : a = t
        · simp [itemMapSet, itemMapGet, hat]
        · simp [itemMapSet, itemMapGet, hat]
      · by_cases hat : a = t
        · subst hat
          have hka : ¬ k = a := fun h => hak h.symm
          simp [itemMapSet, itemMapGet, hak, hka]
        · simp [itemMapSet, itemMapGet, hak, hat, ih]

theorem itemMapGet_buildItemMap_none (t : GoType) :
    ∀ (ls : List modelLoader) (i : Nat) (im : ItemMap),
      itemMapGet t im = none → (∀ l ∈ ls, baseType l.itemType ≠ t) →
      itemMapGet t (buildItemMap ls i im) = none := by
  intro ls
  induction ls with
  | nil => intro i im h _; simpa [buildItemMap] using h
  | cons l ls ih =>
      intro i im h hno
      apply ih
      · rw [itemMapGet_itemMapSet]
        simp [hno l (List.mem_cons_self _ _), h]
      · exact fun l2 hl2 => hno l2 (List.mem_cons_of_mem _ hl2)

theorem bindOutputs_cons_ok (itemMap : ItemMap) (store : Store) (o o2 : Output)
    (os : List Output) (h : bindOutput itemMap store o = Res.ok o2) :
    bindOutputs itemMap store (o :: os) =
      ((bindOutputs itemMap store os).1, o2 :: (bindOutputs itemMap store os).2) := by
  simp [bindOutputs, h]

/-- Claim C13: a destination that can be set and whose base type is the type
of no loader is left as it is by the output loop, and `fillOutput` ends as
it ends without this destination: the same error result, the other outputs
bound the same way. -/
theorem fillOutput_leaves_output_without_loader (loaders store : Store) (t : GoType)
    (cur : Slot) (post : List Output) (executed : List String)
    (hno : ∀ l ∈ loaders, baseType l.itemType ≠ baseType (GoType.ptr t)) :
    bindOutput (buildItemMap loaders 0 []) store (Output.ptr t cur) = Res.ok (Output.ptr t cur) ∧
    (fillOutput loaders (Output.ptr t cur :: post) executed).outcome =
      (fillOutput loaders post executed).outcome ∧
    (fillOutput loaders (Output.ptr t cur :: post) executed).outputs =
      Output.ptr t cur :: (fillOutput loaders post executed).outputs := by
  have hnone : itemMapGet (baseType (GoType.ptr t)) (buildItemMap loaders 0 []) = none :=
    itemMapGet_buildItemMap_none _ loaders 0 [] rfl hno
  have hbind : ∀ st : Store,
      bindOutput (buildItemMap loaders 0 []) st (Output.ptr t cur) = Res.ok (Output.ptr t cur) := by
    intro st
    simp [bindOutput, hnone]
  refine ⟨hbind store, ?_, ?_⟩
  · unfold fillOutput
    dsimp only
    split
    · rw [bindOutputs_cons_ok _ _ _ _ _ (hbind _)]
    · rfl
    · rfl
  · unfold fillOutput
    dsimp only
    split
    · rw [bindOutputs_cons_ok _ _ _ _ _ (hbind _)]
    · rfl
    · rfl

/-- Witness of claim C13: the loaders of scenario A and an output
`[]*Exercise`. -/
theorem fillOutput_leaves_output_without_loader_witness :
    (∀ l ∈ scenarioAStore, baseType l.itemType ≠
        baseType (GoType.ptr (GoType.slice (GoType.ptr (GoType.named "Exercise"))))) ∧
    (bindOutput (buildItemMap scenarioAStore 0 []) scenarioAStore exercisesOut =
        Res.ok exercisesOut ∧
      (fillOutput scenarioAStore (exercisesOut :: [parentsOut]) []).outcome =
        (fillOutput scenarioAStore [parentsOut] []).outcome ∧
      (fillOutput scenarioAStore (exercisesOut :: [parentsOut]) []).outputs =
        exercisesOut :: (fillOutput scenarioAStore [parentsOut] []).outputs) :=
  ⟨by
    intro l hl
    simp only [scenarioAStore, List.mem_cons, List.mem_singleton, List.not_mem_nil,
      or_false] at hl
    rcases hl with h | h <;> subst h <;> decide,
   fillOutput_leaves_output_without_loader scenarioAStore scenarioAStore
     (GoType.slice (GoType.ptr (GoType.named "Exercise"))) (Slot.ptrs []) [parentsOut] []
     (by
      intro l hl
      simp only [scenarioAStore, List.mem_cons, List.mem_singleton, List.not_mem_nil,
        or_false] at hl
      rcases hl with h | h <;> subst h <;> decide)⟩


/-! ## Failing queries -/

/-- Claim C15: when the database rejects the statement of a `Query`, or a
row of its result does not scan (whatever rows were scanned before it),
`Run` returns that error and every output is as it was. -/
theorem Query_Run_error_leaves_outputs (r : Query) (output : List Output) (msg : String)
    (hfail :
      r.db (r.statement (newModelLoaders r.models).1
          (List.range (newModelLoaders r.models).1.length) (newModelLoaders r.models).2)
        r.args = Except.error msg ∨
      ∃ rows, r.db (r.statement (newModelLoaders r.models).1
          (List.range (newModelLoaders r.models).1.length) (newModelLoaders r.models).2)
        r.args = Except.ok rows ∧
        scanLoop (List.range (newModelLoaders r.models).1.length) rows
          (newModelLoaders r.models).1 = Res.err msg) :
    (r.Run output).outcome = Res.err msg ∧ (r.Run output).outputs = output := by
  have hran : (r.runQuery (newModelLoaders r.models).1
      (List.range (newModelLoaders r.models).1.length) (newModelLoaders r.models).2).2 =
      Res.err msg := by
    unfold Query.runQuery
    dsimp only
    rcases hfail with h | ⟨rows, h, hscan⟩
    · rw [h]
    · rw [h]
      exact hscan
  unfold Query.Run
  dsimp only
  rw [hran]
  exact ⟨rfl, rfl⟩

/-- Witness of claim C15: a statement that the database rejects, and a
result whose first row is scanned and whose second row is not. -/
theorem Query_Run_error_leaves_outputs_witness :
    (rejectedQuery.db (rejectedQuery.statement (newModelLoaders rejectedQuery.models).1
          (List.range (newModelLoaders rejectedQuery.models).1.length)
          (newModelLoaders rejectedQuery.models).2)
        rejectedQuery.args = Except.error "Error 1054: Unknown column 'not_a_column'" ∧
      (rejectedQuery.Run [parentsOut, childrenOut]).outcome =
        Res.err "Error 1054: Unknown column 'not_a_column'" ∧
      (rejectedQuery.Run [parentsOut, childrenOut]).outputs = [parentsOut, childrenOut]) ∧
    (badRowQuery.Run [parentsOut, childrenOut]).outcome =
        Res.err "sql: Scan error on column index 1: converting driver.Value type" ∧
    (badRowQuery.Run [parentsOut, childrenOut]).outputs = [parentsOut, childrenOut] :=
  ⟨⟨rfl, Query_Run_error_leaves_outputs rejectedQuery [parentsOut, childrenOut] _
      (Or.inl rfl)⟩,
   Query_Run_error_leaves_outputs badRowQuery [parentsOut, childrenOut] _
      (Or.inr ⟨_, rfl, rfl⟩)⟩

theorem runQueries_failure_is_final (post : List Query) :
    ∀ (pre : List Query) (st : Store × ItemMap) (executed : List String),
      (∀ loaders, (runQueries pre st executed).2 ≠ Res.ok loaders) →
      runQueries (pre ++ post) st executed = runQueries pre st executed := by
  intro pre
  induction pre with
  | nil =>
      intro st executed h
      obtain ⟨loaders, loaderMap⟩ := st
      exact absurd rfl (h loaders)
  | cons q qs ih =>
      intro st executed h
      simp only [List.cons_append, runQueries] at h ⊢
      cases hran : (q.runQuery (registerModels q.models st).1
          (sharedLoaders (registerModels q.models st).1 (registerModels q.models st).2
            q.models).1
          (sharedLoaders (registerModels q.models st).1 (registerModels q.models st).2
            q.models).2).2 with
      | ok loaders =>
          simp only [hran] at h ⊢
          exact ih _ _ h
      | err msg => rfl
      | crash => rfl

theorem runQueries_executed_length (q : Query) :
    ∀ (pre : List Query) (st : Store × ItemMap) (executed : List String) (loaders : Store),
      (runQueries pre st executed).2 = Res.ok loaders →
      (runQueries (pre ++ [q]) st executed).1.length = executed.length + pre.length + 1 := by
  intro pre
  induction pre with
  | nil =>
      intro st executed loaders _
      simp only [List.nil_append, runQueries]
      split <;> simp [runQueries]
  | cons p ps ih =>
      intro st executed loaders h
      simp only [List.cons_append, runQueries] at h ⊢
      cases hran : (p.runQuery (registerModels p.models st).1
          (sharedLoaders (registerModels p.models st).1 (registerModels p.models st).2
            p.models).1
          (sharedLoaders (registerModels p.models st).1 (registerModels p.models st).2
            p.models).2).2 with
      | ok loaders2 =>
          simp only [hran] at h ⊢
          exact (ih _ _ loaders h).trans (by simp; omega)
      | err msg => simp [hran] at h
      | crash => simp [hran] at h

/-- Claim C14: in a `MultiQuery` whose queries before position `k` run
without error and whose query `k` fails (its statement is rejected or one of
its rows does not scan), `Run` returns that error, every output is as it
was, and the statements executed are those of the queries up to `k`: one per
query, none of a later query, whatever the later queries are. -/
theorem MultiQuery_Run_stops_at_failing_query (pre post : List Query) (q : Query)
    (output : List Output) (msg : String) (loaders : Store)
    (hpre : (runQueries pre ([], []) []).2 = Res.ok loaders)
    (hq : (runQueries (pre ++ [q]) ([], []) []).2 = Res.err msg) :
    (MultiQuery.Run (pre ++ q :: post) output).outcome = Res.err msg ∧
    (MultiQuery.Run (pre ++ q :: post) output).outputs = output ∧
    (MultiQuery.Run (pre ++ q :: post) output).executed =
      (MultiQuery.Run (pre ++ [q]) output).executed ∧
    (MultiQuery.Run (pre ++ q :: post) output).executed.length = pre.length + 1 := by
  have hsame : runQueries (pre ++ q :: post) ([], []) [] = runQueries (pre ++ [q]) ([], []) [] := by
    have := runQueries_failure_is_final post (pre ++ [q]) ([], []) []
      (by intro l hl; rw [hq] at hl; cases hl)
    simpa [List.append_assoc] using this
  have hlen := runQueries_executed_length q pre ([], []) [] loaders hpre
  have hrun : ∀ qs : List Query, (runQueries qs ([], []) []).2 = Res.err msg →
      (MultiQuery.Run qs output).outcome = Res.err msg ∧
      (MultiQuery.Run qs output).outputs = output ∧
      (MultiQuery.Run qs output).executed = (runQueries qs ([], []) []).1 := by
    intro qs h
    unfold MultiQuery.Run
    dsimp only
    rw [h]
    exact ⟨rfl, rfl, rfl⟩
  have h1 := hrun (pre ++ q :: post) (by rw [hsame]; exact hq)
  have h2 := hrun (pre ++ [q]) hq
  refine ⟨h1.1, h1.2.1, ?_, ?_⟩
  · rw [h1.2.2, h2.2.2, hsame]
  · rw [h1.2.2, hsame, hlen]
    simp

/-- Witness of claim C14: the query of scenario A, then a query that the
database rejects, then the query of scenario A again. -/
theorem MultiQuery_Run_stops_at_failing_query_witness :
    ((runQueries [scenarioAQuery] ([], []) []).2 = Res.ok scenarioAStore ∧
      (runQueries ([scenarioAQuery] ++ [rejectedQuery]) ([], []) []).2 =
        Res.err "Error 1054: Unknown column 'not_a_column'") ∧
    ((MultiQuery.Run ([scenarioAQuery] ++ rejectedQuery :: [scenarioAQuery])
        [parentsOut]).outcome = Res.err "Error 1054: Unknown column 'not_a_column'" ∧
     (MultiQuery.Run ([scenarioAQuery] ++ rejectedQuery :: [scenarioAQuery])
        [parentsOut]).outputs = [parentsOut] ∧
     (MultiQuery.Run ([scenarioAQuery] ++ rejectedQuery :: [scenarioAQuery])
        [parentsOut]).executed =
      (MultiQuery.Run ([scenarioAQuery] ++ [rejectedQuery]) [parentsOut]).executed ∧
     (MultiQuery.Run ([scenarioAQuery] ++ rejectedQuery :: [scenarioAQuery])
        [parentsOut]).executed.length = [scenarioAQuery].length + 1) :=
  ⟨⟨rfl, rfl⟩,
   MultiQuery_Run_stops_at_failing_query [scenarioAQuery] [scenarioAQuery] rejectedQuery
     [parentsOut] _ _ rfl rfl⟩


/-! ## Outputs that match a loader -/

theorem getItem_of_loader (store : Store) (li : Nat) (l : modelLoader)
    (hl : store[li]? = some l) (k : Nat) : getItem store ⟨li, k⟩ = l.items[k]? := by
  simp [getItem, hl]

theorem range_map_getElem? {α : Type} (xs : List α) :
    (List.range xs.length).map (fun k => xs[k]?) = xs.map some := by
  apply List.ext_getElem?
  intro i
  by_cases hi : i < xs.length
  · simp [List.getElem?_range, hi, List.getElem?_eq_getElem]
  · simp [List.getElem?_eq_none, Nat.le_of_not_lt hi]

theorem appendItems_structs (store : Store) :
    ∀ (refs : List Ref) (es found : List Entity),
      refs.map (getItem store) = found.map some →
      appendItems true store refs (Slot.vals es) = Res.ok (Slot.vals (es ++ found)) := by
  intro refs
  induction refs with
  | nil =>
      intro es found h
      cases found with
      | nil => simp [appendItems]
      | cons e rest => simp at h
  | cons r rs ih =>
      intro es found h
      cases found with
      | nil => simp at h
      | cons e rest =>
          simp only [List.map_cons, List.cons.injEq] at h
          simp only [appendItems, if_true, h.1]
          rw [ih (es ++ [e]) rest h.2]
          simp

theorem appendItems_pointers (store : Store) :
    ∀ (refs ps : List Ref),
      appendItems false store refs (Slot.ptrs ps) = Res.ok (Slot.ptrs (ps ++ refs)) := by
  intro refs
  induction refs with
  | nil => intro ps; simp [appendItems]
  | cons r rs ih =>
      intro ps
      simp only [appendItems, Bool.false_eq_true, if_false]
      rw [ih (ps ++ [r])]
      simp

/-- Claim C11: for a loader `l` entered in the item map under the struct
type `n`, binding a destination `[]n` appends to what it holds the structs
of `l` in arrival order, and binding a destination `[]*n` appends the
pointers to them in arrival order; nothing is left out or moved. -/
theorem bindOutput_slice_appends_all_items (itemMap : ItemMap) (store : Store) (n : String)
    (li : Nat) (l : modelLoader)
    (hmap : itemMapGet (GoType.named n) itemMap = some li) (hl : store[li]? = some l) :
    (∀ prior : List Entity,
      bindOutput itemMap store (Output.ptr (GoType.slice (GoType.named n)) (Slot.vals prior)) =
        Res.ok (Output.ptr (GoType.slice (GoType.named n)) (Slot.vals (prior ++ l.items)))) ∧
    (∀ prior : List Ref,
      bindOutput itemMap store
          (Output.ptr (GoType.slice (GoType.ptr (GoType.named n))) (Slot.ptrs prior)) =
        Res.ok (Output.ptr (GoType.slice (GoType.ptr (GoType.named n)))
          (Slot.ptrs (prior ++ (List.range l.items.length).map (fun k => Ref.mk li k))))) ∧
    ((List.range l.items.length).map (fun k => Ref.mk li k)).map (getItem store) =
      l.items.map some := by
  have hitems : ((List.range l.items.length).map (fun k => Ref.mk li k)).map (getItem store) =
      l.items.map some := by
    rw [List.map_map]
    have : (getItem store ∘ fun k => Ref.mk li k) = fun k => l.items[k]? := by
      funext k
      exact getItem_of_loader store li l hl k
    rw [this]
    exact range_map_getElem? l.items
  refine ⟨?_, ?_, hitems⟩
  · intro prior
    simp only [bindOutput, baseType, hmap, hl, GoType.isSlice, GoType.elem, GoType.isPtr,
      if_true, Bool.not_false]
    rw [appendItems_structs store _ prior l.items hitems]
  · intro prior
    simp only [bindOutput, baseType, hmap, hl, GoType.isSlice, GoType.elem, GoType.isPtr,
      if_true, Bool.not_true]
    rw [appendItems_pointers store _ prior]

/-- Witness of claim C11: the `Child` loader of scenario A, at position 1. -/
theorem bindOutput_slice_appends_all_items_witness :
    (itemMapGet (GoType.named "Child") (buildItemMap scenarioAStore 0 []) = some 1 ∧
      scenarioAStore[1]? = some ((newModelLoader childModel).scanRows
        [[some (Value.uint 1), some (Value.uint 1), some (Value.str "C1")],
         [some (Value.uint 2), some (Value.uint 1), some (Value.str "C2")],
         [none, none, none]])) ∧
    bindOutput (buildItemMap scenarioAStore 0 []) scenarioAStore
        (Output.ptr (GoType.slice (GoType.named "Child")) (Slot.vals [childC2])) =
      Res.ok (Output.ptr (GoType.slice (GoType.named "Child"))
        (Slot.vals ([childC2] ++ [childC1, childC2]))) :=
  ⟨⟨rfl, rfl⟩,
   (bindOutput_slice_appends_all_items (buildItemMap scenarioAStore 0 []) scenarioAStore
      "Child" 1 _ rfl rfl).1 [childC2]⟩

/-- Claim C12: for a loader `l` entered in the item map under the struct
type `n`, binding a destination of type `n` assigns the first struct of `l`,
binding a destination of type `*n` assigns the pointer to it, and when `l`
holds no struct either destination keeps what it held. -/
theorem bindOutput_single_takes_first_item (itemMap : ItemMap) (store : Store) (n : String)
    (li : Nat) (l : modelLoader)
    (hmap : itemMapGet (GoType.named n) itemMap = some li) (hl : store[li]? = some l) :
    (∀ prior : Option Entity,
      bindOutput itemMap store (Output.ptr (GoType.named n) (Slot.val prior)) =
        Res.ok (Output.ptr (GoType.named n)
          (Slot.val (match l.items with
                     | [] => prior
                     | e :: _ => some e)))) ∧
    (∀ prior : Option Ref,
      bindOutput itemMap store (Output.ptr (GoType.ptr (GoType.named n)) (Slot.ptr prior)) =
        Res.ok (Output.ptr (GoType.ptr (GoType.named n))
          (Slot.ptr (match l.items with
                     | [] => prior
                     | _ :: _ => some ⟨li, 0⟩)))) ∧
    getItem store ⟨li, 0⟩ = l.items.head? := by
  have hfirst : getItem store ⟨li, 0⟩ = l.items.head? := by
    rw [getItem_of_loader store li l hl 0]
    cases l.items <;> simp
  refine ⟨?_, ?_, hfirst⟩
  · intro prior
    cases hi : l.items with
    | nil => simp [bindOutput, baseType, hmap, hl, GoType.isSlice, hi]
    | cons e rest =>
        have h0 : getItem store ⟨li, 0⟩ = some e := by rw [hfirst, hi]; rfl
        simp [bindOutput, baseType, hmap, hl, GoType.isSlice, hi, List.range_succ_eq_map,
          setFirst, GoType.isPtr, h0]
  · intro prior
    cases hi : l.items with
    | nil => simp [bindOutput, baseType, hmap, hl, GoType.isSlice, hi]
    | cons e rest =>
        simp [bindOutput, baseType, hmap, hl, GoType.isSlice, hi, List.range_succ_eq_map,
          setFirst, GoType.isPtr]

/-- Witness of claim C12: the loaders of scenario A, a destination `Parent`
and a destination `*Child`. -/
theorem bindOutput_single_takes_first_item_witness :
    (itemMapGet (GoType.named "Child") (buildItemMap scenarioAStore 0 []) = some 1 ∧
      scenarioAStore[1]? = some ((newModelLoader childModel).scanRows
        [[some (Value.uint 1), some (Value.uint 1), some (Value.str "C1")],
         [some (Value.uint 2), some (Value.uint 1), some (Value.str "C2")],
         [none, none, none]])) ∧
    bindOutput (buildItemMap scenarioAStore 0 []) scenarioAStore
        (Output.ptr (GoType.named "Child") (Slot.val none)) =
      Res.ok (Output.ptr (GoType.named "Child") (Slot.val (some childC1))) ∧
    bindOutput (buildItemMap scenarioAStore 0 []) scenarioAStore childPtrOut =
      Res.ok (Output.ptr (GoType.ptr (GoType.named "Child")) (Slot.ptr (some ⟨1, 0⟩))) :=
  ⟨⟨rfl, rfl⟩,
   (bindOutput_single_takes_first_item (buildItemMap scenarioAStore 0 []) scenarioAStore
      "Child" 1 _ rfl rfl).1 none,
   (bindOutput_single_takes_first_item (buildItemMap scenarioAStore 0 []) scenarioAStore
      "Child" 1 _ rfl rfl).2.1 none⟩


/-! ## finalize: what a relationship leaves alone -/

theorem getItem_setItem (store : Store) (r r2 : Ref) (e : Entity) :
    getItem (setItem store r e) r2 =
      if r2 = r then (getItem store r).map (fun _ => e) else getItem store r2 := by
  obtain ⟨rl, ri⟩ := r
  obtain ⟨l2, i2⟩ := r2
  unfold getItem setItem
  dsimp only
  cases hm : store[rl]? with
  | none =>
      by_cases h : (⟨l2, i2⟩ : Ref) = ⟨rl, ri⟩
      · simp only [Ref.mk.injEq] at h
        obtain ⟨h1, h2⟩ := h
        subst h1
        subst h2
        simp [hm]
      · simp [h]
  | some m =>
      have hlt : rl < store.length := by
        rcases Nat.lt_or_ge rl store.length with h | h
        · exact h
        · rw [List.getElem?_eq_none h] at hm
          cases hm
      by_cases hl : l2 = rl
      · subst hl
        by_cases hi : i2 = ri
        · subst hi
          simp only [List.getElem?_set_self hlt, if_true]
          cases hx : m.items[i2]? with
          | none =>
              have : m.items.length ≤ i2 := by
                rcases Nat.lt_or_ge i2 m.items.length with h | h
                · rw [List.getElem?_eq_getElem h] at hx
                  cases hx
                · exact h
              simp [List.getElem?_eq_none, this]
          | some x =>
              have : i2 < m.items.length := by
                rcases Nat.lt_or_ge i2 m.items.length with h | h
                · exact h
                · rw [List.getElem?_eq_none h] at hx
                  cases hx
              simp [List.getElem?_set_self this]
        · have hne : ¬ (⟨l2, i2⟩ : Ref) = ⟨l2, ri⟩ := by
            intro h
            simp only [Ref.mk.injEq, true_and] at h
            exact hi h
          have hne2 : ¬ ri = i2 := fun h => hi h.symm
          simp only [List.getElem?_set_self hlt, hne, if_false, hm,
            List.getElem?_set_ne hne2]
      · have hne : ¬ (⟨l2, i2⟩ : Ref) = ⟨rl, ri⟩ := by
          intro h
          simp only [Ref.mk.injEq] at h
          exact hl h.1
        have hne2 : ¬ rl = l2 := fun h => hl h.symm
        simp only [hne, if_false, List.getElem?_set_ne hne2]

theorem rel_setRel_ne (e : Entity) (n n2 : String) (s : Slot) (hne : n ≠ n2) :
    (e.setRel n s).rel n2 = e.rel n2 := by
  cases e with
  | mk scalars rels =>
      simpa [Entity.rel, Entity.setRel, Entity.rels] using
        assocGet_assocSet_ne n n2 s hne rels

theorem scalars_setRel (e : Entity) (n : String) (s : Slot) :
    (e.setRel n s).scalars = e.scalars := by
  cases e with
  | mk scalars rels => rfl

theorem SameOutside.refl (n : String) (store : Store) : SameOutside n store store :=
  fun _ => ⟨rfl, fun _ _ => rfl⟩

theorem SameOutside.trans {n : String} {a b c : Store} (h1 : SameOutside n a b)
    (h2 : SameOutside n b c) : SameOutside n a c :=
  fun r => ⟨((h2 r).1).trans (h1 r).1, fun n2 hne => ((h2 r).2 n2 hne).trans ((h1 r).2 n2 hne)⟩

theorem SameOutside.setItem (n : String) (store : Store) (owner : Ref) (item : Entity)
    (s : Slot) (hitem : getItem store owner = some item) :
    SameOutside n store (setItem store owner (item.setRel n s)) := by
  intro r
  rw [getItem_setItem]
  by_cases h : r = owner
  · subst h
    simp only [if_true, hitem, Option.map_some']
    exact ⟨by rw [scalars_setRel], fun n2 hne => by rw [rel_setRel_ne _ _ _ _ hne]⟩
  · rw [if_neg h]
    exact ⟨rfl, fun _ _ => rfl⟩

theorem linkAll_sameOutside (f : StructField) (owner : Ref) :
    ∀ (refs : List Ref) (store store2 : Store),
      linkAll f owner refs store = Res.ok store2 → SameOutside f.Name store store2 := by
  intro refs
  induction refs with
  | nil =>
      intro store store2 h
      simp only [linkAll, Res.ok.injEq] at h
      subst h
      exact SameOutside.refl _ _
  | cons r rs ih =>
      intro store store2 h
      simp only [linkAll] at h
      cases hitem : getItem store owner with
      | none => simp [hitem] at h
      | some item =>
          cases htarget : getItem store r with
          | none => simp [hitem, htarget] at h
          | some target =>
              simp only [hitem, htarget] at h
              cases hslot : item.rel f.Name with
              | none => simp [hslot] at h
              | some slot =>
                  simp only [hslot] at h
                  cases hlink : linkOne f.typ slot r target with
                  | none => simp [hlink] at h
                  | some slot2 =>
                      simp only [hlink] at h
                      have hstep := SameOutside.setItem f.Name store owner item slot2 hitem
                      by_cases hs : f.typ.isSlice = true
                      · simp only [hs, if_true] at h
                        exact hstep.trans (ih _ _ h)
                      · simp only [hs, Bool.false_eq_true, if_false, Res.ok.injEq] at h
                        subst h
                        exact hstep

theorem fillItems_sameOutside (f : StructField) (rel : Relationship) (li : Nat)
    (lookup : Lookup) :
    ∀ (ks : List Nat) (store store2 : Store),
      fillItems f rel li lookup ks store = Res.ok store2 → SameOutside f.Name store store2 := by
  intro ks
  induction ks with
  | nil =>
      intro store store2 h
      simp only [fillItems, Res.ok.injEq] at h
      subst h
      exact SameOutside.refl _ _
  | cons k ks ih =>
      intro store store2 h
      simp only [fillItems] at h
      cases hitem : getItem store ⟨li, k⟩ with
      | none => simp [hitem] at h
      | some item =>
          simp only [hitem] at h
          cases hkey : ownerKey item rel.AssociationForeignFieldNames 0 "" with
          | ok key =>
              simp only [hkey] at h
              cases hlink : linkAll f ⟨li, k⟩ (lookupGet key lookup) store with
              | ok store3 =>
                  simp only [hlink] at h
                  exact (linkAll_sameOutside f _ _ _ _ hlink).trans (ih _ _ h)
              | err msg => simp [hlink] at h
              | crash => simp [hlink] at h
          | err msg => simp [hkey] at h
          | crash => simp [hkey] at h

theorem finalizeRel_sameOutside (li : Nat) (itemMap : ItemMap) (f : StructField)
    (store store2 : Store) (h : finalizeRel li itemMap f store = Res.ok store2) :
    SameOutside f.Name store store2 := by
  unfold finalizeRel at h
  cases hmap : itemMapGet (baseType f.typ) itemMap with
  | none =>
      simp only [hmap, Res.ok.injEq] at h
      subst h
      exact SameOutside.refl _ _
  | some tl =>
      simp only [hmap] at h
      split at h
      · split at h
        · exact fillItems_sameOutside f _ li _ _ _ _ h
        · cases h
        · cases h
      · cases h

/-- A relationship whose target type is absent from the item map is passed
over by `finalize`. -/
theorem finalizeRel_absent (li : Nat) (itemMap : ItemMap) (f : StructField) (store : Store)
    (habsent : itemMapGet (baseType f.typ) itemMap = none) :
    finalizeRel li itemMap f store = Res.ok store := by
  simp [finalizeRel, habsent]

theorem finalizeRels_keeps_slot (li : Nat) (itemMap : ItemMap) (n : String) :
    ∀ (fs : List StructField) (store store2 : Store),
      (∀ g ∈ fs, g.Name = n → itemMapGet (baseType g.typ) itemMap = none) →
      finalizeRels li itemMap fs store = Res.ok store2 →
      ∀ r : Ref, (getItem store2 r).map (fun e => e.rel n) =
        (getItem store r).map (fun e => e.rel n) := by
  intro fs
  induction fs with
  | nil =>
      intro store store2 _ h r
      simp only [finalizeRels, Res.ok.injEq] at h
      subst h
      rfl
  | cons g gs ih =>
      intro store store2 habs h r
      simp only [finalizeRels] at h
      cases hg : finalizeRel li itemMap g store with
      | ok store3 =>
          simp only [hg] at h
          have hrest := ih store3 store2
            (fun g2 hg2 hn => habs g2 (List.mem_cons_of_mem _ hg2) hn) h r
          rw [hrest]
          by_cases hname : g.Name = n
          · rw [finalizeRel_absent li itemMap g store
              (habs g (List.mem_cons_self _ _) hname)] at hg
            simp only [Res.ok.injEq] at hg
            subst hg
            rfl
          · exact ((finalizeRel_sameOutside li itemMap g store store3 hg) r).2 n hname
      | err msg => simp [hg] at h
      | crash => simp [hg] at h

/-- Claim C19: a relationship field `f` whose target base type is no key of
the item map is passed over: its turn in the loop of `finalize` returns
without error and changes nothing; and when `finalize` of the loader
returns, the field `f` of every struct holds what it held before, whatever
the other relationships of the loader did. -/
theorem finalize_leaves_relationship_without_target (li : Nat) (itemMap : ItemMap)
    (m : modelLoader) (f : StructField) (store store2 : Store)
    (hli : store[li]? = some m)
    (hnames : ∀ g ∈ m.relationships, g.Name = f.Name →
      itemMapGet (baseType g.typ) itemMap = none)
    (habsent : itemMapGet (baseType f.typ) itemMap = none)
    (hfin : finalize li itemMap store = Res.ok store2) :
    finalizeRel li itemMap f store = Res.ok store ∧
    ∀ r : Ref, (getItem store2 r).map (fun e => e.rel f.Name) =
      (getItem store r).map (fun e => e.rel f.Name) := by
  refine ⟨finalizeRel_absent li itemMap f store habsent, ?_⟩
  unfold finalize at hfin
  rw [hli] at hfin
  exact finalizeRels_keeps_slot li itemMap f.Name m.relationships store store2 hnames hfin


/-- Witness of claim C19: the `Parent` loader of scenario A alone; the type
`Child` of its relationship `Children` has no loader. -/
theorem finalize_leaves_relationship_without_target_witness :
    (parentOnlyStore[0]? = some ((newModelLoader parentModel).scanRows
        [[some (Value.uint 1), some (Value.str "P1")]]) ∧
      itemMapGet (baseType (GoType.slice (GoType.named "Child")))
        (buildItemMap parentOnlyStore 0 []) = none ∧
      finalize 0 (buildItemMap parentOnlyStore 0 []) parentOnlyStore = Res.ok parentOnlyStore) ∧
    (finalizeRel 0 (buildItemMap parentOnlyStore 0 [])
        (relField "Children" (GoType.slice (GoType.named "Child")) ["ParentID"] ["ID"])
        parentOnlyStore = Res.ok parentOnlyStore ∧
     ∀ r : Ref, (getItem parentOnlyStore r).map
          (fun e => e.rel (relField "Children" (GoType.slice (GoType.named "Child"))
            ["ParentID"] ["ID"]).Name) =
        (getItem parentOnlyStore r).map
          (fun e => e.rel (relField "Children" (GoType.slice (GoType.named "Child"))
            ["ParentID"] ["ID"]).Name)) :=
  ⟨⟨rfl, rfl, rfl⟩,
   finalize_leaves_relationship_without_target 0 (buildItemMap parentOnlyStore 0 [])
     _ (relField "Children" (GoType.slice (GoType.named "Child")) ["ParentID"] ["ID"])
     parentOnlyStore parentOnlyStore rfl (by decide) rfl rfl⟩

/-! ## finalize: the lookup -/

theorem lookupGet_lookupAdd (key k : String) (r : Ref) :
    ∀ lookup : Lookup, lookupGet key (lookupAdd k r lookup) =
      if k = key then lookupGet key lookup ++ [r] else lookupGet key lookup := by
  intro lookup
  induction lookup with
  | nil =>
      by_cases h : k = key
      · simp [lookupAdd, lookupGet, assocGet, h]
      · simp [lookupAdd, lookupGet, assocGet, h]
  | cons p rest ih =>
      obtain ⟨a, rs⟩ := p
      unfold lookupGet at ih ⊢
      by_cases hak : a = k
      · subst hak
        by_cases h : a = key
        · simp [lookupAdd, assocGet, h]
        · simp [lookupAdd, assocGet, h]
      · by_cases hakey : a = key
        · subst hakey
          have hka : ¬ k = a := fun h => hak h.symm
          simp [lookupAdd, assocGet, hak, hka]
        · simp only [lookupAdd, hak, if_false, assocGet, hakey]
          exact ih

/-- Every pointer that the first inner loop of `finalize` enters in `lookup`
leads to a struct of the target loader. -/
theorem buildLookup_loader (rel : Relationship) (tl : Nat) :
    ∀ (es : List Entity) (j : Nat) (lookup lookup2 : Lookup),
      (∀ key, ∀ r ∈ lookupGet key lookup, r.loader = tl) →
      buildLookup rel tl es j lookup = Res.ok lookup2 →
      ∀ key, ∀ r ∈ lookupGet key lookup2, r.loader = tl := by
  intro es
  induction es with
  | nil =>
      intro j lookup lookup2 hinv h
      simp only [buildLookup, Res.ok.injEq] at h
      subst h
      exact hinv
  | cons e es ih =>
      intro j lookup lookup2 hinv h
      simp only [buildLookup] at h
      cases hk : targetKey e rel.ForeignFieldNames 0 "" with
      | ok k =>
          simp only [hk] at h
          refine ih _ _ _ ?_ h
          intro key r hr
          rw [lookupGet_lookupAdd] at hr
          by_cases hkk : k = key
          · rw [if_pos hkk] at hr
            rcases List.mem_append.mp hr with h1 | h2
            · exact hinv key r h1
            · rw [List.mem_singleton] at h2
              rw [h2]
          · rw [if_neg hkk] at hr
            exact hinv key r hr
      | err msg => simp [hk] at h
      | crash => simp [hk] at h

/-! ## The select list -/

theorem field_fillItem_at :
    ∀ (sel : List StructField) (cells : List Cell) (e : Entity) (i : Nat) (f : StructField)
      (v : Value),
      (sel.map (fun g => g.Name)).Nodup → (∀ g ∈ sel, (e.field g.Name).isSome) →
      sel[i]? = some f → cells[i]? = some (some v) →
      (fillItem sel cells e).field f.Name = some v := by
  intro sel
  induction sel with
  | nil => intro cells e i f v _ _ hf; simp at hf
  | cons g gs ih =>
      intro cells e i f v hnd hsome hf hcell
      simp only [List.map_cons, List.nodup_cons] at hnd
      rcases cells with _ | ⟨c, cs⟩
      · simp at hcell
      · cases i with
        | zero =>
            simp only [List.getElem?_cons_zero, Option.some.injEq] at hf hcell
            subst hf
            subst hcell
            simp only [fillItem, List.headD_cons, List.tail_cons]
            rw [field_fillItem_of_not_mem g.Name gs cs _ hnd.1]
            exact field_setField_same e g.Name v (hsome g (List.mem_cons_self _ _))
        | succ j =>
            simp only [List.getElem?_cons_succ] at hf hcell
            have hrest : ∀ e2 : Entity, (∀ g2 ∈ gs, (e2.field g2.Name).isSome) →
                (fillItem gs cs e2).field f.Name = some v :=
              fun e2 h2 => ih cs e2 j f v hnd.2 h2 hf hcell
            have hgs : ∀ g2 ∈ gs, (e.field g2.Name).isSome :=
              fun g2 hg2 => hsome g2 (List.mem_cons_of_mem _ hg2)
            cases c with
            | none =>
                simp only [fillItem, List.headD_cons, List.tail_cons]
                exact hrest e hgs
            | some w =>
                simp only [fillItem, List.headD_cons, List.tail_cons]
                exact hrest _ (fun g2 hg2 => field_setField_isSome e g.Name g2.Name w (hgs g2 hg2))

theorem scanRow_ms (m : modelLoader) (cells : List Cell) : (m.scanRow cells).ms = m.ms := by
  unfold modelLoader.scanRow modelLoader.processScan
  dsimp only
  split
  · rfl
  · split <;> rfl

theorem scanRows_ms (rows : List (List Cell)) :
    ∀ m : modelLoader, (m.scanRows rows).ms = m.ms := by
  induction rows with
  | nil => intro m; rfl
  | cons c cs ih =>
      intro m
      exact (ih (m.scanRow c)).trans (scanRow_ms m c)

/-- Claim C20: for the loader of any model (with scanned fields of distinct
names), before and after any rows, and any alias, `getSelectStatement` is
the comma-joined list of the columns `<qualifier>.<column>` of the select
fields, the qualifier being the alias, or the table name when the alias is
empty; there are as many columns as the loader has scan cells; and column
`i` is the column of the select field `f` at position `i`, the field into
which `processScan` copies the value `v` of scan cell `i`. -/
theorem getSelectStatement_lists_one_column_per_cell (ex : Example) (aliasName : String)
    (rows : List (List Cell)) (cells : List Cell) (i : Nat) (f : StructField) (v : Value)
    (hnames : ((ex.ms.StructFields.filter (fun g => g.IsNormal)).map (fun g => g.Name)).Nodup)
    (hf : (newModelLoader ex).selectFields[i]? = some f)
    (hcell : cells[i]? = some (some v)) :
    ((newModelLoader ex).scanRows rows).getSelectStatement aliasName =
      String.intercalate "," (selectColumns (newModelLoader ex) aliasName) ∧
    (selectColumns (newModelLoader ex) aliasName).length = (newModelLoader ex).fields.length ∧
    (selectColumns (newModelLoader ex) aliasName)[i]? =
      some ((if aliasName = "" then ex.ms.TableName else aliasName) ++ "." ++ f.DBName) ∧
    (fillItem (newModelLoader ex).selectFields cells (zeroEntity (newModelLoader ex).ms)).field
      f.Name = some v := by
  refine ⟨?_, ?_, ?_, ?_⟩
  · unfold modelLoader.getSelectStatement selectColumns
    rw [scanRows_ms, scanRows_selectFields]
  · simp [selectColumns, newModelLoader]
  · simp only [selectColumns, List.getElem?_map, hf, Option.map_some']
    rfl
  · exact field_fillItem_at _ cells _ i f v hnames
      (fun g hg => assocGet_map_isSome g _ hg) hf hcell

/-- Witness of claim C20: the model `Child` under the alias `c` and without
alias, and its column at position 1. -/
theorem getSelectStatement_lists_one_column_per_cell_witness :
    (((childModel.ms.StructFields.filter (fun g => g.IsNormal)).map (fun g => g.Name)).Nodup ∧
      (newModelLoader childModel).selectFields[1]? =
        some (scalarField "ParentID" "parent_id" false (GoType.named "uint") (Value.uint 0)) ∧
      [some (Value.uint 2), some (Value.uint 1), some (Value.str "C2")][1]? =
        some (some (Value.uint 1))) ∧
    (newModelLoader childModel).getSelectStatement "c" = "c.id,c.parent_id,c.name" ∧
    (newModelLoader childModel).getSelectStatement "" =
      "children.id,children.parent_id,children.name" ∧
    (selectColumns (newModelLoader childModel) "c")[1]? = some "c.parent_id" ∧
    (((newModelLoader childModel).scanRows []).getSelectStatement "c" =
        String.intercalate "," (selectColumns (newModelLoader childModel) "c") ∧
      (selectColumns (newModelLoader childModel) "c").length =
        (newModelLoader childModel).fields.length ∧
      (selectColumns (newModelLoader childModel) "c")[1]? =
        some ((if "c" = "" then childModel.ms.TableName else "c") ++ "." ++
          (scalarField "ParentID" "parent_id" false (GoType.named "uint")
            (Value.uint 0)).DBName) ∧
      (fillItem (newModelLoader childModel).selectFields
          [some (Value.uint 2), some (Value.uint 1), some (Value.str "C2")]
          (zeroEntity (newModelLoader childModel).ms)).field
        (scalarField "ParentID" "parent_id" false (GoType.named "uint") (Value.uint 0)).Name =
        some (Value.uint 1)) :=
  ⟨⟨by decide, rfl, rfl⟩, by decide, by decide, by decide,
   getSelectStatement_lists_one_column_per_cell childModel "c" []
     [some (Value.uint 2), some (Value.uint 1), some (Value.str "C2")] 1 _ (Value.uint 1)
     (by decide) rfl rfl⟩


/-! ## One row of a query, loader by loader -/

theorem processScan_processScan (m : modelLoader) :
    m.processScan.processScan = m.processScan := by
  unfold modelLoader.processScan
  cases hk : scanKey m.selectFields m.fields "" with
  | none => simp [hk]
  | some key =>
      by_cases hmem : key ∈ m.storedKeys
      · simp [hk, hmem]
      · simp [hk, hmem]

theorem lastSlice_congr (s1 s2 : Store) (li : Nat) (h : SameWidths s1 s2) :
    ∀ (ls : List Nat) (cells : List Cell), lastSlice s1 li ls cells = lastSlice s2 li ls cells := by
  intro ls
  induction ls with
  | nil => intro cells; rfl
  | cons l ls ih =>
      intro cells
      have hl := h l
      cases h1 : s1[l]? with
      | none =>
          cases h2 : s2[l]? with
          | none => simp [lastSlice, h1, h2, ih]
          | some m2 => simp [h1, h2] at hl
      | some m1 =>
          cases h2 : s2[l]? with
          | none => simp [h1, h2] at hl
          | some m2 =>
              simp only [h1, h2, Option.map_some', Option.some.injEq] at hl
              simp [lastSlice, h1, h2, hl, ih]

theorem lastSlice_eq_none_iff (store : Store) (li : Nat) (m : modelLoader)
    (hli : store[li]? = some m) :
    ∀ (ls : List Nat) (cells : List Cell), lastSlice store li ls cells = none ↔ li ∉ ls := by
  intro ls
  induction ls with
  | nil => intro cells; simp [lastSlice]
  | cons l ls ih =>
      intro cells
      cases hl : store[l]? with
      | none =>
          have hne : ¬ li = l := by
            intro h
            rw [h, hl] at hli
            cases hli
          simp [lastSlice, hl, ih, hne]
      | some ml =>
          simp only [lastSlice, hl, List.mem_cons, not_or]
          cases hrec : lastSlice store li ls (cells.drop ml.selectFields.length) with
          | some c =>
              have := (ih (cells.drop ml.selectFields.length)).not.mp (by simp [hrec])
              simp only [not_not] at this
              simp [this]
          | none =>
              have := (ih (cells.drop ml.selectFields.length)).mp hrec
              by_cases hlli : l = li
              · simp [hlli]
              · have hne : ¬ li = l := fun h => hlli h.symm
                simp [hlli, hne, this]

theorem lastSlice_none_of_absent (store : Store) (li : Nat) (hli : store[li]? = none) :
    ∀ (ls : List Nat) (cells : List Cell), lastSlice store li ls cells = none := by
  intro ls
  induction ls with
  | nil => intro cells; rfl
  | cons l ls ih =>
      intro cells
      cases hl : store[l]? with
      | none => simp [lastSlice, hl, ih]
      | some ml =>
          have hne : ¬ l = li := by
            intro h
            rw [h, hli] at hl
            cases hl
          simp [lastSlice, hl, ih, hne]

theorem getElem?_set_loader (store : Store) (l li : Nat) (ml m2 : modelLoader)
    (hl : store[l]? = some ml) :
    (store.set l m2)[li]? = if l = li then some m2 else store[li]? := by
  have hlt : l < store.length := by
    rcases Nat.lt_or_ge l store.length with h | h
    · exact h
    · rw [List.getElem?_eq_none h] at hl
      cases hl
  by_cases h : l = li
  · subst h
    simp [List.getElem?_set_self hlt]
  · simp [List.getElem?_set_ne h, h]

theorem sameWidths_set (store : Store) (l : Nat) (ml m2 : modelLoader)
    (hl : store[l]? = some ml) (hw : m2.selectFields = ml.selectFields) :
    SameWidths (store.set l m2) store := by
  intro j
  rw [getElem?_set_loader store l j ml m2 hl]
  by_cases h : l = j
  · subst h
    simp [hl, hw]
  · simp [h]

theorem scanInto_getElem? (li : Nat) :
    ∀ (ls : List Nat) (cells : List Cell) (store : Store),
      (scanInto ls cells store)[li]? =
        (store[li]?).map (writeCells (lastSlice store li ls cells)) := by
  intro ls
  induction ls with
  | nil =>
      intro cells store
      cases h : store[li]? <;> simp [scanInto, lastSlice, writeCells, h]
  | cons l ls ih =>
      intro cells store
      cases hl : store[l]? with
      | none =>
          simp only [scanInto, hl, lastSlice]
          exact ih cells store
      | some ml =>
          simp only [scanInto, hl, lastSlice]
          rw [ih, lastSlice_congr
            (store.set l { ml with fields := cells.take ml.selectFields.length }) store li
            (sameWidths_set store l ml _ hl rfl), getElem?_set_loader store l li ml _ hl]
          by_cases hlli : l = li
          · subst hlli
            simp only [if_true, hl, Option.map_some']
            cases lastSlice store l ls (cells.drop ml.selectFields.length) <;> rfl
          · simp only [hlli, if_false]
            cases lastSlice store li ls (cells.drop ml.selectFields.length) <;> rfl

theorem processAll_getElem? (li : Nat) :
    ∀ (ls : List Nat) (store : Store),
      (processAll ls store)[li]? =
        (store[li]?).map (fun m => if li ∈ ls then m.processScan else m) := by
  intro ls
  induction ls with
  | nil =>
      intro store
      cases h : store[li]? <;> simp [processAll, h]
  | cons l ls ih =>
      intro store
      cases hl : store[l]? with
      | none =>
          simp only [processAll, hl]
          rw [ih]
          cases hli : store[li]? with
          | none => rfl
          | some m =>
              have hne : ¬ li = l := by
                intro h
                rw [h, hl] at hli
                cases hli
              simp [hne]
      | some ml =>
          simp only [processAll, hl]
          rw [ih, getElem?_set_loader store l li ml _ hl]
          by_cases hlli : l = li
          · subst hlli
            simp only [if_true, hl, Option.map_some', List.mem_cons, true_or]
            by_cases hmem : l ∈ ls
            · simp [hmem, processScan_processScan]
            · simp [hmem]
          · have hne : ¬ li = l := fun h => hlli h.symm
            simp [hlli, hne]

theorem scanRow_eq_scanSlice (li : Nat) (ls : List Nat) (cells : List Cell) (store : Store) :
    (processAll ls (scanInto ls cells store))[li]? =
      (store[li]?).map (scanSlice (lastSlice store li ls cells)) := by
  rw [processAll_getElem?, scanInto_getElem?]
  cases hli : store[li]? with
  | none => rfl
  | some m =>
      simp only [Option.map_some', Option.some.injEq]
      by_cases hmem : li ∈ ls
      · cases hs : lastSlice store li ls cells with
        | none => exact absurd hmem ((lastSlice_eq_none_iff store li m hli ls cells).mp hs)
        | some c => simp [hmem, writeCells, scanSlice, modelLoader.scanRow]
      · have hs := (lastSlice_eq_none_iff store li m hli ls cells).mpr hmem
        simp [hmem, hs, writeCells, scanSlice]

theorem scanSlice_selectFields (c : Option (List Cell)) (m : modelLoader) :
    (scanSlice c m).selectFields = m.selectFields := by
  cases c with
  | none => rfl
  | some cells => exact scanRow_selectFields m cells

theorem sameWidths_scanRow (ls : List Nat) (cells : List Cell) (store : Store) :
    SameWidths (processAll ls (scanInto ls cells store)) store := by
  intro j
  rw [scanRow_eq_scanSlice]
  cases store[j]? with
  | none => rfl
  | some m => simp [scanSlice_selectFields]

theorem rowsFor_congr (s1 s2 : Store) (li : Nat) (ls : List Nat) (h : SameWidths s1 s2) :
    ∀ rows : List ScanRow, rowsFor s1 li ls rows = rowsFor s2 li ls rows := by
  intro rows
  induction rows with
  | nil => rfl
  | cons r rs ih =>
      cases r with
      | error msg => rfl
      | ok cells => simp [rowsFor, lastSlice_congr s1 s2 li h, ih]

theorem scanLoop_getElem? (li : Nat) (ls : List Nat) :
    ∀ (rows : List ScanRow) (store store2 : Store),
      scanLoop ls rows store = Res.ok store2 →
      store2[li]? = (store[li]?).map (fun m => m.scanRows (rowsFor store li ls rows)) := by
  intro rows
  induction rows with
  | nil =>
      intro store store2 h
      simp only [scanLoop, Res.ok.injEq] at h
      subst h
      cases store[li]? <;> simp [rowsFor, modelLoader.scanRows]
  | cons r rs ih =>
      intro store store2 h
      cases r with
      | error msg => simp [scanLoop] at h
      | ok cells =>
          simp only [scanLoop] at h
          by_cases hlen : cells.length = scanCount store ls
          · simp only [hlen, if_true] at h
            rw [ih _ _ h, scanRow_eq_scanSlice,
              rowsFor_congr _ store li ls (sameWidths_scanRow ls cells store)]
            cases store[li]? with
            | none => rfl
            | some m =>
                simp only [Option.map_some', Option.some.injEq, rowsFor]
                cases lastSlice store li ls cells with
                | none => rfl
                | some c => rfl
          · simp [hlen] at h


/-! ## The shared loaders of a MultiQuery -/

theorem scanRow_itemType (m : modelLoader) (cells : List Cell) :
    (m.scanRow cells).itemType = m.itemType := by
  unfold modelLoader.scanRow modelLoader.processScan
  dsimp only
  split
  · rfl
  · split <;> rfl

theorem scanRows_itemType (rows : List (List Cell)) :
    ∀ m : modelLoader, (m.scanRows rows).itemType = m.itemType := by
  induction rows with
  | nil => intro m; rfl
  | cons c cs ih =>
      intro m
      exact (ih (m.scanRow c)).trans (scanRow_itemType m c)

theorem freshLoader_scanRows (m : modelLoader) (rows : List (List Cell)) :
    freshLoader (m.scanRows rows) = freshLoader m := by
  unfold freshLoader
  rw [scanRows_itemType, scanRows_ms]

theorem scanRows_append (m : modelLoader) (r1 r2 : List (List Cell)) :
    (m.scanRows r1).scanRows r2 = m.scanRows (r1 ++ r2) := by
  unfold modelLoader.scanRows
  rw [List.foldl_append]

theorem freshLoader_newModelLoader (ex : Example) :
    (freshLoader (newModelLoader ex)).scanRows [] = newModelLoader ex := rfl

theorem registerModels_store :
    ∀ (models : List modelConfiguration) (st : Store × ItemMap),
      ∃ news : List modelLoader, (registerModels models st).1 = st.1 ++ news ∧
        ∀ l ∈ news, ∃ ex, l = newModelLoader ex := by
  intro models
  induction models with
  | nil => intro st; exact ⟨[], by simp [registerModels], by simp⟩
  | cons model models ih =>
      intro st
      obtain ⟨loaders, loaderMap⟩ := st
      simp only [registerModels]
      cases itemMapGet (baseType model.exampleVal.typ) loaderMap with
      | some v => exact ih (loaders, loaderMap)
      | none =>
          obtain ⟨news, h1, h2⟩ := ih (loaders ++ [newModelLoader model.exampleVal],
            itemMapSet (baseType model.exampleVal.typ) loaders.length loaderMap)
          refine ⟨newModelLoader model.exampleVal :: news, ?_, ?_⟩
          · simpa [List.append_assoc] using h1
          · intro l hl
            rcases List.mem_cons.mp hl with h | h
            · exact ⟨_, h⟩
            · exact h2 l h

theorem accumulated_append (store news : Store) (acc : Nat → List (List Cell))
    (hacc : Accumulated store acc) (hnews : ∀ l ∈ news, ∃ ex, l = newModelLoader ex) :
    Accumulated (store ++ news) acc := by
  intro li
  have h := hacc li
  by_cases hlt : li < store.length
  · rw [List.getElem?_append_left hlt]
    exact h
  · have hge : store.length ≤ li := Nat.le_of_not_lt hlt
    rw [List.getElem?_eq_none hge] at h
    rw [List.getElem?_append_right hge]
    cases hl : news[li - store.length]? with
    | none => exact h
    | some l =>
        obtain ⟨ex, hex⟩ := hnews l (List.mem_iff_getElem?.mpr ⟨_, hl⟩)
        show l = (freshLoader l).scanRows (acc li)
        rw [show acc li = [] from h, hex]
        rfl

theorem accumulated_scanLoop (ls : List Nat) (rows : List ScanRow) (store store2 : Store)
    (acc : Nat → List (List Cell)) (hacc : Accumulated store acc)
    (h : scanLoop ls rows store = Res.ok store2) :
    Accumulated store2 (fun li => acc li ++ rowsFor store li ls rows) := by
  intro li
  have hli := hacc li
  rw [scanLoop_getElem? li ls rows store store2 h]
  cases hs : store[li]? with
  | none =>
      rw [hs] at hli
      have hnone : rowsFor store li ls rows = [] := by
        have hslice := lastSlice_none_of_absent store li hs ls
        clear h
        induction rows with
        | nil => rfl
        | cons r rs ih =>
            cases r with
            | error msg => rfl
            | ok cells => simp [rowsFor, hslice, ih]
      simp [show acc li = [] from hli, hnone]
  | some l =>
      rw [hs] at hli
      show l.scanRows (rowsFor store li ls rows) =
        (freshLoader (l.scanRows (rowsFor store li ls rows))).scanRows
          (acc li ++ rowsFor store li ls rows)
      rw [freshLoader_scanRows, ← scanRows_append, ← show l = (freshLoader l).scanRows (acc li) from hli]

theorem runQueries_accumulated :
    ∀ (qs : List Query) (st : Store × ItemMap) (acc : Nat → List (List Cell))
      (before executed : List String) (loaders : Store),
      Accumulated st.1 acc →
      runQueries qs st before = (executed, Res.ok loaders) →
      Accumulated loaders (fun li => acc li ++ (deliveredLists li qs st).flatten) := by
  intro qs
  induction qs with
  | nil =>
      intro st acc before executed loaders hacc h
      obtain ⟨store, loaderMap⟩ := st
      simp only [runQueries, Prod.mk.injEq, Res.ok.injEq] at h
      rw [← h.2]
      simpa [deliveredLists] using hacc
  | cons q qs ih =>
      intro st acc before executed loaders hacc h
      obtain ⟨news, hstore, hnews⟩ := registerModels_store q.models st
      have hacc2 : Accumulated (registerModels q.models st).1 acc := by
        rw [hstore]
        exact accumulated_append st.1 news acc hacc hnews
      simp only [runQueries, Query.runQuery] at h
      cases hdb : q.db (q.statement (registerModels q.models st).1
          (sharedLoaders (registerModels q.models st).1 (registerModels q.models st).2
            q.models).1
          (sharedLoaders (registerModels q.models st).1 (registerModels q.models st).2
            q.models).2) q.args with
      | error msg => simp [hdb] at h
      | ok rows =>
          simp only [hdb] at h
          cases hscan : scanLoop
              (sharedLoaders (registerModels q.models st).1 (registerModels q.models st).2
                q.models).1 rows (registerModels q.models st).1 with
          | err msg => simp [hscan] at h
          | crash => simp [hscan] at h
          | ok loaders1 =>
              simp only [hscan] at h
              simp only [deliveredLists, hdb, hscan]
              have hacc3 := accumulated_scanLoop _ rows _ loaders1 acc hacc2 hscan
              have := ih (loaders1, (registerModels q.models st).2) _ _ executed loaders
                hacc3 h
              intro li
              have hli := this li
              simpa [List.append_assoc] using hli


theorem foldl_scanRows_flatten :
    ∀ (lists : List (List (List Cell))) (m : modelLoader),
      lists.foldl modelLoader.scanRows m = m.scanRows lists.flatten := by
  intro lists
  induction lists with
  | nil => intro m; rfl
  | cons r rs ih =>
      intro m
      rw [List.foldl_cons, ih, scanRows_append, List.flatten_cons]

theorem runQueries_loader (m : MultiQuery) (loaders : Store) (li : Nat) (l : modelLoader)
    (hrun : (runQueries m ([], []) []).2 = Res.ok loaders) (hl : loaders[li]? = some l) :
    l = (freshLoader l).scanRows (deliveredLists li m ([], [])).flatten := by
  have hpair : runQueries m ([], []) [] = ((runQueries m ([], []) []).1, Res.ok loaders) := by
    rw [← hrun]
  have hacc := runQueries_accumulated m ([], []) (fun _ => []) [] _ loaders
    (by intro j; simp) hpair li
  rw [hl] at hacc
  simpa using hacc

/-- Claim C16: after the queries of a `MultiQuery` have run, the shared
loader at any position is the loader that a fresh loader of its model
becomes by scanning the single row list `R1 ++ ... ++ Rn`, where `Ri` is
the list of rows that query `i` delivers to it; so its item list is the
item list of that fresh loader, and feeding the fresh loader the lists one
after the other gives the same. -/
theorem MultiQuery_loader_holds_merged_rows (m : MultiQuery) (loaders : Store) (li : Nat)
    (l : modelLoader)
    (hrun : (runQueries m ([], []) []).2 = Res.ok loaders) (hl : loaders[li]? = some l) :
    l = (freshLoader l).scanRows (deliveredLists li m ([], [])).flatten ∧
    l.items = ((freshLoader l).scanRows (deliveredLists li m ([], [])).flatten).items ∧
    (deliveredLists li m ([], [])).foldl modelLoader.scanRows (freshLoader l) =
      (freshLoader l).scanRows (deliveredLists li m ([], [])).flatten := by
  have h := runQueries_loader m loaders li l hrun hl
  exact ⟨h, congrArg (fun x => x.items) h, foldl_scanRows_flatten _ _⟩

/-- Witness of claim C16: two queries over `Parent`, the first returns
parent 1, the second parent 2 and parent 1 again: the shared loader holds
parent 1, parent 2. -/
theorem MultiQuery_loader_holds_merged_rows_witness :
    ((runQueries [parentsFirst, parentsSecond] ([], []) []).2 =
        Res.ok [(newModelLoader parentModel).scanRows
          [[some (Value.uint 1), some (Value.str "P1")],
           [some (Value.uint 2), some (Value.str "P2")],
           [some (Value.uint 1), some (Value.str "P1")]]] ∧
      deliveredLists 0 [parentsFirst, parentsSecond] ([], []) =
        [[[some (Value.uint 1), some (Value.str "P1")]],
         [[some (Value.uint 2), some (Value.str "P2")],
          [some (Value.uint 1), some (Value.str "P1")]]] ∧
      ((newModelLoader parentModel).scanRows
          [[some (Value.uint 1), some (Value.str "P1")],
           [some (Value.uint 2), some (Value.str "P2")],
           [some (Value.uint 1), some (Value.str "P1")]]).items =
        [Entity.mk [("ID", Value.uint 1), ("Name", Value.str "P1")]
           [("Children", Slot.vals [])],
         Entity.mk [("ID", Value.uint 2), ("Name", Value.str "P2")]
           [("Children", Slot.vals [])]]) ∧
    ((newModelLoader parentModel).scanRows
          [[some (Value.uint 1), some (Value.str "P1")],
           [some (Value.uint 2), some (Value.str "P2")],
           [some (Value.uint 1), some (Value.str "P1")]]).items =
      ((freshLoader ((newModelLoader parentModel).scanRows
          [[some (Value.uint 1), some (Value.str "P1")],
           [some (Value.uint 2), some (Value.str "P2")],
           [some (Value.uint 1), some (Value.str "P1")]])).scanRows
        (deliveredLists 0 [parentsFirst, parentsSecond] ([], [])).flatten).items :=
  ⟨⟨rfl, rfl, rfl⟩,
   (MultiQuery_loader_holds_merged_rows [parentsFirst, parentsSecond] _ 0 _ rfl rfl).2.1⟩

/-! ## A model without primary key -/

theorem scanKey_without_key :
    ∀ (sel : List StructField) (cells : List Cell) (sb : String),
      (∀ f ∈ sel, f.IsPrimaryKey = false) → scanKey sel cells sb = some sb := by
  intro sel
  induction sel with
  | nil => intro cells sb _; rfl
  | cons f fs ih =>
      intro cells sb h
      have hf := h f (List.mem_cons_self _ _)
      simp only [scanKey, hf, Bool.false_eq_true, if_false]
      exact ih _ _ (fun g hg => h g (List.mem_cons_of_mem _ hg))

theorem scanRows_of_stored (key : String) :
    ∀ (rows : List (List Cell)) (m : modelLoader),
      (∀ cells, scanKey m.selectFields cells "" = some key) → key ∈ m.storedKeys →
      (m.scanRows rows).items = m.items := by
  intro rows
  induction rows with
  | nil => intro m _ _; rfl
  | cons r rs ih =>
      intro m hkey hmem
      have hstep : m.scanRow r = { m with fields := r } := by
        unfold modelLoader.scanRow modelLoader.processScan
        have := hkey r
        simp only [this, hmem, if_true]
      show ((m.scanRow r).scanRows rs).items = m.items
      rw [hstep]
      exact ih { m with fields := r } hkey hmem

/-- Claim C25: for a model none of whose scanned fields is a primary key,
the identity key of every row is the empty string; the first scanned row,
whatever its cells (all null also), gives a struct, every later row is
discarded whatever it holds, and the loader never holds more than one
struct. -/
theorem processScan_without_key_keeps_first_row (ex : Example) (r : List Cell)
    (rows : List (List Cell)) (cells : List Cell)
    (hnokey : ∀ f ∈ ex.ms.StructFields, f.IsNormal = true → f.IsPrimaryKey = false) :
    scanKey (newModelLoader ex).selectFields cells "" = some "" ∧
    ((newModelLoader ex).scanRows (r :: rows)).items =
      [fillItem (newModelLoader ex).selectFields r (zeroEntity ex.ms)] ∧
    ((newModelLoader ex).scanRows rows).items.length ≤ 1 := by
  have hsel : ∀ f ∈ (newModelLoader ex).selectFields, f.IsPrimaryKey = false := by
    intro f hf
    simp only [newModelLoader, List.mem_filter] at hf
    exact hnokey f hf.1 hf.2
  have hkey : ∀ c, scanKey (newModelLoader ex).selectFields c "" = some "" :=
    fun c => scanKey_without_key _ c "" hsel
  have hfirst : ∀ (x : List Cell) (xs : List (List Cell)),
      ((newModelLoader ex).scanRows (x :: xs)).items =
        [fillItem (newModelLoader ex).selectFields x (zeroEntity ex.ms)] := by
    intro x xs
    have hstep : (newModelLoader ex).scanRow x =
        { newModelLoader ex with
          fields := x
          items := [fillItem (newModelLoader ex).selectFields x (zeroEntity ex.ms)]
          storedKeys := [""] } := by
      unfold modelLoader.scanRow modelLoader.processScan
      have := hkey x
      simp only [this]
      simp [newModelLoader]
    show (((newModelLoader ex).scanRow x).scanRows xs).items = _
    rw [hstep]
    exact scanRows_of_stored "" xs _ hkey (by simp)
  refine ⟨hkey cells, hfirst r rows, ?_⟩
  cases rows with
  | nil => simp [modelLoader.scanRows, newModelLoader]
  | cons x xs => rw [hfirst x xs]; simp

/-- Witness of claim C25: the model `Note` without key; a first row whose
only cell is null, then two rows with text. -/
theorem processScan_without_key_keeps_first_row_witness :
    (∀ f ∈ noteModel.ms.StructFields, f.IsNormal = true → f.IsPrimaryKey = false) ∧
    ((newModelLoader noteModel).scanRows
        ([none] :: [[some (Value.str "a")], [some (Value.str "b")]])).items =
      [Entity.mk [("Text", Value.str "")] []] ∧
    (scanKey (newModelLoader noteModel).selectFields [some (Value.str "b")] "" = some "" ∧
      ((newModelLoader noteModel).scanRows
          ([none] :: [[some (Value.str "a")], [some (Value.str "b")]])).items =
        [fillItem (newModelLoader noteModel).selectFields [none] (zeroEntity noteModel.ms)] ∧
      ((newModelLoader noteModel).scanRows
          [[some (Value.str "a")], [some (Value.str "b")]]).items.length ≤ 1) :=
  ⟨by decide, rfl,
   processScan_without_key_keeps_first_row noteModel [none]
     [[some (Value.str "a")], [some (Value.str "b")]] [some (Value.str "b")] (by decide)⟩

/-! ## Null keys in finalize -/

/-- Claim C26, evaluated. A shelf whose key `AuthorID` is NULL is linked to
the books 1 and 3, whose key is NULL, and not to book 2 with author 5: null
keys are written `<nil>` on both sides. But the post whose key `Code` is the
nil pointer is linked to `Tag{2, "<nil>"}`, whose code is a string, not
null: it is written `<nil>` as well. -/
theorem finalize_links_null_key_to_string_nil :
    (getItem postStore ⟨0, 0⟩).map (fun e => e.field "Code") = some (some Value.nil) ∧
    (getItem postStore ⟨1, 1⟩).map (fun e => e.field "Code") =
      some (some (Value.str "<nil>")) ∧
    (getItem postStore ⟨0, 0⟩).map (fun e => ownerKey e ["Code"] 0 "") =
      some (Res.ok "[0:<nil>]") ∧
    (getItem postStore ⟨1, 1⟩).map (fun e => targetKey e ["Code"] 0 "") =
      some (Res.ok "[0:<nil>]") ∧
    (match finalize 0 (buildItemMap postStore 0 []) postStore with
     | Res.ok store => (getItem store ⟨0, 0⟩).bind (fun e => e.rel "Tags")
     | _ => none) = some (Slot.ptrs [⟨1, 1⟩]) ∧
    (match finalize 0 (buildItemMap shelfStore 0 []) shelfStore with
     | Res.ok store => (getItem store ⟨0, 0⟩).bind (fun e => e.rel "Books")
     | _ => none) = some (Slot.ptrs [⟨1, 0⟩, ⟨1, 2⟩]) :=
  ⟨rfl, rfl, rfl, rfl, rfl, rfl⟩

/-! ## Two loaders of one base type -/

theorem itemMapGet_buildItemMap_isSome (u : GoType) :
    ∀ (ls : List modelLoader) (i0 : Nat) (im : ItemMap) (v : Nat),
      itemMapGet u im = some v → ∃ k, itemMapGet u (buildItemMap ls i0 im) = some k := by
  intro ls
  induction ls with
  | nil => intro i0 im v h; exact ⟨v, h⟩
  | cons l ls ih =>
      intro i0 im v h
      simp only [buildItemMap]
      by_cases hl : baseType l.itemType = u
      · exact ih (i0 + 1) _ i0 (by rw [itemMapGet_itemMapSet, if_pos hl])
      · exact ih (i0 + 1) _ v (by rw [itemMapGet_itemMapSet, if_neg hl]; exact h)

theorem itemMapGet_buildItemMap_of_mem (u : GoType) :
    ∀ (ls : List modelLoader) (i0 : Nat) (im : ItemMap),
      (∃ l ∈ ls, baseType l.itemType = u) →
      ∃ k, itemMapGet u (buildItemMap ls i0 im) = some k := by
  intro ls
  induction ls with
  | nil => intro i0 im h; obtain ⟨l, hl, _⟩ := h; cases hl
  | cons l ls ih =>
      intro i0 im h
      simp only [buildItemMap]
      by_cases hl : baseType l.itemType = u
      · exact itemMapGet_buildItemMap_isSome u ls (i0 + 1) _ i0
          (by rw [itemMapGet_itemMapSet, if_pos hl])
      · obtain ⟨l2, hmem, hty⟩ := h
        rcases List.mem_cons.mp hmem with heq | htail
        · subst heq; exact absurd hty hl
        · exact ih (i0 + 1) _ ⟨l2, htail, hty⟩

theorem itemMapGet_buildItemMap_some (u : GoType) :
    ∀ (ls : List modelLoader) (i0 : Nat) (im : ItemMap) (k : Nat),
      itemMapGet u (buildItemMap ls i0 im) = some k →
      (itemMapGet u im = some k ∧ ∀ l ∈ ls, baseType l.itemType ≠ u) ∨
      (∃ p, k = i0 + p ∧ (ls[p]?).map (fun l => baseType l.itemType) = some u ∧
        ∀ p2, p < p2 → (ls[p2]?).map (fun l => baseType l.itemType) ≠ some u) := by
  intro ls
  induction ls with
  | nil => intro i0 im k h; exact Or.inl ⟨h, fun _ hl => by cases hl⟩
  | cons l ls ih =>
      intro i0 im k h
      simp only [buildItemMap] at h
      rcases ih (i0 + 1) _ k h with ⟨hget, hnone⟩ | ⟨p, hk, hp, hlast⟩
      · rw [itemMapGet_itemMapSet] at hget
        by_cases hl : baseType l.itemType = u
        · rw [if_pos hl] at hget
          refine Or.inr ⟨0, by simpa using (Option.some.inj hget).symm, by simp [hl], ?_⟩
          intro p2 hp2 hcontra
          obtain ⟨q, rfl⟩ : ∃ q, p2 = q + 1 := ⟨p2 - 1, by omega⟩
          simp only [List.getElem?_cons_succ] at hcontra
          cases hq : ls[q]? with
          | none => simp [hq] at hcontra
          | some l2 =>
              simp only [hq, Option.map_some', Option.some.injEq] at hcontra
              exact hnone l2 (List.mem_iff_getElem?.mpr ⟨q, hq⟩) hcontra
        · rw [if_neg hl] at hget
          refine Or.inl ⟨hget, ?_⟩
          intro l2 hmem
          rcases List.mem_cons.mp hmem with heq | htail
          · subst heq; exact hl
          · exact hnone l2 htail
      · refine Or.inr ⟨p + 1, by omega, by simpa using hp, ?_⟩
        intro p2 hp2
        obtain ⟨q, rfl⟩ : ∃ q, p2 = q + 1 := ⟨p2 - 1, by omega⟩
        simpa using hlast q (by omega)

/-- The entry of the item map for a type that some loader has is the
position of the last loader of that type. -/
theorem buildItemMap_last (loaders : Store) (j : Nat) (t : GoType)
    (hj : (loaders[j]?).map (fun l => baseType l.itemType) = some t) :
    ∃ k, j ≤ k ∧ itemMapGet t (buildItemMap loaders 0 []) = some k ∧
      (loaders[k]?).map (fun l => baseType l.itemType) = some t ∧
      ∀ k2, k < k2 → (loaders[k2]?).map (fun l => baseType l.itemType) ≠ some t := by
  cases hlj : loaders[j]? with
  | none => simp [hlj] at hj
  | some lj =>
      simp only [hlj, Option.map_some', Option.some.injEq] at hj
      obtain ⟨k, hk⟩ := itemMapGet_buildItemMap_of_mem t loaders 0 []
        ⟨lj, List.mem_iff_getElem?.mpr ⟨j, hlj⟩, hj⟩
      rcases itemMapGet_buildItemMap_some t loaders 0 [] k hk with ⟨hget, _⟩ | ⟨p, hp, hty, hlast⟩
      · simp [itemMapGet] at hget
      · have hkp : k = p := by omega
        subst hkp
        refine ⟨k, ?_, hk, hty, hlast⟩
        by_contra hlt
        exact hlast j (by omega) (by simp [hlj, hj])

/-- No entry of the item map leads to a loader that has a later loader of
its type. -/
theorem buildItemMap_not_earlier (loaders : Store) (i j : Nat) (t : GoType)
    (hi : (loaders[i]?).map (fun l => baseType l.itemType) = some t)
    (hj : (loaders[j]?).map (fun l => baseType l.itemType) = some t) (hij : i < j) (u : GoType) :
    itemMapGet u (buildItemMap loaders 0 []) ≠ some i := by
  intro h
  rcases itemMapGet_buildItemMap_some u loaders 0 [] i h with ⟨hget, _⟩ | ⟨p, hp, hty, hlast⟩
  · simp [itemMapGet] at hget
  · have hip : i = p := by omega
    subst hip
    have hut : u = t := by
      rw [hty] at hi
      exact Option.some.inj hi
    subst hut
    exact hlast j hij hj

theorem mem_assocSet {α : Type} (n : String) (v : α) :
    ∀ (l : List (String × α)) (ns : String × α), ns ∈ assocSet n v l → ns ∈ l ∨ ns.2 = v := by
  intro l
  induction l with
  | nil => intro ns h; simp [assocSet] at h
  | cons kv rest ih =>
      intro ns h
      obtain ⟨k, w⟩ := kv
      simp only [assocSet] at h
      split at h
      · rcases List.mem_cons.mp h with heq | hrest
        · exact Or.inr (by rw [heq])
        · exact Or.inl (List.mem_cons_of_mem _ hrest)
      · rcases List.mem_cons.mp h with heq | hrest
        · exact Or.inl (by rw [heq]; exact List.mem_cons_self _ _)
        · rcases ih ns hrest with h1 | h2
          · exact Or.inl (List.mem_cons_of_mem _ h1)
          · exact Or.inr h2

theorem assocGet_mem {α : Type} (n : String) :
    ∀ (l : List (String × α)) (v : α), assocGet n l = some v → ∃ ns ∈ l, ns.2 = v := by
  intro l
  induction l with
  | nil => intro v h; simp [assocGet] at h
  | cons kv rest ih =>
      intro v h
      obtain ⟨k, w⟩ := kv
      simp only [assocGet] at h
      split at h
      · exact ⟨(k, w), List.mem_cons_self _ _, Option.some.inj h⟩
      · obtain ⟨ns, hmem, hv⟩ := ih v h
        exact ⟨ns, List.mem_cons_of_mem _ hmem, hv⟩

theorem getItem_mem (store : Store) (r : Ref) (e : Entity) (h : getItem store r = some e) :
    ∃ m ∈ store, e ∈ m.items := by
  unfold getItem at h
  cases hl : store[r.loader]? with
  | none => simp [hl] at h
  | some m =>
      simp only [hl] at h
      exact ⟨m, List.mem_iff_getElem?.mpr ⟨_, hl⟩, List.mem_iff_getElem?.mpr ⟨_, h⟩⟩

theorem linkOne_refs (t : GoType) (slot : Slot) (r : Ref) (target : Entity) (slot2 : Slot)
    (h : linkOne t slot r target = some slot2) :
    ∀ x ∈ slot2.refs, x ∈ slot.refs ∨ x = r := by
  intro x hx
  unfold linkOne at h
  split at h <;> split at h <;> split at h <;> cases h <;>
    first
    | (simp [Slot.refs] at hx; done)
    | exact Or.inr (by simpa [Slot.refs] using hx)
    | simpa [Slot.refs] using hx

theorem noPointerInto_setItem (i : Nat) (store : Store) (r : Ref) (e : Entity)
    (h : NoPointerInto i store)
    (he : ∀ ns ∈ e.rels, ∀ x ∈ ns.2.refs, x.loader ≠ i) :
    NoPointerInto i (setItem store r e) := by
  unfold setItem
  cases hl : store[r.loader]? with
  | none => exact h
  | some m =>
      intro m2 hm2 e2 he2
      rcases List.mem_or_eq_of_mem_set hm2 with hmem | heq
      · exact h m2 hmem e2 he2
      · subst heq
        rcases List.mem_or_eq_of_mem_set he2 with hmem | heq
        · exact h m (List.mem_iff_getElem?.mpr ⟨_, hl⟩) e2 hmem
        · subst heq
          exact he

theorem linkAll_noPointerInto (i : Nat) (f : StructField) (owner : Ref) :
    ∀ (refs : List Ref) (store store2 : Store),
      NoPointerInto i store → (∀ r ∈ refs, r.loader ≠ i) →
      linkAll f owner refs store = Res.ok store2 → NoPointerInto i store2 := by
  intro refs
  induction refs with
  | nil =>
      intro store store2 hinv _ h
      simp only [linkAll, Res.ok.injEq] at h
      subst h
      exact hinv
  | cons r rs ih =>
      intro store store2 hinv hrefs h
      simp only [linkAll] at h
      cases hitem : getItem store owner with
      | none => simp [hitem] at h
      | some item =>
          cases htarget : getItem store r with
          | none => simp [hitem, htarget] at h
          | some target =>
              simp only [hitem, htarget] at h
              cases hslot : item.rel f.Name with
              | none => simp [hslot] at h
              | some slot =>
                  simp only [hslot] at h
                  cases hlink : linkOne f.typ slot r target with
                  | none => simp [hlink] at h
                  | some slot2 =>
                      simp only [hlink] at h
                      have hstep : NoPointerInto i
                          (setItem store owner (item.setRel f.Name slot2)) := by
                        apply noPointerInto_setItem i store owner _ hinv
                        intro ns hns x hx
                        obtain ⟨m, hm, hmem⟩ := getItem_mem store owner item hitem
                        rcases mem_assocSet f.Name slot2 item.rels ns hns with hold | hnew
                        · exact hinv m hm item hmem ns hold x hx
                        · rw [hnew] at hx
                          rcases linkOne_refs f.typ slot r target slot2 hlink x hx with h1 | h2
                          · obtain ⟨ns2, hns2, hv⟩ := assocGet_mem f.Name item.rels slot hslot
                            exact hinv m hm item hmem ns2 hns2 x (by rw [hv]; exact h1)
                          · rw [h2]
                            exact hrefs r (List.mem_cons_self _ _)
                      by_cases hs : f.typ.isSlice = true
                      · simp only [hs, if_true] at h
                        exact ih _ _ hstep (fun r2 hr2 => hrefs r2 (List.mem_cons_of_mem _ hr2)) h
                      · simp only [hs, Bool.false_eq_true, if_false, Res.ok.injEq] at h
                        subst h
                        exact hstep

theorem fillItems_noPointerInto (i : Nat) (f : StructField) (rel : Relationship) (li : Nat)
    (lookup : Lookup) (hlookup : ∀ key, ∀ r ∈ lookupGet key lookup, r.loader ≠ i) :
    ∀ (ks : List Nat) (store store2 : Store),
      NoPointerInto i store →
      fillItems f rel li lookup ks store = Res.ok store2 → NoPointerInto i store2 := by
  intro ks
  induction ks with
  | nil =>
      intro store store2 hinv h
      simp only [fillItems, Res.ok.injEq] at h
      subst h
      exact hinv
  | cons k ks ih =>
      intro store store2 hinv h
      simp only [fillItems] at h
      cases hitem : getItem store ⟨li, k⟩ with
      | none => simp [hitem] at h
      | some item =>
          simp only [hitem] at h
          cases hkey : ownerKey item rel.AssociationForeignFieldNames 0 "" with
          | ok key =>
              simp only [hkey] at h
              cases hlink : linkAll f ⟨li, k⟩ (lookupGet key lookup) store with
              | ok store3 =>
                  simp only [hlink] at h
                  exact ih _ _
                    (linkAll_noPointerInto i f _ _ _ _ hinv (hlookup key) hlink) h
              | err msg => simp [hlink] at h
              | crash => simp [hlink] at h
          | err msg => simp [hkey] at h
          | crash => simp [hkey] at h

theorem finalizeRel_noPointerInto (i li : Nat) (itemMap : ItemMap) (f : StructField)
    (store store2 : Store) (hmap : ∀ u, itemMapGet u itemMap ≠ some i)
    (hinv : NoPointerInto i store) (h : finalizeRel li itemMap f store = Res.ok store2) :
    NoPointerInto i store2 := by
  unfold finalizeRel at h
  cases hget : itemMapGet (baseType f.typ) itemMap with
  | none =>
      simp only [hget, Res.ok.injEq] at h
      subst h
      exact hinv
  | some tl =>
      have htl : tl ≠ i := fun heq => hmap (baseType f.typ) (by rw [hget, heq])
      simp only [hget] at h
      split at h
      · rename_i rel target m _ _ _
        cases hb : buildLookup rel tl target.items 0 [] with
        | ok lookup =>
            simp only [hb] at h
            refine fillItems_noPointerInto i f rel li lookup ?_ _ _ _ hinv h
            intro key r hr
            rw [buildLookup_loader rel tl _ _ _ _
              (fun key2 r2 hr2 => by simp [lookupGet, assocGet] at hr2) hb key r hr]
            exact htl
        | err msg => simp [hb] at h
        | crash => simp [hb] at h
      · cases h

theorem finalizeAll_noPointerInto (i : Nat) (itemMap : ItemMap)
    (hmap : ∀ u, itemMapGet u itemMap ≠ some i) :
    ∀ (lis : List Nat) (store store2 : Store),
      NoPointerInto i store → finalizeAll itemMap lis store = Res.ok store2 →
      NoPointerInto i store2 := by
  have hrels : ∀ (li : Nat) (fs : List StructField) (store store2 : Store),
      NoPointerInto i store → finalizeRels li itemMap fs store = Res.ok store2 →
      NoPointerInto i store2 := by
    intro li fs
    induction fs with
    | nil =>
        intro store store2 hinv h
        simp only [finalizeRels, Res.ok.injEq] at h
        subst h
        exact hinv
    | cons g gs ih =>
        intro store store2 hinv h
        simp only [finalizeRels] at h
        cases hg : finalizeRel li itemMap g store with
        | ok store3 =>
            simp only [hg] at h
            exact ih _ _ (finalizeRel_noPointerInto i li itemMap g _ _ hmap hinv hg) h
        | err msg => simp [hg] at h
        | crash => simp [hg] at h
  intro lis
  induction lis with
  | nil =>
      intro store store2 hinv h
      simp only [finalizeAll, Res.ok.injEq] at h
      subst h
      exact hinv
  | cons li lis ih =>
      intro store store2 hinv h
      simp only [finalizeAll] at h
      cases hf : finalize li itemMap store with
      | ok store3 =>
          simp only [hf] at h
          refine ih _ _ ?_ h
          unfold finalize at hf
          cases hl : store[li]? with
          | none => simp [hl] at hf
          | some m =>
              simp only [hl] at hf
              exact hrels li _ _ _ hinv hf
      | err msg => simp [hf] at h
      | crash => simp [hf] at h

theorem rels_fillItem :
    ∀ (fs : List StructField) (cells : List Cell) (e : Entity),
      (fillItem fs cells e).rels = e.rels := by
  intro fs
  induction fs with
  | nil => intro cells e; rfl
  | cons f fs ih =>
      intro cells e
      simp only [fillItem]
      split
      · exact ih _ _
      · rw [ih]
        cases e
        rfl

theorem zeroSlot_refs (t : GoType) : (zeroSlot t).refs = [] := by
  unfold zeroSlot
  split <;> rfl

theorem zeroEntity_refs (ms : ModelStruct) :
    ∀ ns ∈ (zeroEntity ms).rels, ∀ x ∈ ns.2.refs, False := by
  intro ns hns x hx
  simp only [zeroEntity, Entity.rels, List.mem_map] at hns
  obtain ⟨f, _, rfl⟩ := hns
  rw [zeroSlot_refs] at hx
  cases hx

theorem scanRows_items_refs (rows : List (List Cell)) :
    ∀ m : modelLoader,
      (∀ e ∈ m.items, ∀ ns ∈ e.rels, ∀ x ∈ ns.2.refs, False) →
      ∀ e ∈ (m.scanRows rows).items, ∀ ns ∈ e.rels, ∀ x ∈ ns.2.refs, False := by
  induction rows with
  | nil => intro m h; exact h
  | cons c cs ih =>
      intro m h
      refine ih (m.scanRow c) ?_
      unfold modelLoader.scanRow modelLoader.processScan
      dsimp only
      split
      · exact h
      · split
        · exact h
        · intro e he
          rcases List.mem_append.mp he with hold | hnew
          · exact h e hold
          · rw [List.mem_singleton] at hnew
            subst hnew
            rw [rels_fillItem]
            exact zeroEntity_refs m.ms

/-- What a successful `runQuery` over new loaders leaves: position by
position, the new loader of the model after some rows. -/
theorem runQuery_new_loaders (q : Query) (ls : List Nat) (loaders : Store)
    (hrun : (q.runQuery (newModelLoaders q.models).1 ls (newModelLoaders q.models).2).2 =
      Res.ok loaders) (k : Nat) :
    ∃ rows, loaders[k]? =
      (q.models[k]?).map (fun c => (newModelLoader c.exampleVal).scanRows rows) := by
  unfold Query.runQuery at hrun
  dsimp only at hrun
  split at hrun
  · cases hrun
  · rename_i rows _
    refine ⟨rowsFor (newModelLoaders q.models).1 k ls rows, ?_⟩
    rw [scanLoop_getElem? k ls rows _ _ hrun]
    simp only [newModelLoaders, List.getElem?_map, Option.map_map]
    rfl

theorem runQuery_new_loaders_type (q : Query) (ls : List Nat) (loaders : Store)
    (hrun : (q.runQuery (newModelLoaders q.models).1 ls (newModelLoaders q.models).2).2 =
      Res.ok loaders) (k : Nat) :
    (loaders[k]?).map (fun l => baseType l.itemType) =
      (q.models[k]?).map (fun c => baseType c.exampleVal.ms.ModelType) := by
  obtain ⟨rows, h⟩ := runQuery_new_loaders q ls loaders hrun k
  rw [h]
  cases q.models[k]? with
  | none => rfl
  | some c => simp [scanRows_itemType, newModelLoader]

theorem runQuery_new_loaders_noPointerInto (q : Query) (ls : List Nat) (loaders : Store)
    (hrun : (q.runQuery (newModelLoaders q.models).1 ls (newModelLoaders q.models).2).2 =
      Res.ok loaders) (i : Nat) : NoPointerInto i loaders := by
  intro m hm e he ns hns x hx
  obtain ⟨k, hk⟩ := List.mem_iff_getElem?.mp hm
  obtain ⟨rows, h⟩ := runQuery_new_loaders q ls loaders hrun k
  rw [hk] at h
  cases hc : q.models[k]? with
  | none => simp [hc] at h
  | some c =>
      simp only [hc, Option.map_some', Option.some.injEq] at h
      subst h
      exact (scanRows_items_refs rows (newModelLoader c.exampleVal)
        (by intro e2 he2; simp [newModelLoader] at he2) e he ns hns x hx).elim

theorem getItem_set_ne (store : Store) (i : Nat) (l2 : modelLoader) (r : Ref)
    (h : r.loader ≠ i) : getItem (store.set i l2) r = getItem store r := by
  unfold getItem
  rw [List.getElem?_set_ne (fun heq => h heq.symm)]

theorem appendItems_set_ne (addStruct : Bool) (store : Store) (i : Nat) (l2 : modelLoader) :
    ∀ (items : List Ref) (cur : Slot), (∀ r ∈ items, r.loader ≠ i) →
      appendItems addStruct (store.set i l2) items cur = appendItems addStruct store items cur := by
  intro items
  induction items with
  | nil => intro cur _; rfl
  | cons r rs ih =>
      intro cur h
      have hrs : ∀ r2 ∈ rs, r2.loader ≠ i := fun r2 hr2 => h r2 (List.mem_cons_of_mem _ hr2)
      simp only [appendItems]
      rw [getItem_set_ne store i l2 r (h r (List.mem_cons_self _ _))]
      cases addStruct with
      | true =>
          simp only [if_true]
          split
          · exact ih _ hrs
          · rfl
      | false =>
          simp only [Bool.false_eq_true, if_false]
          split
          · exact ih _ hrs
          · rfl

/-- What `fillOutput` binds to an output does not depend on a loader that no
entry of the item map leads to. -/
theorem bindOutput_set_ne (itemMap : ItemMap) (store : Store) (i : Nat) (l2 : modelLoader)
    (hmap : ∀ u, itemMapGet u itemMap ≠ some i) (o : Output) :
    bindOutput itemMap (store.set i l2) o = bindOutput itemMap store o := by
  cases o with
  | untypedNil => rfl
  | nonPtr t => rfl
  | nilPtr t => rfl
  | ptr t cur =>
      simp only [bindOutput]
      cases hget : itemMapGet (baseType (GoType.ptr t)) itemMap with
      | none => rfl
      | some li =>
          have hli : li ≠ i := fun heq => hmap _ (by rw [hget, heq])
          simp only []
          rw [List.getElem?_set_ne (fun heq => hli heq.symm)]
          cases hl : store[li]? with
          | none => rfl
          | some l =>
              simp only []
              rw [appendItems_set_ne (!t.elem.isPtr) store i l2 _ cur
                (by intro r hr; simp only [List.mem_map] at hr; obtain ⟨k, _, rfl⟩ := hr; exact hli)]
              cases hitems : (List.range l.items.length).map (fun k => Ref.mk li k) with
              | nil => rfl
              | cons r rs =>
                  have hr : r.loader ≠ i := by
                    have : r ∈ (List.range l.items.length).map (fun k => Ref.mk li k) := by
                      rw [hitems]; exact List.mem_cons_self _ _
                    simp only [List.mem_map] at this
                    obtain ⟨k, _, rfl⟩ := this
                    exact hli
                  simp only [setFirst]
                  rw [getItem_set_ne store i l2 r hr]

theorem appendItems_refs (addStruct : Bool) (store : Store) :
    ∀ (items : List Ref) (cur cur2 : Slot),
      appendItems addStruct store items cur = Res.ok cur2 →
      ∀ x ∈ cur2.refs, x ∈ cur.refs ∨ x ∈ items := by
  intro items
  induction items with
  | nil =>
      intro cur cur2 h x hx
      simp only [appendItems, Res.ok.injEq] at h
      subst h
      exact Or.inl hx
  | cons r rs ih =>
      intro cur cur2 h x hx
      simp only [appendItems] at h
      cases addStruct with
      | true =>
          simp only [if_true] at h
          split at h
          · rcases ih _ _ h x hx with h1 | h2
            · simp [Slot.refs] at h1
            · exact Or.inr (List.mem_cons_of_mem _ h2)
          · cases h
      | false =>
          simp only [Bool.false_eq_true, if_false] at h
          split at h
          · rcases ih _ _ h x hx with h1 | h2
            · simp only [Slot.refs, List.mem_append, List.mem_singleton] at h1
              rcases h1 with h3 | h4
              · exact Or.inl h3
              · exact Or.inr (by rw [h4]; exact List.mem_cons_self _ _)
            · exact Or.inr (List.mem_cons_of_mem _ h2)
          · cases h

/-- Every pointer an output holds after `bindOutput` was there before or
leads to the loader that the item map gives. -/
theorem bindOutput_refs (itemMap : ItemMap) (store : Store) (i : Nat)
    (hmap : ∀ u, itemMapGet u itemMap ≠ some i) (o o2 : Output)
    (h : bindOutput itemMap store o = Res.ok o2) :
    ∀ x ∈ o2.refs, x.loader = i → x ∈ o.refs := by
  intro x hx hxi
  cases o with
  | untypedNil => cases h
  | nonPtr t => cases h
  | nilPtr t => cases h
  | ptr t cur =>
      simp only [bindOutput] at h
      cases hget : itemMapGet (baseType (GoType.ptr t)) itemMap with
      | none =>
          simp only [hget, Res.ok.injEq] at h
          subst h
          exact hx
      | some li =>
          have hli : li ≠ i := fun heq => hmap _ (by rw [hget, heq])
          simp only [hget] at h
          cases hl : store[li]? with
          | none => simp [hl] at h
          | some l =>
              simp only [hl] at h
              by_cases hs : t.isSlice = true
              · simp only [hs, if_true] at h
                cases ha : appendItems (!t.elem.isPtr) store
                    ((List.range l.items.length).map (fun k => Ref.mk li k)) cur with
                | ok cur2 =>
                    simp only [ha, Res.ok.injEq] at h
                    subst h
                    rcases appendItems_refs _ store _ _ _ ha x hx with h1 | h2
                    · exact h1
                    · simp only [List.mem_map] at h2
                      obtain ⟨k, _, rfl⟩ := h2
                      exact absurd hxi hli
                | err msg => simp [ha] at h
                | crash => simp [ha] at h
              · simp only [hs, Bool.false_eq_true, if_false] at h
                cases hitems : (List.range l.items.length).map (fun k => Ref.mk li k) with
                | nil =>
                    simp only [hitems, Res.ok.injEq] at h
                    subst h
                    exact hx
                | cons r rs =>
                    have hr : r.loader = li := by
                      have : r ∈ (List.range l.items.length).map (fun k => Ref.mk li k) := by
                        rw [hitems]; exact List.mem_cons_self _ _
                      simp only [List.mem_map] at this
                      obtain ⟨k, _, rfl⟩ := this
                      rfl
                    simp only [hitems] at h
                    cases hsf : setFirst t store r cur with
                    | ok cur2 =>
                        simp only [hsf, Res.ok.injEq] at h
                        subst h
                        unfold setFirst at hsf
                        split at hsf
                        · split at hsf
                          · cases hsf
                            simp [Output.refs, Slot.refs] at hx
                          · cases hsf
                        · split at hsf
                          · cases hsf
                            simp only [Output.refs, Slot.refs, List.mem_singleton] at hx
                            subst hx
                            exact absurd (hr.symm.trans hxi) hli
                          · cases hsf
                    | err msg => simp [hsf] at h
                    | crash => simp [hsf] at h

theorem bindOutputs_refs (itemMap : ItemMap) (store : Store) (i : Nat)
    (hmap : ∀ u, itemMapGet u itemMap ≠ some i) :
    ∀ (os : List Output), ∀ o2 ∈ (bindOutputs itemMap store os).2,
      ∀ x ∈ o2.refs, x.loader = i → ∃ o ∈ os, x ∈ o.refs := by
  intro os
  induction os with
  | nil => intro o2 h; simp [bindOutputs] at h
  | cons o os ih =>
      intro o2 h x hx hxi
      simp only [bindOutputs] at h
      cases hb : bindOutput itemMap store o with
      | ok o3 =>
          simp only [hb] at h
          rcases List.mem_cons.mp h with heq | hrest
          · subst heq
            exact ⟨o, List.mem_cons_self _ _, bindOutput_refs itemMap store i hmap o _ hb x hx hxi⟩
          · obtain ⟨o4, ho4, hx4⟩ := ih o2 hrest x hx hxi
            exact ⟨o4, List.mem_cons_of_mem _ ho4, hx4⟩
      | err msg =>
          simp only [hb] at h
          exact ⟨o2, h, hx⟩
      | crash =>
          simp only [hb] at h
          exact ⟨o2, h, hx⟩

/-- Claim C24: take a `Query` whose models at the positions `i < j` have the
same base type `t`, and whose rows were scanned into the loaders `loaders`.
`Run` is `fillOutput` on these loaders, whose item map is
`buildItemMap loaders 0 []`. The entry of that map for `t` is the position
`k` of the last model of base type `t`, so it is `j` or later; no entry of
the map, for any type, leads to the loader `i`. After the run no
relationship field of any loaded struct holds a pointer to a struct of
loader `i`; a pointer into loader `i` held by an output after the run was
in that output before; and what is bound to an output is the same whatever
the loader at position `i` holds. -/
theorem Run_uses_last_loader_of_type (q : Query) (output : List Output) (i j : Nat)
    (ci cj : modelConfiguration) (loaders : Store)
    (hi : q.models[i]? = some ci) (hj : q.models[j]? = some cj) (hij : i < j)
    (hty : baseType cj.exampleVal.ms.ModelType = baseType ci.exampleVal.ms.ModelType)
    (hrun : (q.runQuery (newModelLoaders q.models).1
        (List.range (newModelLoaders q.models).1.length) (newModelLoaders q.models).2).2 =
      Res.ok loaders) :
    q.Run output = fillOutput loaders output
      [(q.runQuery (newModelLoaders q.models).1
        (List.range (newModelLoaders q.models).1.length) (newModelLoaders q.models).2).1] ∧
    (∃ k, j ≤ k ∧
      itemMapGet (baseType ci.exampleVal.ms.ModelType) (buildItemMap loaders 0 []) = some k ∧
      (q.models[k]?).map (fun c => baseType c.exampleVal.ms.ModelType) =
        some (baseType ci.exampleVal.ms.ModelType) ∧
      ∀ k2, k < k2 → (q.models[k2]?).map (fun c => baseType c.exampleVal.ms.ModelType) ≠
        some (baseType ci.exampleVal.ms.ModelType)) ∧
    (∀ u, itemMapGet u (buildItemMap loaders 0 []) ≠ some i) ∧
    NoPointerInto i (q.Run output).loaders ∧
    (∀ o2 ∈ (q.Run output).outputs, ∀ x ∈ o2.refs, x.loader = i → ∃ o ∈ output, x ∈ o.refs) ∧
    (∀ (store : Store) (l2 : modelLoader) (o : Output),
      bindOutput (buildItemMap loaders 0 []) (store.set i l2) o =
        bindOutput (buildItemMap loaders 0 []) store o) := by
  have htype := runQuery_new_loaders_type q _ loaders hrun
  have hli : (loaders[i]?).map (fun l => baseType l.itemType) =
      some (baseType ci.exampleVal.ms.ModelType) := by rw [htype, hi]; rfl
  have hlj : (loaders[j]?).map (fun l => baseType l.itemType) =
      some (baseType ci.exampleVal.ms.ModelType) := by rw [htype, hj, ← hty]; rfl
  have hmap := buildItemMap_not_earlier loaders i j _ hli hlj hij
  have hclean := runQuery_new_loaders_noPointerInto q _ loaders hrun i
  have hRun : q.Run output = fillOutput loaders output
      [(q.runQuery (newModelLoaders q.models).1
        (List.range (newModelLoaders q.models).1.length) (newModelLoaders q.models).2).1] := by
    unfold Query.Run
    simp only [hrun]
  refine ⟨hRun, ?_, hmap, ?_, ?_, fun store l2 o => bindOutput_set_ne _ store i l2 hmap o⟩
  · obtain ⟨k, hjk, hget, hk, hlast⟩ := buildItemMap_last loaders j _ hlj
    refine ⟨k, hjk, hget, by rw [← htype]; exact hk, ?_⟩
    intro k2 hk2
    rw [← htype]
    exact hlast k2 hk2
  · rw [hRun]
    unfold fillOutput
    dsimp only
    cases hfin : finalizeAll (buildItemMap loaders 0 []) (List.range loaders.length) loaders with
    | ok store => exact finalizeAll_noPointerInto i _ hmap _ _ _ hclean hfin
    | err msg => exact hclean
    | crash => exact hclean
  · rw [hRun]
    unfold fillOutput
    dsimp only
    cases hfin : finalizeAll (buildItemMap loaders 0 []) (List.range loaders.length) loaders with
    | ok store => exact bindOutputs_refs _ store i hmap output
    | err msg => exact fun o2 ho2 x hx _ => ⟨o2, ho2, hx⟩
    | crash => exact fun o2 ho2 x hx _ => ⟨o2, ho2, hx⟩

/-- Witness of claim C24: the self-join of `Employee` under the aliases `e`
and `m`. The output `[]*Employee` receives the two structs of the second
loader only, and the employee 4 of the first loader has as `Manager` the
struct 2 of the second loader, not the employee 2 of the first. -/
theorem Run_uses_last_loader_of_type_witness :
    (selfJoinQuery.Run [employeesOut]).outputs =
      [Output.ptr (GoType.slice (GoType.ptr (GoType.named "Employee")))
        (Slot.ptrs [⟨1, 0⟩, ⟨1, 1⟩])] ∧
    (getItem (selfJoinQuery.Run [employeesOut]).loaders ⟨0, 1⟩).bind (fun e => e.rel "Manager") =
      some (Slot.ptr (some ⟨1, 1⟩)) ∧
    (getItem (selfJoinQuery.Run [employeesOut]).loaders ⟨0, 0⟩).bind (fun e => e.field "ID") =
      some (Value.uint 2) ∧
    (selfJoinQuery.Run [employeesOut] = fillOutput selfJoinStore [employeesOut]
      [(selfJoinQuery.runQuery (newModelLoaders selfJoinQuery.models).1
        (List.range (newModelLoaders selfJoinQuery.models).1.length)
        (newModelLoaders selfJoinQuery.models).2).1] ∧
    (∃ k, 1 ≤ k ∧
      itemMapGet (baseType employeeModel.ms.ModelType) (buildItemMap selfJoinStore 0 []) =
        some k ∧
      (selfJoinQuery.models[k]?).map (fun c => baseType c.exampleVal.ms.ModelType) =
        some (baseType employeeModel.ms.ModelType) ∧
      ∀ k2, k < k2 →
        (selfJoinQuery.models[k2]?).map (fun c => baseType c.exampleVal.ms.ModelType) ≠
          some (baseType employeeModel.ms.ModelType)) ∧
    (∀ u, itemMapGet u (buildItemMap selfJoinStore 0 []) ≠ some 0) ∧
    NoPointerInto 0 (selfJoinQuery.Run [employeesOut]).loaders ∧
    (∀ o2 ∈ (selfJoinQuery.Run [employeesOut]).outputs, ∀ x ∈ o2.refs, x.loader = 0 →
      ∃ o ∈ [employeesOut], x ∈ o.refs) ∧
    (∀ (store : Store) (l2 : modelLoader) (o : Output),
      bindOutput (buildItemMap selfJoinStore 0 []) (store.set 0 l2) o =
        bindOutput (buildItemMap selfJoinStore 0 []) store o)) :=
  ⟨rfl, rfl, rfl,
   Run_uses_last_loader_of_type selfJoinQuery [employeesOut] 0 1
     { exampleVal := employeeModel, aliasName := "e" }
     { exampleVal := employeeModel, aliasName := "m" } selfJoinStore rfl rfl (by decide) rfl rfl⟩

/-! ## A MultiQuery of one Query -/

theorem registerModels_keeps (t : GoType) (v : Nat) :
    ∀ (models : List modelConfiguration) (st : Store × ItemMap),
      itemMapGet t st.2 = some v → itemMapGet t (registerModels models st).2 = some v := by
  intro models
  induction models with
  | nil => intro st h; exact h
  | cons c cs ih =>
      intro st h
      obtain ⟨loaders, loaderMap⟩ := st
      simp only [registerModels]
      cases hc : itemMapGet (baseType c.exampleVal.typ) loaderMap with
      | some w => exact ih _ h
      | none =>
          refine ih _ ?_
          show itemMapGet t (itemMapSet _ _ loaderMap) = some v
          rw [itemMapGet_itemMapSet]
          have hne : ¬ baseType c.exampleVal.typ = t := by
            intro heq
            rw [heq] at hc
            rw [hc] at h
            cases h
          rw [if_neg hne]
          exact h

/-- Models of pairwise distinct base types, none of which has a loader yet:
each gets a new loader, appended in the order of the models. -/
theorem registerModels_fresh :
    ∀ (models : List modelConfiguration) (st : Store × ItemMap),
      (models.map (fun c => baseType c.exampleVal.typ)).Nodup →
      (∀ c ∈ models, itemMapGet (baseType c.exampleVal.typ) st.2 = none) →
      (registerModels models st).1 = st.1 ++ models.map (fun c => newModelLoader c.exampleVal) ∧
      ∀ k c, models[k]? = some c →
        itemMapGet (baseType c.exampleVal.typ) (registerModels models st).2 =
          some (st.1.length + k) := by
  intro models
  induction models with
  | nil =>
      intro st _ _
      exact ⟨by simp [registerModels], fun k c h => by simp at h⟩
  | cons c cs ih =>
      intro st hnodup hnone
      obtain ⟨loaders, loaderMap⟩ := st
      have hc : itemMapGet (baseType c.exampleVal.typ) loaderMap = none :=
        hnone c (List.mem_cons_self _ _)
      rw [List.map_cons, List.nodup_cons] at hnodup
      have hstep : registerModels (c :: cs) (loaders, loaderMap) =
          registerModels cs (loaders ++ [newModelLoader c.exampleVal],
            itemMapSet (baseType c.exampleVal.typ) loaders.length loaderMap) := by
        simp only [registerModels, hc]
      rw [hstep]
      have hrest := ih (loaders ++ [newModelLoader c.exampleVal],
          itemMapSet (baseType c.exampleVal.typ) loaders.length loaderMap) hnodup.2
        (by
          intro c2 hc2
          show itemMapGet _ (itemMapSet _ _ loaderMap) = none
          rw [itemMapGet_itemMapSet]
          have hne : ¬ baseType c.exampleVal.typ = baseType c2.exampleVal.typ := by
            intro heq
            exact hnodup.1 (by rw [heq]; exact List.mem_map_of_mem _ hc2)
          rw [if_neg hne]
          exact hnone c2 (List.mem_cons_of_mem _ hc2))
      refine ⟨by rw [hrest.1]; simp, ?_⟩
      intro k c2 hk
      cases k with
      | zero =>
          simp only [List.getElem?_cons_zero, Option.some.injEq] at hk
          subst hk
          exact registerModels_keeps _ _ cs _
            (by show itemMapGet _ (itemMapSet _ _ loaderMap) = _
                rw [itemMapGet_itemMapSet, if_pos rfl]; rfl)
      | succ k =>
          simp only [List.getElem?_cons_succ] at hk
          rw [hrest.2 k c2 hk]
          simp only [List.length_append, List.length_cons, List.length_nil]
          congr 1
          omega

theorem sharedLoaders_fresh (loaders : Store) (loaderMap : ItemMap) :
    ∀ (models : List modelConfiguration) (base : Nat),
      (∀ k c, models[k]? = some c →
        itemMapGet (baseType c.exampleVal.typ) loaderMap = some (base + k)) →
      sharedLoaders loaders loaderMap models =
        (List.range' base models.length, models.map (fun c => c.aliasName)) := by
  intro models
  induction models with
  | nil => intro base _; rfl
  | cons c cs ih =>
      intro base h
      simp only [sharedLoaders]
      rw [ih (base + 1) (fun k c2 hk => by
        have := h (k + 1) c2 (by simpa using hk)
        rw [this]; congr 1; omega)]
      rw [h 0 c (by simp)]
      simp [List.range'_succ]

theorem getItem_new_loaders (models : List modelConfiguration) (r : Ref) :
    getItem (newModelLoaders models).1 r = none := by
  unfold getItem newModelLoaders
  dsimp only
  rw [List.getElem?_map]
  cases models[r.loader]? with
  | none => rfl
  | some c => simp [newModelLoader]

/-- Claim C23: for a `Query` whose models have pairwise distinct base types,
and any database, `MultiQuery{q}.Run` and `q.Run` end the same way (the same
error, if any), leave the same output destinations, hand the same statement
to the database, and every pointer leads to the same struct, with the same
relationship fields, after both. -/
theorem MultiQuery_Run_single_eq_Query_Run (q : Query) (output : List Output)
    (hdistinct : (q.models.map (fun c => baseType c.exampleVal.typ)).Nodup) :
    (MultiQuery.Run [q] output).outcome = (q.Run output).outcome ∧
    (MultiQuery.Run [q] output).outputs = (q.Run output).outputs ∧
    (MultiQuery.Run [q] output).executed = (q.Run output).executed ∧
    ∀ r : Ref, getItem (MultiQuery.Run [q] output).loaders r =
      getItem (q.Run output).loaders r := by
  have hreg := registerModels_fresh q.models ([], []) hdistinct (fun _ _ => rfl)
  have hstore : (registerModels q.models ([], [])).1 = (newModelLoaders q.models).1 := by
    rw [hreg.1]; simp [newModelLoaders]
  have hshared : sharedLoaders (newModelLoaders q.models).1
      (registerModels q.models ([], [])).2 q.models =
      (List.range (newModelLoaders q.models).1.length, (newModelLoaders q.models).2) := by
    rw [sharedLoaders_fresh _ _ q.models 0 (fun k c hk => by
      have := hreg.2 k c hk
      simpa using this)]
    simp [newModelLoaders, List.range_eq_range']
  have hrun : runQueries [q] ([], []) [] =
      match (q.runQuery (newModelLoaders q.models).1
          (List.range (newModelLoaders q.models).1.length) (newModelLoaders q.models).2).2 with
      | Res.ok loaders =>
          ([(q.runQuery (newModelLoaders q.models).1
              (List.range (newModelLoaders q.models).1.length)
              (newModelLoaders q.models).2).1], Res.ok loaders)
      | Res.err msg =>
          ([(q.runQuery (newModelLoaders q.models).1
              (List.range (newModelLoaders q.models).1.length)
              (newModelLoaders q.models).2).1], Res.err msg)
      | Res.crash =>
          ([(q.runQuery (newModelLoaders q.models).1
              (List.range (newModelLoaders q.models).1.length)
              (newModelLoaders q.models).2).1], Res.crash) := by
    simp only [runQueries, hstore, hshared, List.nil_append]
  unfold MultiQuery.Run Query.Run
  dsimp only
  rw [hrun]
  cases hran : (q.runQuery (newModelLoaders q.models).1
      (List.range (newModelLoaders q.models).1.length) (newModelLoaders q.models).2).2 with
  | ok loaders => exact ⟨rfl, rfl, rfl, fun _ => rfl⟩
  | err msg =>
      refine ⟨rfl, rfl, rfl, fun r => ?_⟩
      rw [getItem_new_loaders]
      simp [getItem]
  | crash =>
      refine ⟨rfl, rfl, rfl, fun r => ?_⟩
      rw [getItem_new_loaders]
      simp [getItem]

/-- Witness of claim C23: the query of scenario A, over `Parent` and
`Child`, with the outputs `&parents` and `&children`; both runs bind the
parent and the two children. -/
theorem MultiQuery_Run_single_eq_Query_Run_witness :
    (scenarioAQuery.models.map (fun c => baseType c.exampleVal.typ)).Nodup ∧
    (scenarioAQuery.Run [parentsOut, childrenOut]).outcome = Res.ok () ∧
    ((scenarioAQuery.Run [parentsOut, childrenOut]).outputs.map
      (fun o => match o with
        | Output.ptr _ (Slot.vals es) => es.length
        | _ => 0)) = [1, 2] ∧
    ((MultiQuery.Run [scenarioAQuery] [parentsOut, childrenOut]).outcome =
        (scenarioAQuery.Run [parentsOut, childrenOut]).outcome ∧
      (MultiQuery.Run [scenarioAQuery] [parentsOut, childrenOut]).outputs =
        (scenarioAQuery.Run [parentsOut, childrenOut]).outputs ∧
      (MultiQuery.Run [scenarioAQuery] [parentsOut, childrenOut]).executed =
        (scenarioAQuery.Run [parentsOut, childrenOut]).executed ∧
      ∀ r : Ref, getItem (MultiQuery.Run [scenarioAQuery] [parentsOut, childrenOut]).loaders r =
        getItem (scenarioAQuery.Run [parentsOut, childrenOut]).loaders r) :=
  ⟨by decide, rfl, rfl,
   MultiQuery_Run_single_eq_Query_Run scenarioAQuery [parentsOut, childrenOut] (by decide)⟩

/-! ## Errors of finalize -/

theorem ownerKey_not_err (e : Entity) (msg : String) :
    ∀ (names : List String) (i : Nat) (sb : String), ownerKey e names i sb ≠ Res.err msg := by
  intro names
  induction names with
  | nil => intro i sb h; cases h
  | cons n ns ih =>
      intro i sb h
      simp only [ownerKey] at h
      split at h
      · cases h
      · split at h
        · cases h
        · exact ih _ _ h

theorem linkAll_not_err (f : StructField) (owner : Ref) (msg : String) :
    ∀ (refs : List Ref) (store : Store), linkAll f owner refs store ≠ Res.err msg := by
  intro refs
  induction refs with
  | nil => intro store h; cases h
  | cons r rs ih =>
      intro store h
      simp only [linkAll] at h
      split at h
      · split at h
        · cases h
        · split at h
          · cases h
          · split at h
            · exact ih _ h
            · cases h
      · cases h

theorem fillItems_not_err (f : StructField) (rel : Relationship) (li : Nat) (lookup : Lookup)
    (msg : String) :
    ∀ (ks : List Nat) (store : Store), fillItems f rel li lookup ks store ≠ Res.err msg := by
  intro ks
  induction ks with
  | nil => intro store h; cases h
  | cons k ks ih =>
      intro store h
      simp only [fillItems] at h
      split at h
      · cases h
      · split at h
        · split at h
          · exact ih _ h
          · rename_i hlink
            exact linkAll_not_err f _ _ _ _ hlink
          · cases h
        · rename_i hkey
          exact ownerKey_not_err _ _ _ _ _ hkey
        · cases h

theorem targetKey_err (e : Entity) (msg : String) :
    ∀ (names : List String) (i : Nat) (sb : String),
      targetKey e names i sb = Res.err msg →
      msg = "Value() failed" ∧
      ∃ name ∈ names, ∃ v, e.field name = some v ∧ asValuer v = some none := by
  intro names
  induction names with
  | nil => intro i sb h; cases h
  | cons n ns ih =>
      intro i sb h
      simp only [targetKey] at h
      cases hf : e.field n with
      | none => simp [hf] at h
      | some val =>
          simp only [hf] at h
          by_cases hp : valuerPanics val = true
          · rw [if_pos hp] at h
            cases h
          · rw [if_neg hp] at h
            cases hv : asValuer val with
            | none =>
                simp only [hv] at h
                obtain ⟨hmsg, name, hname, v, hfield, hbad⟩ := ih _ _ h
                exact ⟨hmsg, name, List.mem_cons_of_mem _ hname, v, hfield, hbad⟩
            | some w =>
                cases w with
                | none =>
                    simp only [hv, Res.err.injEq] at h
                    exact ⟨h.symm, n, List.mem_cons_self _ _, val, hf, hv⟩
                | some w2 =>
                    simp only [hv] at h
                    obtain ⟨hmsg, name, hname, v, hfield, hbad⟩ := ih _ _ h
                    exact ⟨hmsg, name, List.mem_cons_of_mem _ hname, v, hfield, hbad⟩

theorem buildLookup_err (rel : Relationship) (tl : Nat) (msg : String) :
    ∀ (es : List Entity) (j : Nat) (lookup : Lookup),
      buildLookup rel tl es j lookup = Res.err msg →
      msg = "Value() failed" ∧
      ∃ (p : Nat) (e : Entity), es[p]? = some e ∧
        ∃ name ∈ rel.ForeignFieldNames, ∃ v, e.field name = some v ∧ asValuer v = some none := by
  intro es
  induction es with
  | nil => intro j lookup h; cases h
  | cons e es ih =>
      intro j lookup h
      simp only [buildLookup] at h
      cases hk : targetKey e rel.ForeignFieldNames 0 "" with
      | ok key =>
          simp only [hk] at h
          obtain ⟨hmsg, p, e2, hp, hrest⟩ := ih _ _ h
          exact ⟨hmsg, p + 1, e2, by rw [List.getElem?_cons_succ]; exact hp, hrest⟩
      | err msg2 =>
          simp only [hk, Res.err.injEq] at h
          subst h
          obtain ⟨hmsg, hrest⟩ := targetKey_err e msg2 _ _ _ hk
          exact ⟨hmsg, 0, e, List.getElem?_cons_zero, hrest⟩
      | crash => simp [hk] at h

/-- The one way in which the turn of a relationship in `finalize` returns an
error: `Value()` of a key field of a target struct fails. -/
theorem finalizeRel_err (li : Nat) (itemMap : ItemMap) (f : StructField) (store : Store)
    (msg : String) (h : finalizeRel li itemMap f store = Res.err msg) :
    msg = "Value() failed" ∧
    ∃ rel tl k name v, f.Relationship = some rel ∧
      itemMapGet (baseType f.typ) itemMap = some tl ∧ name ∈ rel.ForeignFieldNames ∧
      (getItem store ⟨tl, k⟩).map (fun e => e.field name) = some (some v) ∧
      asValuer v = some none := by
  unfold finalizeRel at h
  cases hget : itemMapGet (baseType f.typ) itemMap with
  | none => simp [hget] at h
  | some tl =>
      simp only [hget] at h
      split at h
      · rename_i rel target m hrel htl hli
        cases hb : buildLookup rel tl target.items 0 [] with
        | ok lookup =>
            simp only [hb] at h
            exact absurd h (fillItems_not_err f rel li lookup msg _ _)
        | err msg2 =>
            simp only [hb, Res.err.injEq] at h
            subst h
            obtain ⟨hmsg, p, e, hp, name, hname, v, hfield, hbad⟩ :=
              buildLookup_err rel tl msg2 _ _ _ hb
            refine ⟨hmsg, rel, tl, p, name, v, hrel, rfl, hname, ?_, hbad⟩
            rw [getItem_of_loader store tl target htl p, hp]
            simp [hfield]
        | crash => simp [hb] at h
      · cases h

theorem finalizeRels_err (li : Nat) (itemMap : ItemMap) (msg : String) :
    ∀ (fs : List StructField) (store : Store),
      finalizeRels li itemMap fs store = Res.err msg →
      msg = "Value() failed" ∧
      ∃ f ∈ fs, ∃ rel tl k name v, f.Relationship = some rel ∧
        itemMapGet (baseType f.typ) itemMap = some tl ∧ name ∈ rel.ForeignFieldNames ∧
        (getItem store ⟨tl, k⟩).map (fun e => e.field name) = some (some v) ∧
        asValuer v = some none := by
  intro fs
  induction fs with
  | nil => intro store h; cases h
  | cons g gs ih =>
      intro store h
      simp only [finalizeRels] at h
      cases hg : finalizeRel li itemMap g store with
      | ok store3 =>
          simp only [hg] at h
          obtain ⟨hmsg, f, hf, rel, tl, k, name, v, hrel, hmap, hname, hitem, hbad⟩ := ih _ h
          refine ⟨hmsg, f, List.mem_cons_of_mem _ hf, rel, tl, k, name, v, hrel, hmap, hname,
            ?_, hbad⟩
          have hsame := (finalizeRel_sameOutside li itemMap g store store3 hg ⟨tl, k⟩).1
          have hfield : (getItem store3 ⟨tl, k⟩).map (fun e => e.field name) =
              (getItem store ⟨tl, k⟩).map (fun e => e.field name) := by
            have := congrArg (Option.map (assocGet name)) hsame
            simpa [Option.map_map, Function.comp_def, Entity.field] using this
          rw [← hfield]
          exact hitem
      | err msg2 =>
          simp only [hg, Res.err.injEq] at h
          subst h
          obtain ⟨hmsg, rest⟩ := finalizeRel_err li itemMap g store msg2 hg
          exact ⟨hmsg, g, List.mem_cons_self _ _, rest⟩
      | crash => simp [hg] at h

/-- Claim C22, as stated, fails: the voucher 1 has as `Code` a value on
which `Value()` returns an error; `finalize` of the `Wallet` loader, whose
relationship `Vouchers` is keyed by `Voucher.Code`, returns that error, and
`Run` of the query that loads the two returns it to its caller. -/
theorem finalize_returns_target_Value_error :
    (getItem walletStore ⟨1, 0⟩).map (fun e => e.field "Code") =
      some (some (Value.badValuer "Code(?)")) ∧
    finalize 0 (buildItemMap walletStore 0 []) walletStore = Res.err "Value() failed" ∧
    (walletQuery.Run [walletsOut]).outcome = Res.err "Value() failed" ∧
    (walletQuery.Run [walletsOut]).outputs = [walletsOut] :=
  ⟨rfl, rfl, rfl, rfl⟩

/-- Claim C22, amended: `finalize` returns an error in one case only. When
it returns an error, the loader has a relationship field `f` whose target
type is in the item map, and a target struct, at position `k` of the loader
`tl` that the map gives, has a key field `name` of `ForeignFieldNames`
holding a `Valuer` on which `Value()` returns an error; the error returned
is that error. No value of a key field of an owning struct and no absent
target makes `finalize` return an error. -/
theorem finalize_error_is_target_Value_error (li : Nat) (itemMap : ItemMap) (store : Store)
    (msg : String) (h : finalize li itemMap store = Res.err msg) :
    msg = "Value() failed" ∧
    ∃ m f rel tl k e name v, store[li]? = some m ∧ f ∈ m.relationships ∧
      f.Relationship = some rel ∧ itemMapGet (baseType f.typ) itemMap = some tl ∧
      name ∈ rel.ForeignFieldNames ∧ getItem store ⟨tl, k⟩ = some e ∧
      e.field name = some v ∧ asValuer v = some none := by
  unfold finalize at h
  cases hl : store[li]? with
  | none => simp [hl] at h
  | some m =>
      simp only [hl] at h
      obtain ⟨hmsg, f, hf, rel, tl, k, name, v, hrel, hmap, hname, hitem, hbad⟩ :=
        finalizeRels_err li itemMap msg _ _ h
      cases he : getItem store ⟨tl, k⟩ with
      | none => simp [he] at hitem
      | some e =>
          simp only [he, Option.map_some', Option.some.injEq] at hitem
          exact ⟨hmsg, m, f, rel, tl, k, e, name, v, rfl, hf, hrel, hmap, hname, he, hitem, hbad⟩

/-- Witness of the amended claim C22: the `Wallet` loader and the voucher
whose `Code` fails in `Value()`. -/
theorem finalize_error_is_target_Value_error_witness :
    finalize 0 (buildItemMap walletStore 0 []) walletStore = Res.err "Value() failed" ∧
    ("Value() failed" = "Value() failed" ∧
      ∃ m f rel tl k e name v, walletStore[0]? = some m ∧ f ∈ m.relationships ∧
        f.Relationship = some rel ∧
        itemMapGet (baseType f.typ) (buildItemMap walletStore 0 []) = some tl ∧
        name ∈ rel.ForeignFieldNames ∧ getItem walletStore ⟨tl, k⟩ = some e ∧
        e.field name = some v ∧ asValuer v = some none) :=
  ⟨rfl, finalize_error_is_target_Value_error 0 (buildItemMap walletStore 0 []) walletStore
    "Value() failed" rfl⟩

/-! ## The shared loaders of a MultiQuery -/

theorem firstReferences_congr :
    ∀ (cs : List modelConfiguration) (s1 s2 : List GoType),
      (∀ t, t ∈ s1 ↔ t ∈ s2) → firstReferences cs s1 = firstReferences cs s2 := by
  intro cs
  induction cs with
  | nil => intro s1 s2 _; rfl
  | cons c cs ih =>
      intro s1 s2 h
      simp only [firstReferences]
      by_cases hc : baseType c.exampleVal.typ ∈ s1
      · rw [if_pos hc, if_pos ((h _).mp hc)]
        exact ih s1 s2 h
      · rw [if_neg hc, if_neg (fun h2 => hc ((h _).mpr h2))]
        rw [ih (baseType c.exampleVal.typ :: s1) (baseType c.exampleVal.typ :: s2)
          (fun t => by simp only [List.mem_cons, h t])]

theorem firstReferences_cons (c : modelConfiguration) (cs : List modelConfiguration)
    (seen : List GoType) :
    firstReferences (c :: cs) seen =
      if baseType c.exampleVal.typ ∈ seen then firstReferences cs seen
      else c :: firstReferences cs (baseType c.exampleVal.typ :: seen) := rfl

theorem firstReferences_append :
    ∀ (a b : List modelConfiguration) (seen : List GoType),
      firstReferences (a ++ b) seen =
        firstReferences a seen ++
          firstReferences b (a.map (fun c => baseType c.exampleVal.typ) ++ seen) := by
  intro a
  induction a with
  | nil => intro b seen; rfl
  | cons c cs ih =>
      intro b seen
      rw [List.cons_append, firstReferences_cons, firstReferences_cons, List.map_cons]
      by_cases hc : baseType c.exampleVal.typ ∈ seen
      · rw [if_pos hc, if_pos hc, ih b seen]
        congr 1
        apply firstReferences_congr
        intro t
        simp only [List.cons_append, List.mem_append, List.mem_cons]
        constructor
        · intro h; rcases h with h | h
          · exact Or.inr (Or.inl h)
          · exact Or.inr (Or.inr h)
        · intro h; rcases h with h | h | h
          · exact Or.inr (h ▸ hc)
          · exact Or.inl h
          · exact Or.inr h
      · rw [if_neg hc, if_neg hc, ih b (baseType c.exampleVal.typ :: seen), List.cons_append]
        congr 2
        apply firstReferences_congr
        intro t
        simp only [List.cons_append, List.mem_append, List.mem_cons]
        constructor
        · intro h; rcases h with h | h | h
          · exact Or.inr (Or.inl h)
          · exact Or.inl h
          · exact Or.inr (Or.inr h)
        · intro h; rcases h with h | h | h
          · exact Or.inr (Or.inl h)
          · exact Or.inl h
          · exact Or.inr (Or.inr h)

theorem firstReferences_not_seen :
    ∀ (cs : List modelConfiguration) (seen : List GoType),
      ∀ c ∈ firstReferences cs seen, baseType c.exampleVal.typ ∉ seen := by
  intro cs
  induction cs with
  | nil => intro seen c h; cases h
  | cons x xs ih =>
      intro seen c h
      simp only [firstReferences] at h
      by_cases hx : baseType x.exampleVal.typ ∈ seen
      · rw [if_pos hx] at h
        exact ih seen c h
      · rw [if_neg hx] at h
        rcases List.mem_cons.mp h with heq | hrest
        · rw [heq]; exact hx
        · exact fun hmem => ih _ c hrest (List.mem_cons_of_mem _ hmem)

theorem firstReferences_nodup :
    ∀ (cs : List modelConfiguration) (seen : List GoType),
      ((firstReferences cs seen).map (fun c => baseType c.exampleVal.typ)).Nodup := by
  intro cs
  induction cs with
  | nil => intro seen; exact List.nodup_nil
  | cons x xs ih =>
      intro seen
      simp only [firstReferences]
      by_cases hx : baseType x.exampleVal.typ ∈ seen
      · rw [if_pos hx]
        exact ih seen
      · rw [if_neg hx, List.map_cons, List.nodup_cons]
        refine ⟨?_, ih _⟩
        intro hmem
        obtain ⟨c, hc, hty⟩ := List.mem_map.mp hmem
        exact firstReferences_not_seen xs _ c hc (by rw [hty]; exact List.mem_cons_self _ _)

theorem firstReferences_covers :
    ∀ (cs : List modelConfiguration) (seen : List GoType),
      ∀ c ∈ cs, baseType c.exampleVal.typ ∈ seen ∨
        baseType c.exampleVal.typ ∈
          (firstReferences cs seen).map (fun c => baseType c.exampleVal.typ) := by
  intro cs
  induction cs with
  | nil => intro seen c h; cases h
  | cons x xs ih =>
      intro seen c h
      simp only [firstReferences]
      by_cases hx : baseType x.exampleVal.typ ∈ seen
      · rw [if_pos hx]
        rcases List.mem_cons.mp h with heq | hrest
        · rw [heq]; exact Or.inl hx
        · exact ih seen c hrest
      · rw [if_neg hx, List.map_cons]
        rcases List.mem_cons.mp h with heq | hrest
        · rw [heq]; exact Or.inr (List.mem_cons_self _ _)
        · rcases ih _ c hrest with h1 | h2
          · rcases List.mem_cons.mp h1 with h3 | h4
            · exact Or.inr (by rw [h3]; exact List.mem_cons_self _ _)
            · exact Or.inl h4
          · exact Or.inr (List.mem_cons_of_mem _ h2)

theorem firstReferences_sublist :
    ∀ (cs : List modelConfiguration) (seen : List GoType),
      (firstReferences cs seen).Sublist cs := by
  intro cs
  induction cs with
  | nil => intro seen; exact List.Sublist.slnil
  | cons x xs ih =>
      intro seen
      simp only [firstReferences]
      by_cases hx : baseType x.exampleVal.typ ∈ seen
      · rw [if_pos hx]
        exact (ih seen).cons _
      · rw [if_neg hx]
        exact (ih _).cons₂ _

/-- The loop over the models of one query: the loaders appended are the new
loaders of the models that are the first to reference their base type. -/
theorem registerModels_firstReferences :
    ∀ (models : List modelConfiguration) (store : Store) (loaderMap : ItemMap)
      (seen : List GoType),
      (∀ t, (itemMapGet t loaderMap).isSome = true ↔ t ∈ seen) →
      (registerModels models (store, loaderMap)).1 =
        store ++ (firstReferences models seen).map (fun c => newModelLoader c.exampleVal) ∧
      ∀ t, (itemMapGet t (registerModels models (store, loaderMap)).2).isSome = true ↔
        t ∈ models.map (fun c => baseType c.exampleVal.typ) ++ seen := by
  intro models
  induction models with
  | nil =>
      intro store loaderMap seen h
      exact ⟨by simp [registerModels, firstReferences], by simpa [registerModels] using h⟩
  | cons c cs ih =>
      intro store loaderMap seen h
      cases hc : itemMapGet (baseType c.exampleVal.typ) loaderMap with
      | some w =>
          have hseen : baseType c.exampleVal.typ ∈ seen := (h _).mp (by rw [hc]; rfl)
          have hstep : registerModels (c :: cs) (store, loaderMap) =
              registerModels cs (store, loaderMap) := by
            simp only [registerModels, hc]
          rw [hstep]
          obtain ⟨h1, h2⟩ := ih store loaderMap seen h
          refine ⟨by rw [h1]; simp only [firstReferences, if_pos hseen], ?_⟩
          intro t
          rw [h2 t]
          simp only [List.map_cons, List.mem_append, List.mem_cons]
          constructor
          · intro h3; rcases h3 with h3 | h3
            · exact Or.inl (Or.inr h3)
            · exact Or.inr h3
          · intro h3; rcases h3 with (h3 | h3) | h3
            · exact Or.inr (h3 ▸ hseen)
            · exact Or.inl h3
            · exact Or.inr h3
      | none =>
          have hseen : baseType c.exampleVal.typ ∉ seen := by
            intro hmem
            have := (h _).mpr hmem
            rw [hc] at this
            cases this
          have hstep : registerModels (c :: cs) (store, loaderMap) =
              registerModels cs (store ++ [newModelLoader c.exampleVal],
                itemMapSet (baseType c.exampleVal.typ) store.length loaderMap) := by
            simp only [registerModels, hc]
          rw [hstep]
          obtain ⟨h1, h2⟩ := ih (store ++ [newModelLoader c.exampleVal])
            (itemMapSet (baseType c.exampleVal.typ) store.length loaderMap)
            (baseType c.exampleVal.typ :: seen)
            (by
              intro t
              rw [itemMapGet_itemMapSet]
              by_cases ht : baseType c.exampleVal.typ = t
              · rw [if_pos ht]
                simp [ht]
              · rw [if_neg ht, h t]
                simp only [List.mem_cons]
                exact ⟨fun h3 => Or.inr h3, fun h3 => h3.elim (fun h4 => absurd h4.symm ht) id⟩)
          refine ⟨by rw [h1]; simp only [firstReferences, if_neg hseen]; simp, ?_⟩
          intro t
          rw [h2 t]
          simp only [List.map_cons, List.mem_append, List.mem_cons]
          constructor
          · intro h3; rcases h3 with h3 | h3 | h3
            · exact Or.inl (Or.inr h3)
            · exact Or.inl (Or.inl h3)
            · exact Or.inr h3
          · intro h3; rcases h3 with (h3 | h3) | h3
            · exact Or.inr (Or.inl h3)
            · exact Or.inl h3
            · exact Or.inr (Or.inr h3)

theorem scanLoop_map_freshLoader (ls : List Nat) (rows : List ScanRow) (store store2 : Store)
    (h : scanLoop ls rows store = Res.ok store2) :
    store2.map freshLoader = store.map freshLoader := by
  apply List.ext_getElem?
  intro k
  rw [List.getElem?_map, List.getElem?_map, scanLoop_getElem? k ls rows store store2 h]
  cases store[k]? with
  | none => rfl
  | some l => simp [freshLoader_scanRows]

theorem runQuery_map_freshLoader (q : Query) (store store2 : Store) (ls : List Nat)
    (aliases : List String) (h : (q.runQuery store ls aliases).2 = Res.ok store2) :
    store2.map freshLoader = store.map freshLoader := by
  unfold Query.runQuery at h
  dsimp only at h
  split at h
  · cases h
  · exact scanLoop_map_freshLoader ls _ store store2 h

/-- The loop over the queries: the loaders at its end are, in order, the
loaders it started with and one loader for each model that is the first to
reference its base type. -/
theorem runQueries_firstReferences :
    ∀ (qs : List Query) (store : Store) (loaderMap : ItemMap) (seen : List GoType)
      (executed : List String) (loaders : Store),
      (∀ t, (itemMapGet t loaderMap).isSome = true ↔ t ∈ seen) →
      (runQueries qs (store, loaderMap) executed).2 = Res.ok loaders →
      loaders.map freshLoader =
        store.map freshLoader ++
          (firstReferences (allModels qs) seen).map (fun c => newModelLoader c.exampleVal) := by
  intro qs
  induction qs with
  | nil =>
      intro store loaderMap seen executed loaders _ h
      simp only [runQueries, Res.ok.injEq] at h
      subst h
      simp [allModels, firstReferences]
  | cons q qs ih =>
      intro store loaderMap seen executed loaders hmap h
      obtain ⟨hstore, hmap2⟩ := registerModels_firstReferences q.models store loaderMap seen hmap
      simp only [runQueries] at h
      cases hran : (q.runQuery (registerModels q.models (store, loaderMap)).1
          (sharedLoaders (registerModels q.models (store, loaderMap)).1
            (registerModels q.models (store, loaderMap)).2 q.models).1
          (sharedLoaders (registerModels q.models (store, loaderMap)).1
            (registerModels q.models (store, loaderMap)).2 q.models).2).2 with
      | ok loaders1 =>
          simp only [hran] at h
          rw [ih loaders1 _ _ _ loaders hmap2 h,
            runQuery_map_freshLoader q _ loaders1 _ _ hran, hstore]
          have hall : allModels (q :: qs) = q.models ++ allModels qs := by
            simp [allModels]
          rw [hall, firstReferences_append, List.map_append, List.map_append, List.map_map,
            List.append_assoc]
          congr 2
      | err msg => simp [hran] at h
      | crash => simp [hran] at h

theorem finalizeCalls_prefix (itemMap : ItemMap) :
    ∀ (lis : List Nat) (store : Store), finalizeCalls itemMap lis store <+: lis := by
  intro lis
  induction lis with
  | nil => intro store; exact List.prefix_refl _
  | cons li lis ih =>
      intro store
      simp only [finalizeCalls]
      split
      · exact (List.prefix_cons_inj li).mpr (ih _)
      · exact ⟨lis, rfl⟩
      · exact ⟨lis, rfl⟩

theorem finalizeCalls_all (itemMap : ItemMap) :
    ∀ (lis : List Nat) (store : Store),
      (finalizeAll itemMap lis store).isOk = true → finalizeCalls itemMap lis store = lis := by
  intro lis
  induction lis with
  | nil => intro store _; rfl
  | cons li lis ih =>
      intro store h
      simp only [finalizeAll] at h
      simp only [finalizeCalls]
      cases hf : finalize li itemMap store with
      | ok store2 =>
          simp only [hf] at h ⊢
          rw [ih store2 h]
      | err msg => simp [hf, Res.isOk] at h
      | crash => simp [hf, Res.isOk] at h

theorem finalizeAll_finalizeCalls (itemMap : ItemMap) :
    ∀ (lis : List Nat) (store : Store),
      finalizeAll itemMap (finalizeCalls itemMap lis store) store =
        finalizeAll itemMap lis store := by
  intro lis
  induction lis with
  | nil => intro store; rfl
  | cons li lis ih =>
      intro store
      simp only [finalizeCalls]
      cases hf : finalize li itemMap store with
      | ok store2 => simp only [finalizeAll, hf]; exact ih store2
      | err msg => simp only [finalizeAll, hf]
      | crash => simp only [finalizeAll, hf]

/-- Claim C21, as stated, fails: the `MultiQuery` of the one query over
`Wallet` and `Voucher` scans its rows into two shared loaders; `finalize` of
the first, the `Wallet` loader, returns the error of `Value()`, the loop of
`fillOutput` is left, and `finalize` is not called on the second, the
`Voucher` loader. -/
theorem MultiQuery_Run_finalize_not_called_after_error :
    (runQueries [walletQuery] ([], []) []).2 = Res.ok walletStore ∧
    List.range walletStore.length = [0, 1] ∧
    finalize 0 (buildItemMap walletStore 0 []) walletStore = Res.err "Value() failed" ∧
    finalizeCalls (buildItemMap walletStore 0 []) (List.range walletStore.length) walletStore =
      [0] ∧
    (MultiQuery.Run [walletQuery] [walletsOut]).outcome = Res.err "Value() failed" :=
  ⟨rfl, rfl, rfl, rfl, rfl⟩

/-- Claim C21, amended: when the queries of a `MultiQuery` have run without
error, the shared loaders are, position by position, the loaders of the
models that are the first to reference their base type, in the order of
reference: these models have pairwise distinct base types, every model of
every query has the base type of one of them, and a pointer type has the
base type of the struct it points to. `Run` then is `fillOutput` on these
loaders, after the last query. There `finalize` is called on the loaders in
the order of the list, at most once each, and on no loader after the first
call that does not return normally: the calls are a prefix of the
positions, the loop gives what the calls alone give, and when no call fails
`finalize` is called on every loader, exactly once. -/
theorem MultiQuery_Run_loaders_and_finalize_calls (m : MultiQuery) (output : List Output)
    (loaders : Store) (hrun : (runQueries m ([], []) []).2 = Res.ok loaders) :
    loaders.map freshLoader =
      (firstReferences (allModels m) []).map (fun c => newModelLoader c.exampleVal) ∧
    ((firstReferences (allModels m) []).map (fun c => baseType c.exampleVal.typ)).Nodup ∧
    (∀ c ∈ allModels m, baseType c.exampleVal.typ ∈
      (firstReferences (allModels m) []).map (fun c => baseType c.exampleVal.typ)) ∧
    (firstReferences (allModels m) []).Sublist (allModels m) ∧
    (∀ t, baseType (GoType.ptr t) = baseType t) ∧
    MultiQuery.Run m output = fillOutput loaders output (runQueries m ([], []) []).1 ∧
    finalizeCalls (buildItemMap loaders 0 []) (List.range loaders.length) loaders <+:
      List.range loaders.length ∧
    finalizeAll (buildItemMap loaders 0 [])
        (finalizeCalls (buildItemMap loaders 0 []) (List.range loaders.length) loaders) loaders =
      finalizeAll (buildItemMap loaders 0 []) (List.range loaders.length) loaders ∧
    ((finalizeAll (buildItemMap loaders 0 []) (List.range loaders.length) loaders).isOk = true →
      finalizeCalls (buildItemMap loaders 0 []) (List.range loaders.length) loaders =
        List.range loaders.length) := by
  refine ⟨?_, firstReferences_nodup _ _, ?_, firstReferences_sublist _ _, fun _ => rfl, ?_,
    finalizeCalls_prefix _ _ _, finalizeAll_finalizeCalls _ _ _, finalizeCalls_all _ _ _⟩
  · have := runQueries_firstReferences m [] [] [] [] loaders
      (by intro t; simp [itemMapGet]) hrun
    simpa using this
  · intro c hc
    rcases firstReferences_covers (allModels m) [] c hc with h | h
    · cases h
    · exact h
  · unfold MultiQuery.Run
    simp only [hrun]

/-- Witness of the amended claim C21, scenario B: `Keeper` and `Child` in
the first query, `Keeper` and `Pet` in the second, give the three loaders
of `Keeper`, `Child` and `Pet`, and `finalize` is called on each. -/
theorem MultiQuery_Run_loaders_and_finalize_calls_witness :
    (runQueries [scenarioBStepA, scenarioBStepB] ([], []) []).2 = Res.ok scenarioBStore ∧
    scenarioBStore.map freshLoader =
      [newModelLoader keeperModel, newModelLoader childModel, newModelLoader petModel] ∧
    finalizeCalls (buildItemMap scenarioBStore 0 []) (List.range scenarioBStore.length)
      scenarioBStore = [0, 1, 2] ∧
    (scenarioBStore.map freshLoader =
      (firstReferences (allModels [scenarioBStepA, scenarioBStepB]) []).map
        (fun c => newModelLoader c.exampleVal) ∧
    ((firstReferences (allModels [scenarioBStepA, scenarioBStepB]) []).map
      (fun c => baseType c.exampleVal.typ)).Nodup ∧
    (∀ c ∈ allModels [scenarioBStepA, scenarioBStepB], baseType c.exampleVal.typ ∈
      (firstReferences (allModels [scenarioBStepA, scenarioBStepB]) []).map
        (fun c => baseType c.exampleVal.typ)) ∧
    (firstReferences (allModels [scenarioBStepA, scenarioBStepB]) []).Sublist
      (allModels [scenarioBStepA, scenarioBStepB]) ∧
    (∀ t, baseType (GoType.ptr t) = baseType t) ∧
    MultiQuery.Run [scenarioBStepA, scenarioBStepB] [keepersOut] =
      fillOutput scenarioBStore [keepersOut]
        (runQueries [scenarioBStepA, scenarioBStepB] ([], []) []).1 ∧
    finalizeCalls (buildItemMap scenarioBStore 0 []) (List.range scenarioBStore.length)
        scenarioBStore <+: List.range scenarioBStore.length ∧
    finalizeAll (buildItemMap scenarioBStore 0 [])
        (finalizeCalls (buildItemMap scenarioBStore 0 []) (List.range scenarioBStore.length)
          scenarioBStore) scenarioBStore =
      finalizeAll (buildItemMap scenarioBStore 0 []) (List.range scenarioBStore.length)
        scenarioBStore ∧
    ((finalizeAll (buildItemMap scenarioBStore 0 []) (List.range scenarioBStore.length)
        scenarioBStore).isOk = true →
      finalizeCalls (buildItemMap scenarioBStore 0 []) (List.range scenarioBStore.length)
        scenarioBStore = List.range scenarioBStore.length)) :=
  ⟨rfl, rfl, rfl,
   MultiQuery_Run_loaders_and_finalize_calls [scenarioBStepA, scenarioBStepB] [keepersOut]
     scenarioBStore rfl⟩

/-! ## Relationships across queries and single relationships, evaluated -/

/-- Claim C17, evaluated. With keys that are plain values the wiring does
use the structs of all queries: in scenario B the one `Keeper` struct gets
the children of the first query and the pet of the second. But when the
first query loads `Owner{ID: 1}` and the second loads `Kid{ID: 5}` whose
`ParentID` points to 1, equal to the owner's key once the pointer is
followed, `Run` returns without error and the owner in the output has no
kid; so it is with the two queries in the opposite order. -/
theorem MultiQuery_Run_misses_target_of_other_query :
    (MultiQuery.Run [scenarioBStepA, scenarioBStepB] [keepersOut]).outputs =
      [Output.ptr (GoType.slice (GoType.named "Keeper"))
        (Slot.vals [Entity.mk [("ID", Value.uint 1), ("Name", Value.str "K1")]
          [("Children", Slot.vals [childC1, childC2]), ("Pets", Slot.ptrs [⟨2, 0⟩])]])] ∧
    (runQueries [ownersQuery, kidsQuery] ([], []) []).2 = Res.ok kidStore ∧
    ((getItem kidStore ⟨1, 0⟩).bind (fun e => e.field "ParentID")).map derefAll =
      (getItem kidStore ⟨0, 0⟩).bind (fun e => e.field "ID") ∧
    (MultiQuery.Run [ownersQuery, kidsQuery] [ownersOut]).outcome = Res.ok () ∧
    (MultiQuery.Run [ownersQuery, kidsQuery] [ownersOut]).outputs =
      [Output.ptr (GoType.slice (GoType.named "Owner"))
        (Slot.vals [Entity.mk [("ID", Value.uint 1)] [("Kids", Slot.vals [])]])] ∧
    (MultiQuery.Run [kidsQuery, ownersQuery] [ownersOut]).outcome = Res.ok () ∧
    (MultiQuery.Run [kidsQuery, ownersQuery] [ownersOut]).outputs =
      [Output.ptr (GoType.slice (GoType.named "Owner"))
        (Slot.vals [Entity.mk [("ID", Value.uint 1)] [("Kids", Slot.vals [])]])] :=
  ⟨rfl, rfl, rfl, rfl, rfl, rfl, rfl⟩

/-- Claim C18, evaluated. With the plain key `Drill.UnitID uint`, `finalize`
sets `Unit.First` of unit 3 to the drill 9, the first of its two drills, and
leaves that of unit 4 nil. With `Drill.UnitID *uint` the drills 9 and 10
point to 3, the key of unit 3, and `finalize` changes nothing: `First` of
unit 3 stays nil. With the belongs-to field `Manager` of `EmployeeDefault`
and the key names gorm gives it, the employee 2, whose `ManagerID` is 1,
keeps `Manager` nil although the employee 1 is loaded, and the employee 1
gets as `Manager` the employee 2, whose manager it is. -/
theorem finalize_single_misses_matching_target :
    (match finalize 0 (buildItemMap unitStore 0 []) unitStore with
     | Res.ok store =>
         [(getItem store ⟨0, 0⟩).bind (fun e => e.rel "First"),
          (getItem store ⟨0, 1⟩).bind (fun e => e.rel "First")]
     | _ => []) = [some (Slot.ptr (some ⟨1, 0⟩)), some (Slot.ptr none)] ∧
    ((getItem unitPtrStore ⟨1, 0⟩).bind (fun e => e.field "UnitID")).map derefAll =
      (getItem unitPtrStore ⟨0, 0⟩).bind (fun e => e.field "UnitID") ∧
    (getItem unitPtrStore ⟨1, 0⟩).map (fun e => targetKey e ["UnitID"] 0 "") =
      some (Res.ok "[0:0xc010]") ∧
    (getItem unitPtrStore ⟨0, 0⟩).map (fun e => ownerKey e ["UnitID"] 0 "") =
      some (Res.ok "[0:3]") ∧
    finalize 0 (buildItemMap unitPtrStore 0 []) unitPtrStore = Res.ok unitPtrStore ∧
    (getItem unitPtrStore ⟨0, 0⟩).bind (fun e => e.rel "First") = some (Slot.ptr none) ∧
    (defaultJoinQuery.Run [employeeDefaultsOut]).outcome = Res.ok () ∧
    (getItem (defaultJoinQuery.Run [employeeDefaultsOut]).loaders ⟨1, 0⟩).map
        (fun e => (e.field "ID", e.field "ManagerID", e.rel "Manager")) =
      some (some (Value.uint 1), some (Value.uint 0), some (Slot.ptr (some ⟨1, 1⟩))) ∧
    (getItem (defaultJoinQuery.Run [employeeDefaultsOut]).loaders ⟨1, 1⟩).map
        (fun e => (e.field "ID", e.field "ManagerID", e.rel "Manager")) =
      some (some (Value.uint 2), some (Value.uint 1), some (Slot.ptr none)) :=
  ⟨rfl, rfl, rfl, rfl, rfl, rfl, rfl, rfl, rfl⟩

/-- A nil pointer of a `Valuer` type as key field: the call of `Value()` in
`finalize` panics, on the target side and on the owner side. -/
theorem finalize_key_of_nil_Valuer_pointer_panics :
    targetKey (Entity.mk [("AuthorID", Value.nilValuer)] []) ["AuthorID"] 0 "" = Res.crash ∧
    ownerKey (Entity.mk [("AuthorID", Value.nilValuer)] []) ["AuthorID"] 0 "" = Res.crash ∧
    ownerKey (Entity.mk [("Code", Value.nil)] []) ["Code"] 0 "" = Res.ok "[0:<nil>]" :=
  ⟨rfl, rfl, rfl⟩

end Hydrate
